import Mathlib

/-!
# GLVis export routines of `examples/vis.c`

A shallow embedding of the mesh and grid-function writers of `vis.c` and the
properties of their output.

Conventions of the embedding.

* C `int` values are Lean `Int`; the statements hold in exact integer
  arithmetic, that is for runs in which no signed overflow (undefined in C)
  occurs.
* C `double` values are exact rationals `ℚ`; the `%.14e` rendering of a number
  is not modelled, a printed number is the rational itself.
* A `double *` argument is `Option (Int → ℚ)`: `none` is `NULL`, and `some f`
  is a pointer whose element at offset `n` is `f n`.
* A text file is the sequence of the records written to it; its fixed layout
  is `MeshFile.lines`, and the routines return the variable parts.
* Every element, vertex and value record is kept together with the loop
  indices that were in effect when it was printed.
-/

namespace GLVis

/-! ## Data model -/

/-- Modelled from the spec: the integer index triple `hypre_Index` of the grid
library (its declaration is in the library headers). A two-dimensional index
keeps a third component. -/
structure hypre_Index where
  x : Int
  y : Int
  z : Int
deriving DecidableEq

/-- Component `d` of an index (`hypre_IndexD`). -/
def hypre_IndexD (index : hypre_Index) (d : Nat) : Int :=
  match d with
  | 0 => index.x
  | 1 => index.y
  | _ => index.z

/-- Modelled from the spec: the Box of the grid library, an axis-aligned integer
index range `[min_d, max_d]` per axis. -/
structure hypre_Box where
  imin : hypre_Index
  imax : hypre_Index
deriving DecidableEq

/-- Lower bound of the box on axis `d` (`hypre_BoxIMinD`). -/
def hypre_BoxIMinD (box : hypre_Box) (d : Nat) : Int := hypre_IndexD box.imin d

/-- Upper bound of the box on axis `d` (`hypre_BoxIMaxD`). -/
def hypre_BoxIMaxD (box : hypre_Box) (d : Nat) : Int := hypre_IndexD box.imax d

/-- Modelled from the spec: the per-axis extent `max_d - min_d + 1` of a Box
(the library macro `hypre_BoxSizeD`). -/
def hypre_BoxSizeD (box : hypre_Box) (d : Nat) : Int :=
  hypre_BoxIMaxD box d - hypre_BoxIMinD box d + 1

/-- Modelled from the spec: the Box volume, the product of `max_d - min_d + 1`
over the axes (the library's `hypre_BoxVolume`). A two-dimensional box is one
whose range on axis 2 is a single index. -/
def hypre_BoxVolume (box : hypre_Box) : Int :=
  hypre_BoxSizeD box 0 * hypre_BoxSizeD box 1 * hypre_BoxSizeD box 2

/-- Modelled from the spec: the variable kinds of the grid library
(`HYPRE_SStructVariable`); `FACE` stands for the kinds that are neither
cell-centered nor node-centered. -/
inductive HYPRE_SStructVariable where
  | CELL
  | NODE
  | FACE
deriving DecidableEq

/-- Modelled from the spec: `hypre_StructGrid`, a dimension and an ordered
sequence of boxes (`hypre_StructGridBoxes`). -/
structure hypre_StructGrid where
  ndim : Int
  boxes : List hypre_Box
deriving DecidableEq

/-- Modelled from the spec: one Part of a multi-part grid
(`hypre_SStructPGrid`): `sgrids0` is `sgrids[0]`, the cell grid of the part,
and `vartypes` the kinds of its variables. -/
structure hypre_SStructPGrid where
  sgrids0 : hypre_StructGrid
  vartypes : List HYPRE_SStructVariable
deriving DecidableEq

/-- Modelled from the spec: `hypre_SStructGrid`; `nparts` is the length of
`pgrids`. -/
structure hypre_SStructGrid where
  ndim : Int
  pgrids : List hypre_SStructPGrid
deriving DecidableEq

/-- Number of parts of the grid. -/
def hypre_SStructGrid.nparts (grid : hypre_SStructGrid) : Nat := grid.pgrids.length

/-! ## Output model -/

/-- One record of a text file, as written by a `fprintf` call (or, for an
element, by the calls that make up its line). -/
inductive Line where
  | text (s : String)
  | int (n : Int)
  | element (attr : Int) (geom : Int) (ids : List Int)
  | vertex (coords : List ℚ)
  | value (v : ℚ)
deriving DecidableEq

/-- An element line `<attr> <geom> <v0> ... `. -/
structure Element where
  attr : Int
  geom : Int
  ids : List Int
deriving DecidableEq

/-- The loop indices of a cell: part `p`, box `b` of the part, and the cell
index `(i, j, k)`. -/
structure CellRef where
  p : Nat
  b : Nat
  i : Int
  j : Int
  k : Int
deriving DecidableEq

/-- A cell corner: the cell and the offset `(di, dj, dk)` added to its index
in the printed expression. -/
structure CornerRef where
  cell : CellRef
  di : Int
  dj : Int
  dk : Int
deriving DecidableEq

/-- Raw index of a corner on axis 0. -/
def CornerRef.ri (c : CornerRef) : Int := c.cell.i + c.di

/-- Raw index of a corner on axis 1. -/
def CornerRef.rj (c : CornerRef) : Int := c.cell.j + c.dj

/-- Raw index of a corner on axis 2. -/
def CornerRef.rk (c : CornerRef) : Int := c.cell.k + c.dk

/-- The variable parts of a mesh file, in the order in which they are written:
the dimension, the element count header, the element lines, the vertex count
header, the dimension again, and the vertex lines. Element and vertex lines
carry the loop indices in effect when they were printed. -/
structure MeshFile where
  dim : Int
  nelem : Int
  elements : List (CellRef × Element)
  nvert : Int
  vdim : Int
  vertices : List (CornerRef × List ℚ)
deriving DecidableEq

/-- The sequence of `fprintf` records of a mesh file. -/
def MeshFile.lines (m : MeshFile) : List Line :=
  [Line.text "MFEM mesh v1.0\n", Line.text "\ndimension\n", Line.int m.dim,
   Line.text "\nelements\n", Line.int m.nelem]
  ++ m.elements.map (fun e => Line.element e.2.attr e.2.geom e.2.ids)
  ++ [Line.text "\nboundary\n", Line.text "0\n",
      Line.text "\nvertices\n", Line.int m.nvert, Line.int m.vdim]
  ++ m.vertices.map (fun v => Line.vertex v.2)

/-- What a routine did: the messages printed on standard output, the name of
the file it opened (created or truncated), the records it passed to `fprintf`
for that file (`none` when it made no such call), and whether it ended in
`exit(1)`. -/
structure Outcome (α : Type) where
  stdout : List String
  opened : Option String
  content : Option α
  exited : Bool

/-! ## Loops and pointers -/

/-- Values of the loop variable of `for (x = lo; x <= hi; x++)`. -/
def loopLe (lo hi : Int) : List Int :=
  (List.range (hi + 1 - lo).toNat).map (fun (n : Nat) => lo + (n : Int))

/-- Values of the loop variable of `for (x = lo; x < hi; x++)`. -/
def loopLt (lo hi : Int) : List Int :=
  (List.range (hi - lo).toNat).map (fun (n : Nat) => lo + (n : Int))

/-- Pointer arithmetic `P += n` on a `double *`. -/
def ptrAdd (P : Option (Int → ℚ)) (n : Int) : Option (Int → ℚ) :=
  P.map (fun f m => f (n + m))

/-- Element access `P[n]`; the routines only evaluate it on a non-`NULL` pointer. -/
def deref (P : Option (Int → ℚ)) (n : Int) : ℚ :=
  match P with
  | some f => f n
  | none => 0

/-- The memory of an array holding the given numbers from offset 0 on. -/
def arrayMem (l : List ℚ) : Int → ℚ :=
  fun n => if 0 ≤ n then l.getD n.toNat 0 else 0

/-- A pointer to the array holding the given numbers. -/
def arrayOf (l : List ℚ) : Option (Int → ℚ) :=
  some (arrayMem l)

/-! ## File names -/

/-- Left-pad with `'0'` up to the given width. -/
def zeroPad (width : Nat) (digits : List Char) : List Char :=
  List.replicate (width - digits.length) '0' ++ digits

/-- The conversion `%06d` of `sprintf`. -/
def fmt06d (n : Int) : String :=
  if n < 0 then String.mk ('-' :: zeroPad 5 (Nat.toDigits 10 n.natAbs))
  else String.mk (zeroPad 6 (Nat.toDigits 10 n.toNat))

/-- The text formatted by `sprintf(file, "%s.%06d", prefix, myid)`. The routines
below are modelled for names that fit their 255-byte name buffer; the buffer
itself is modelled by `sprintfRankFileName`. -/
def rankFileName (pfx : String) (myid : Int) : String :=
  pfx ++ "." ++ fmt06d myid

/-- Size in bytes of the name buffers `char meshfile[255]` and
`char solfile[255]`. -/
def nameBufferSize : Nat := 255

/-- The call `sprintf(meshfile, "%s.%06d", meshfile_prefix, myid)` into the
255-byte buffer: the formatted text when it fits together with its terminating
NUL, `none` when `sprintf` writes past the end of the buffer (undefined
behaviour). -/
def sprintfRankFileName (pfx : String) (myid : Int) : Option String :=
  if (rankFileName pfx myid).utf8ByteSize + 1 ≤ nameBufferSize then
    some (rankFileName pfx myid)
  else none

/-! ## `GLVis_PrintSStructGrid` -/

/-- Vertices per cell: `(dim == 2) ? 4 : 8`. -/
def cellNV (dim : Int) : Int := if dim = 2 then 4 else 8

/-- Geometry tag of the elements: `2*dim-1`. -/
def elemid (dim : Int) : Int := 2 * dim - 1

/-- The counting loop over the boxes of one box array:
`ncells = hypre_BoxVolume(box); nvert += ncells*cellNV; nelem += ncells;`.
The state is `(nvert, nelem)`. -/
def countBoxes (dim : Int) (boxes : List hypre_Box) (st : Int × Int) : Int × Int :=
  boxes.foldl
    (fun st box =>
      let ncells := hypre_BoxVolume box
      (st.1 + ncells * cellNV dim, st.2 + ncells))
    st

/-- The counting loop of `GLVis_PrintSStructGrid` over parts and boxes,
started from `nvert = nelem = 0`; the result is `(nvert, nelem)`. -/
def SStructGrid_counts (grid : hypre_SStructGrid) : Int × Int :=
  grid.pgrids.foldl (fun st part => countBoxes grid.ndim part.sgrids0.boxes st) (0, 0)

/-- One element line: `fprintf(file, "1 %d ", elemid)`, then
`for (v = 0; v < cellNV; v++, vert++) fprintf(file, "%d ", vert)`.
The state is the counter `vert` and the records printed so far. -/
def printElement (dim : Int) (c : CellRef) (st : Int × List (CellRef × Element)) :
    Int × List (CellRef × Element) :=
  let r := (loopLt 0 (cellNV dim)).foldl
    (fun (s : Int × List Int) _ => (s.1 + 1, s.2 ++ [s.1])) (st.1, [])
  (r.1, st.2 ++ [(c, Element.mk 1 (elemid dim) r.2)])

/-- The element loops over the cells of one box (`k` outermost, then `j`,
then `i`), for box `b` of part `p`. -/
def elementsOfBox (dim : Int) (p b : Nat) (box : hypre_Box)
    (st : Int × List (CellRef × Element)) : Int × List (CellRef × Element) :=
  (loopLe (hypre_BoxIMinD box 2) (hypre_BoxIMaxD box 2)).foldl
    (fun st k =>
      (loopLe (hypre_BoxIMinD box 1) (hypre_BoxIMaxD box 1)).foldl
        (fun st j =>
          (loopLe (hypre_BoxIMinD box 0) (hypre_BoxIMaxD box 0)).foldl
            (fun st i => printElement dim ⟨p, b, i, j, k⟩ st)
            st)
        st)
    st

/-- The element loop over the boxes of part `p`. -/
def elementsOfBoxes (dim : Int) (p : Nat) (boxes : List hypre_Box)
    (st : Int × List (CellRef × Element)) : Int × List (CellRef × Element) :=
  boxes.enum.foldl (fun st bb => elementsOfBox dim p bb.1 bb.2 st) st

/-- The element pass of `GLVis_PrintSStructGrid`, started with `vert = 0`. -/
def SStructGrid_elements (grid : hypre_SStructGrid) : Int × List (CellRef × Element) :=
  grid.pgrids.enum.foldl
    (fun st pp => elementsOfBoxes grid.ndim pp.1 pp.2.sgrids0.boxes st)
    (0, [])

/-- The vertex lines of one cell: the body of the innermost loop of the vertex
pass, with its four branches on `dim == 2` and `given_trans`. In the branches
for `dim == 2` the index `k` is not used. -/
def printCellVertices (dim : Int) (given_trans : Bool) (T O : Option (Int → ℚ))
    (x0 y0 z0 h : ℚ) (c : CellRef) : List (CornerRef × List ℚ) :=
  let i := c.i
  let j := c.j
  let k := c.k
  if dim = 2 then
    if !given_trans then
      [(⟨c, 0, 0, 0⟩, [x0 + (i : ℚ) * h, y0 + (j : ℚ) * h]),
       (⟨c, 1, 0, 0⟩, [x0 + ((i + 1 : Int) : ℚ) * h, y0 + (j : ℚ) * h]),
       (⟨c, 1, 1, 0⟩, [x0 + ((i + 1 : Int) : ℚ) * h, y0 + ((j + 1 : Int) : ℚ) * h]),
       (⟨c, 0, 1, 0⟩, [x0 + (i : ℚ) * h, y0 + ((j + 1 : Int) : ℚ) * h])]
    else
      [(⟨c, 0, 0, 0⟩,
         [deref T 0 * (i : ℚ) + deref T 1 * (j : ℚ) + deref O 0,
          deref T 2 * (i : ℚ) + deref T 3 * (j : ℚ) + deref O 1]),
       (⟨c, 1, 0, 0⟩,
         [deref T 0 * ((i + 1 : Int) : ℚ) + deref T 1 * (j : ℚ) + deref O 0,
          deref T 2 * ((i + 1 : Int) : ℚ) + deref T 3 * (j : ℚ) + deref O 1]),
       (⟨c, 1, 1, 0⟩,
         [deref T 0 * ((i + 1 : Int) : ℚ) + deref T 1 * ((j + 1 : Int) : ℚ) + deref O 0,
          deref T 2 * ((i + 1 : Int) : ℚ) + deref T 3 * ((j + 1 : Int) : ℚ) + deref O 1]),
       (⟨c, 0, 1, 0⟩,
         [deref T 0 * (i : ℚ) + deref T 1 * ((j + 1 : Int) : ℚ) + deref O 0,
          deref T 2 * (i : ℚ) + deref T 3 * ((j + 1 : Int) : ℚ) + deref O 1])]
  else
    if !given_trans then
      [(⟨c, 0, 0, 0⟩, [x0 + (i : ℚ) * h, y0 + (j : ℚ) * h, z0 + (k : ℚ) * h]),
       (⟨c, 1, 0, 0⟩, [x0 + ((i + 1 : Int) : ℚ) * h, y0 + (j : ℚ) * h, z0 + (k : ℚ) * h]),
       (⟨c, 1, 1, 0⟩, [x0 + ((i + 1 : Int) : ℚ) * h, y0 + ((j + 1 : Int) : ℚ) * h, z0 + (k : ℚ) * h]),
       (⟨c, 0, 1, 0⟩, [x0 + (i : ℚ) * h, y0 + ((j + 1 : Int) : ℚ) * h, z0 + (k : ℚ) * h]),
       (⟨c, 0, 0, 1⟩, [x0 + (i : ℚ) * h, y0 + (j : ℚ) * h, z0 + ((k + 1 : Int) : ℚ) * h]),
       (⟨c, 1, 0, 1⟩, [x0 + ((i + 1 : Int) : ℚ) * h, y0 + (j : ℚ) * h, z0 + ((k + 1 : Int) : ℚ) * h]),
       (⟨c, 1, 1, 1⟩, [x0 + ((i + 1 : Int) : ℚ) * h, y0 + ((j + 1 : Int) : ℚ) * h, z0 + ((k + 1 : Int) : ℚ) * h]),
       (⟨c, 0, 1, 1⟩, [x0 + (i : ℚ) * h, y0 + ((j + 1 : Int) : ℚ) * h, z0 + ((k + 1 : Int) : ℚ) * h])]
    else
      [(⟨c, 0, 0, 0⟩,
         [deref T 0 * (i : ℚ) + deref T 1 * (j : ℚ) + deref T 2 * (k : ℚ) + deref O 0,
          deref T 3 * (i : ℚ) + deref T 4 * (j : ℚ) + deref T 5 * (k : ℚ) + deref O 1,
          deref T 6 * (i : ℚ) + deref T 7 * (j : ℚ) + deref T 8 * (k : ℚ) + deref O 2]),
       (⟨c, 1, 0, 0⟩,
         [deref T 0 * ((i + 1 : Int) : ℚ) + deref T 1 * (j : ℚ) + deref T 2 * (k : ℚ) + deref O 0,
          deref T 3 * ((i + 1 : Int) : ℚ) + deref T 4 * (j : ℚ) + deref T 5 * (k : ℚ) + deref O 1,
          deref T 6 * ((i + 1 : Int) : ℚ) + deref T 7 * (j : ℚ) + deref T 8 * (k : ℚ) + deref O 2]),
       (⟨c, 1, 1, 0⟩,
         [deref T 0 * ((i + 1 : Int) : ℚ) + deref T 1 * ((j + 1 : Int) : ℚ) + deref T 2 * (k : ℚ) + deref O 0,
          deref T 3 * ((i + 1 : Int) : ℚ) + deref T 4 * ((j + 1 : Int) : ℚ) + deref T 5 * (k : ℚ) + deref O 1,
          deref T 6 * ((i + 1 : Int) : ℚ) + deref T 7 * ((j + 1 : Int) : ℚ) + deref T 8 * (k : ℚ) + deref O 2]),
       (⟨c, 0, 1, 0⟩,
         [deref T 0 * (i : ℚ) + deref T 1 * ((j + 1 : Int) : ℚ) + deref T 2 * (k : ℚ) + deref O 0,
          deref T 3 * (i : ℚ) + deref T 4 * ((j + 1 : Int) : ℚ) + deref T 5 * (k : ℚ) + deref O 1,
          deref T 6 * (i : ℚ) + deref T 7 * ((j + 1 : Int) : ℚ) + deref T 8 * (k : ℚ) + deref O 2]),
       (⟨c, 0, 0, 1⟩,
         [deref T 0 * (i : ℚ) + deref T 1 * (j : ℚ) + deref T 2 * ((k + 1 : Int) : ℚ) + deref O 0,
          deref T 3 * (i : ℚ) + deref T 4 * (j : ℚ) + deref T 5 * ((k + 1 : Int) : ℚ) + deref O 1,
          deref T 6 * (i : ℚ) + deref T 7 * (j : ℚ) + deref T 8 * ((k + 1 : Int) : ℚ) + deref O 2]),
       (⟨c, 1, 0, 1⟩,
         [deref T 0 * ((i + 1 : Int) : ℚ) + deref T 1 * (j : ℚ) + deref T 2 * ((k + 1 : Int) : ℚ) + deref O 0,
          deref T 3 * ((i + 1 : Int) : ℚ) + deref T 4 * (j : ℚ) + deref T 5 * ((k + 1 : Int) : ℚ) + deref O 1,
          deref T 6 * ((i + 1 : Int) : ℚ) + deref T 7 * (j : ℚ) + deref T 8 * ((k + 1 : Int) : ℚ) + deref O 2]),
       (⟨c, 1, 1, 1⟩,
         [deref T 0 * ((i + 1 : Int) : ℚ) + deref T 1 * ((j + 1 : Int) : ℚ) + deref T 2 * ((k + 1 : Int) : ℚ) + deref O 0,
          deref T 3 * ((i + 1 : Int) : ℚ) + deref T 4 * ((j + 1 : Int) : ℚ) + deref T 5 * ((k + 1 : Int) : ℚ) + deref O 1,
          deref T 6 * ((i + 1 : Int) : ℚ) + deref T 7 * ((j + 1 : Int) : ℚ) + deref T 8 * ((k + 1 : Int) : ℚ) + deref O 2]),
       (⟨c, 0, 1, 1⟩,
         [deref T 0 * (i : ℚ) + deref T 1 * ((j + 1 : Int) : ℚ) + deref T 2 * ((k + 1 : Int) : ℚ) + deref O 0,
          deref T 3 * (i : ℚ) + deref T 4 * ((j + 1 : Int) : ℚ) + deref T 5 * ((k + 1 : Int) : ℚ) + deref O 1,
          deref T 6 * (i : ℚ) + deref T 7 * ((j + 1 : Int) : ℚ) + deref T 8 * ((k + 1 : Int) : ℚ) + deref O 2])]

/-- The vertex loops over the cells of one box (`k` outermost, then `j`, then
`i`), for box `b` of part `p`; the state is the list of lines printed so far. -/
def verticesOfBox (dim : Int) (given_trans : Bool) (T O : Option (Int → ℚ))
    (x0 y0 z0 h : ℚ) (p b : Nat) (box : hypre_Box)
    (out : List (CornerRef × List ℚ)) : List (CornerRef × List ℚ) :=
  (loopLe (hypre_BoxIMinD box 2) (hypre_BoxIMaxD box 2)).foldl
    (fun out k =>
      (loopLe (hypre_BoxIMinD box 1) (hypre_BoxIMaxD box 1)).foldl
        (fun out j =>
          (loopLe (hypre_BoxIMinD box 0) (hypre_BoxIMaxD box 0)).foldl
            (fun out i =>
              out ++ printCellVertices dim given_trans T O x0 y0 z0 h ⟨p, b, i, j, k⟩)
            out)
        out)
    out

/-- State of the vertex pass: the pointers `T` and `O` and the lines printed. -/
structure VertexState where
  T : Option (Int → ℚ)
  O : Option (Int → ℚ)
  out : List (CornerRef × List ℚ)

/-- The flag `given_trans = (trans != NULL && origin != NULL)`. -/
def given_trans (trans origin : Option (Int → ℚ)) : Bool :=
  trans.isSome && origin.isSome

/-- One iteration of the part loop of the vertex pass of
`GLVis_PrintSStructGrid`: `x0 = y0 = z0 = 0; h = 1.0;`, the loop over the boxes
of the part, then `if (given_trans) { T += dim*dim; O += dim; }`. -/
def verticesOfPart (dim : Int) (given_trans : Bool) (p : Nat)
    (part : hypre_SStructPGrid) (st : VertexState) : VertexState :=
  let out := part.sgrids0.boxes.enum.foldl
    (fun out bb => verticesOfBox dim given_trans st.T st.O 0 0 0 1 p bb.1 bb.2 out)
    st.out
  if given_trans then ⟨ptrAdd st.T (dim * dim), ptrAdd st.O dim, out⟩
  else ⟨st.T, st.O, out⟩

/-- The vertex pass of `GLVis_PrintSStructGrid`, started with `T = trans`,
`O = origin`. -/
def SStructGrid_vertices (grid : hypre_SStructGrid) (trans origin : Option (Int → ℚ)) :
    List (CornerRef × List ℚ) :=
  (grid.pgrids.enum.foldl
    (fun st pp => verticesOfPart grid.ndim (given_trans trans origin) pp.1 pp.2 st)
    (VertexState.mk trans origin [])).out

/-- The routine `GLVis_PrintSStructGrid(grid, meshfile_prefix, myid, trans, origin)`;
`fopen` tells whether the file of a given name can be opened for writing. -/
def GLVis_PrintSStructGrid (fopen : String → Bool) (grid : hypre_SStructGrid)
    ( meshfile_prefix : String) (myid : Int) (trans origin : Option (Int → ℚ)) :
    Outcome MeshFile :=
  let dim := grid.ndim
  let counts := SStructGrid_counts grid
  let nvert := counts.1
  let nelem := counts.2
  let meshfile := rankFileName meshfile_prefix myid
  if !fopen meshfile then
    ⟨["Error: can't open output file " ++ meshfile ++ "\n"], none, none, true⟩
  else
    ⟨[], some meshfile,
      some ⟨dim, nelem, (SStructGrid_elements grid).2, nvert, dim,
        SStructGrid_vertices grid trans origin⟩,
      false⟩

/-! ## `GLVis_PrintStructGrid` -/

/-- The counting loop of `GLVis_PrintStructGrid`; the result is `(nvert, nelem)`. -/
def StructGrid_counts (grid : hypre_StructGrid) : Int × Int :=
  countBoxes grid.ndim grid.boxes (0, 0)

/-- The element pass of `GLVis_PrintStructGrid`, started with `vert = 0`
(the part index of the records is 0). -/
def StructGrid_elements (grid : hypre_StructGrid) : Int × List (CellRef × Element) :=
  elementsOfBoxes grid.ndim 0 grid.boxes (0, [])

/-- One iteration of the box loop of the vertex pass of `GLVis_PrintStructGrid`:
the loops over the cells of the box, then
`if (given_trans) { T += dim*dim; O += dim; }`, which in this routine stands
inside the box loop. -/
def structVerticesOfBox (dim : Int) (given_trans : Bool) (b : Nat) (box : hypre_Box)
    (st : VertexState) : VertexState :=
  let out := verticesOfBox dim given_trans st.T st.O 0 0 0 1 0 b box st.out
  if given_trans then ⟨ptrAdd st.T (dim * dim), ptrAdd st.O dim, out⟩
  else ⟨st.T, st.O, out⟩

/-- The vertex pass of `GLVis_PrintStructGrid`, started with `T = trans`,
`O = origin`. -/
def StructGrid_vertices (grid : hypre_StructGrid) (trans origin : Option (Int → ℚ)) :
    List (CornerRef × List ℚ) :=
  (grid.boxes.enum.foldl
    (fun st bb => structVerticesOfBox grid.ndim (given_trans trans origin) bb.1 bb.2 st)
    (VertexState.mk trans origin [])).out

/-- The routine `GLVis_PrintStructGrid(Grid, meshfile_prefix, myid, trans, origin)`. -/
def GLVis_PrintStructGrid (fopen : String → Bool) (grid : hypre_StructGrid)
    ( meshfile_prefix : String) (myid : Int) (trans origin : Option (Int → ℚ)) :
    Outcome MeshFile :=
  let dim := grid.ndim
  let counts := StructGrid_counts grid
  let nvert := counts.1
  let nelem := counts.2
  let meshfile := rankFileName meshfile_prefix myid
  if !fopen meshfile then
    ⟨["Error: can't open output file " ++ meshfile ++ "\n"], none, none, true⟩
  else
    ⟨[], some meshfile,
      some ⟨dim, nelem, (StructGrid_elements grid).2, nvert, dim,
        StructGrid_vertices grid trans origin⟩,
      false⟩

/-! ## `GLVis_PrintLocalSquareMesh` and `GLVis_PrintLocalCubicMesh` -/

/-- The element loop of `GLVis_PrintLocalSquareMesh`: lines
`"1 3 %d %d %d %d\n"` for `j < ny`, `i < nx`. -/
def LocalSquareMesh_elements (nx ny : Int) : List (CellRef × Element) :=
  (loopLt 0 ny).foldl
    (fun out (j : Int) =>
      (loopLt 0 nx).foldl
        (fun out (i : Int) =>
          out ++ [(⟨0, 0, i, j, 0⟩,
            ⟨1, 3, [i + j * (nx + 1), i + 1 + j * (nx + 1),
                    i + 1 + (j + 1) * (nx + 1), i + (j + 1) * (nx + 1)]⟩)])
        out)
    []

/-- The vertex loop of `GLVis_PrintLocalSquareMesh`: `x = x0+i*h; y = y0+j*h`
for `j < ny+1`, `i < nx+1`. -/
def LocalSquareMesh_vertices (nx ny : Int) (h x0 y0 : ℚ) : List (CornerRef × List ℚ) :=
  (loopLt 0 (ny + 1)).foldl
    (fun out (j : Int) =>
      (loopLt 0 (nx + 1)).foldl
        (fun out (i : Int) =>
          out ++ [(⟨⟨0, 0, i, j, 0⟩, 0, 0, 0⟩, [x0 + (i : ℚ) * h, y0 + (j : ℚ) * h])])
        out)
    []

/-- The routine `GLVis_PrintLocalSquareMesh(meshfile_prefix, nx, ny, h, x0, y0, myid)`. -/
def GLVis_PrintLocalSquareMesh (fopen : String → Bool) ( meshfile_prefix : String)
    (nx ny : Int) (h x0 y0 : ℚ) (myid : Int) : Outcome MeshFile :=
  let Dim : Int := 2
  let NumOfVertices := (nx + 1) * (ny + 1)
  let NumOfElements := nx * ny
  let meshfile := rankFileName meshfile_prefix myid
  if !fopen meshfile then
    ⟨["Error: can't open output file " ++ meshfile ++ "\n"], none, none, true⟩
  else
    ⟨[], some meshfile,
      some ⟨Dim, NumOfElements, LocalSquareMesh_elements nx ny, NumOfVertices, Dim,
        LocalSquareMesh_vertices nx ny h x0 y0⟩,
      false⟩

/-- The element loop of `GLVis_PrintLocalCubicMesh`: lines
`"1 5 %d %d %d %d %d %d %d %d\n"` for `k < nz`, `j < ny`, `i < nx`. -/
def LocalCubicMesh_elements (nx ny nz : Int) : List (CellRef × Element) :=
  (loopLt 0 nz).foldl
    (fun out (k : Int) =>
      (loopLt 0 ny).foldl
        (fun out (j : Int) =>
          (loopLt 0 nx).foldl
            (fun out (i : Int) =>
              out ++ [(⟨0, 0, i, j, k⟩,
                ⟨1, 5,
                 [i + j * (nx + 1) + k * (nx + 1) * (ny + 1),
                  i + 1 + j * (nx + 1) + k * (nx + 1) * (ny + 1),
                  i + 1 + (j + 1) * (nx + 1) + k * (nx + 1) * (ny + 1),
                  i + (j + 1) * (nx + 1) + k * (nx + 1) * (ny + 1),
                  i + j * (nx + 1) + (k + 1) * (nx + 1) * (ny + 1),
                  i + 1 + j * (nx + 1) + (k + 1) * (nx + 1) * (ny + 1),
                  i + 1 + (j + 1) * (nx + 1) + (k + 1) * (nx + 1) * (ny + 1),
                  i + (j + 1) * (nx + 1) + (k + 1) * (nx + 1) * (ny + 1)]⟩)])
            out)
        out)
    []

/-- The vertex loop of `GLVis_PrintLocalCubicMesh`. -/
def LocalCubicMesh_vertices (nx ny nz : Int) (h x0 y0 z0 : ℚ) :
    List (CornerRef × List ℚ) :=
  (loopLt 0 (nz + 1)).foldl
    (fun out (k : Int) =>
      (loopLt 0 (ny + 1)).foldl
        (fun out (j : Int) =>
          (loopLt 0 (nx + 1)).foldl
            (fun out (i : Int) =>
              out ++ [(⟨⟨0, 0, i, j, k⟩, 0, 0, 0⟩,
                [x0 + (i : ℚ) * h, y0 + (j : ℚ) * h, z0 + (k : ℚ) * h])])
            out)
        out)
    []

/-- The routine `GLVis_PrintLocalCubicMesh(meshfile_prefix, nx, ny, nz, h, x0, y0, z0, myid)`. -/
def GLVis_PrintLocalCubicMesh (fopen : String → Bool) ( meshfile_prefix : String)
    (nx ny nz : Int) (h x0 y0 z0 : ℚ) (myid : Int) : Outcome MeshFile :=
  let Dim : Int := 3
  let NumOfVertices := (nx + 1) * (ny + 1) * (nz + 1)
  let NumOfElements := nx * ny * nz
  let meshfile := rankFileName meshfile_prefix myid
  if !fopen meshfile then
    ⟨["Error: can't open output file " ++ meshfile ++ "\n"], none, none, true⟩
  else
    ⟨[], some meshfile,
      some ⟨Dim, NumOfElements, LocalCubicMesh_elements nx ny nz, NumOfVertices, Dim,
        LocalCubicMesh_vertices nx ny nz h x0 y0 z0⟩,
      false⟩

/-! ## `GLVis_PrintSStructVector` and `GLVis_PrintStructVector` -/

/-- Modelled from the spec: the field container of a multi-part grid
(`hypre_SStructVector`) with its operation "get values for an index range"
(`HYPRE_SStructVectorGetBoxValues`): `getBoxValues p ilower iupper var` is the
content of the buffer after the call. -/
structure hypre_SStructVector where
  grid : hypre_SStructGrid
  getBoxValues : Nat → List Int → List Int → Int → (Int → ℚ)

/-- Modelled from the spec: the field container of a single grid
(`hypre_StructVector`) with `HYPRE_StructVectorGetBoxValues`. -/
structure hypre_StructVector where
  grid : hypre_StructGrid
  getBoxValues : List Int → List Int → (Int → ℚ)

/-- One value line `"%.14e\n"`: the loop indices (offsets inside the box) and
corner offset in effect, the index at which `values` is read, and the number
printed. -/
structure ValueLine where
  corner : CornerRef
  index : Int
  value : ℚ
deriving DecidableEq

/-- The buffer allocation and the request made for one box: the number of
`double`s allocated, and the arguments `p`, `ilower`, `iupper`, `var` of the
call. `ilower` and `iupper` list the components that have been assigned. -/
structure BoxRequest where
  p : Nat
  b : Nat
  size : Int
  ilower : List Int
  iupper : List Int
  var : Int
deriving DecidableEq

/-- State of the loops of the vector routines: the requests made and the value
lines printed so far. -/
structure VectorState where
  requests : List BoxRequest
  out : List ValueLine

/-- The variable parts of a grid-function file: the finite element collection
name and the value lines. -/
structure FieldFile where
  fe_coll : String
  values : List ValueLine
deriving DecidableEq

/-- The sequence of `fprintf` records of a grid-function file. -/
def FieldFile.lines (f : FieldFile) : List Line :=
  [Line.text "FiniteElementSpace\n",
   Line.text ("FiniteElementCollection: " ++ f.fe_coll ++ "\n"),
   Line.text "VDim: 1\n", Line.text "Ordering: 0\n\n"]
  ++ f.values.map (fun v => Line.value v.value)

/-- The value loops for a cell-centered variable:
`for k < nk, for j < nj, for i < ni: fprintf(file, "%.14e\n", values[i + j*ni])`. -/
def printCellValues (ni nj nk : Int) (p b : Nat) (values : Int → ℚ)
    (out : List ValueLine) : List ValueLine :=
  (loopLt 0 nk).foldl
    (fun out (k : Int) =>
      (loopLt 0 nj).foldl
        (fun out (j : Int) =>
          (loopLt 0 ni).foldl
            (fun out (i : Int) =>
              out ++ [⟨⟨⟨p, b, i, j, k⟩, 0, 0, 0⟩, i + j * ni, values (i + j * ni)⟩])
            out)
        out)
    out

/-- The value loops for a node-centered variable when `dim == 2` (there is no
`k` loop; the records carry `k = 0`). -/
def printNodeValues2D (ni nj : Int) (p b : Nat) (values : Int → ℚ)
    (out : List ValueLine) : List ValueLine :=
  (loopLt 0 nj).foldl
    (fun out (j : Int) =>
      (loopLt 0 ni).foldl
        (fun out (i : Int) =>
          out ++ [
            ⟨⟨⟨p, b, i, j, 0⟩, 0, 0, 0⟩, i + j * (ni + 1),
              values (i + j * (ni + 1))⟩,
            ⟨⟨⟨p, b, i, j, 0⟩, 1, 0, 0⟩, i + 1 + j * (ni + 1),
              values (i + 1 + j * (ni + 1))⟩,
            ⟨⟨⟨p, b, i, j, 0⟩, 1, 1, 0⟩, i + 1 + (j + 1) * (ni + 1),
              values (i + 1 + (j + 1) * (ni + 1))⟩,
            ⟨⟨⟨p, b, i, j, 0⟩, 0, 1, 0⟩, i + (j + 1) * (ni + 1),
              values (i + (j + 1) * (ni + 1))⟩])
        out)
    out

/-- The value loops for a node-centered variable when `dim != 2`. -/
def printNodeValues3D (ni nj nk : Int) (p b : Nat) (values : Int → ℚ)
    (out : List ValueLine) : List ValueLine :=
  (loopLt 0 nk).foldl
    (fun out (k : Int) =>
      (loopLt 0 nj).foldl
        (fun out (j : Int) =>
          (loopLt 0 ni).foldl
            (fun out (i : Int) =>
              out ++ [
                ⟨⟨⟨p, b, i, j, k⟩, 0, 0, 0⟩, i + j * (ni + 1) + k * (ni + 1) * (nj + 1),
                  values (i + j * (ni + 1) + k * (ni + 1) * (nj + 1))⟩,
                ⟨⟨⟨p, b, i, j, k⟩, 1, 0, 0⟩, i + 1 + j * (ni + 1) + k * (ni + 1) * (nj + 1),
                  values (i + 1 + j * (ni + 1) + k * (ni + 1) * (nj + 1))⟩,
                ⟨⟨⟨p, b, i, j, k⟩, 1, 1, 0⟩, i + 1 + (j + 1) * (ni + 1) + k * (ni + 1) * (nj + 1),
                  values (i + 1 + (j + 1) * (ni + 1) + k * (ni + 1) * (nj + 1))⟩,
                ⟨⟨⟨p, b, i, j, k⟩, 0, 1, 0⟩, i + (j + 1) * (ni + 1) + k * (ni + 1) * (nj + 1),
                  values (i + (j + 1) * (ni + 1) + k * (ni + 1) * (nj + 1))⟩,
                ⟨⟨⟨p, b, i, j, k⟩, 0, 0, 1⟩, i + j * (ni + 1) + (k + 1) * (ni + 1) * (nj + 1),
                  values (i + j * (ni + 1) + (k + 1) * (ni + 1) * (nj + 1))⟩,
                ⟨⟨⟨p, b, i, j, k⟩, 1, 0, 1⟩, i + 1 + j * (ni + 1) + (k + 1) * (ni + 1) * (nj + 1),
                  values (i + 1 + j * (ni + 1) + (k + 1) * (ni + 1) * (nj + 1))⟩,
                ⟨⟨⟨p, b, i, j, k⟩, 1, 1, 1⟩, i + 1 + (j + 1) * (ni + 1) + (k + 1) * (ni + 1) * (nj + 1),
                  values (i + 1 + (j + 1) * (ni + 1) + (k + 1) * (ni + 1) * (nj + 1))⟩,
                ⟨⟨⟨p, b, i, j, k⟩, 0, 1, 1⟩, i + (j + 1) * (ni + 1) + (k + 1) * (ni + 1) * (nj + 1),
                  values (i + (j + 1) * (ni + 1) + (k + 1) * (ni + 1) * (nj + 1))⟩])
            out)
        out)
    out

/-- The body of the box loop of `GLVis_PrintSStructVector` for box `b` of part
`p`: extents, request range, allocation, `HYPRE_SStructVectorGetBoxValues`,
and the value loops selected by `vartype` (none for a kind other than `CELL`
and `NODE`). -/
def sstructValuesOfBox (sol : hypre_SStructVector) (var : Int) (dim : Int)
    (vartype : HYPRE_SStructVariable) (var_off : Int) (p b : Nat) (box : hypre_Box)
    (st : VectorState) : VectorState :=
  let ni := hypre_BoxSizeD box 0
  let nj := hypre_BoxSizeD box 1
  let nk := hypre_BoxSizeD box 2
  let ilower01 := [hypre_BoxIMinD box 0 - var_off, hypre_BoxIMinD box 1 - var_off]
  let iupper01 := [hypre_BoxIMaxD box 0, hypre_BoxIMaxD box 1]
  let size :=
    if dim = 2 then (ni + var_off) * (nj + var_off)
    else (ni + var_off) * (nj + var_off) * (nk + var_off)
  let ilower := if dim = 2 then ilower01 else ilower01 ++ [hypre_BoxIMinD box 2 - var_off]
  let iupper := if dim = 2 then iupper01 else iupper01 ++ [hypre_BoxIMaxD box 2]
  let values := sol.getBoxValues p ilower iupper var
  let out :=
    match vartype with
    | HYPRE_SStructVariable.CELL => printCellValues ni nj nk p b values st.out
    | HYPRE_SStructVariable.NODE =>
      if dim = 2 then printNodeValues2D ni nj p b values st.out
      else printNodeValues3D ni nj nk p b values st.out
    | HYPRE_SStructVariable.FACE => st.out
  ⟨st.requests ++ [⟨p, b, size, ilower, iupper, var⟩], out⟩

/-- The loops over parts and boxes of `GLVis_PrintSStructVector`. -/
def SStructVector_pass (sol : hypre_SStructVector) (var : Int)
    (vartype : HYPRE_SStructVariable) (var_off : Int) : VectorState :=
  sol.grid.pgrids.enum.foldl
    (fun st pp =>
      pp.2.sgrids0.boxes.enum.foldl
        (fun st bb =>
          sstructValuesOfBox sol var sol.grid.ndim vartype var_off pp.1 bb.1 bb.2 st)
        st)
    ⟨[], []⟩

/-- The read `grid->pgrids[0]->vartypes[var]`; `none` when an index is out of
range (the read is then undefined in C). -/
def vartypeOf (grid : hypre_SStructGrid) (var : Int) : Option HYPRE_SStructVariable :=
  match grid.pgrids with
  | [] => none
  | pgrid :: _ => if 0 ≤ var then pgrid.vartypes.get? var.toNat else none

/-- The routine `GLVis_PrintSStructVector(sol, var, solfile_prefix, myid)`: the file is
opened first, then the `switch` on the variable kind sets `fe_coll` and
`var_off` or, in the `default` case, prints a message and exits. An undefined
kind is taken to the `default` case. -/
def GLVis_PrintSStructVector (fopen : String → Bool) (sol : hypre_SStructVector)
    (var : Int) ( solfile_prefix : String) (myid : Int) : Outcome FieldFile :=
  let grid := sol.grid
  let vartype := vartypeOf grid var
  let solfile := rankFileName solfile_prefix myid
  if !fopen solfile then
    ⟨["Error: can't open output file " ++ solfile ++ "\n"], none, none, true⟩
  else
    match vartype with
    | some HYPRE_SStructVariable.CELL =>
      ⟨[], some solfile,
        some ⟨"Local_L2_2D_P0",
          (SStructVector_pass sol var HYPRE_SStructVariable.CELL 0).out⟩,
        false⟩
    | some HYPRE_SStructVariable.NODE =>
      ⟨[], some solfile,
        some ⟨"Local_H1_2D_P1",
          (SStructVector_pass sol var HYPRE_SStructVariable.NODE 1).out⟩,
        false⟩
    | _ => ⟨["Error: unsuported variable type\n"], some solfile, none, true⟩

/-- The body of the box loop of `GLVis_PrintStructVector` for box `b`. -/
def structValuesOfBox (sol : hypre_StructVector) (dim : Int) (b : Nat) (box : hypre_Box)
    (st : VectorState) : VectorState :=
  let ni := hypre_BoxSizeD box 0
  let nj := hypre_BoxSizeD box 1
  let nk := hypre_BoxSizeD box 2
  let ilower01 := [hypre_BoxIMinD box 0, hypre_BoxIMinD box 1]
  let iupper01 := [hypre_BoxIMaxD box 0, hypre_BoxIMaxD box 1]
  let size := if dim = 2 then ni * nj else ni * nj * nk
  let ilower := if dim = 2 then ilower01 else ilower01 ++ [hypre_BoxIMinD box 2]
  let iupper := if dim = 2 then iupper01 else iupper01 ++ [hypre_BoxIMaxD box 2]
  let values := sol.getBoxValues ilower iupper
  ⟨st.requests ++ [⟨0, b, size, ilower, iupper, 0⟩],
    printCellValues ni nj nk 0 b values st.out⟩

/-- The loop over boxes of `GLVis_PrintStructVector`. -/
def StructVector_pass (sol : hypre_StructVector) : VectorState :=
  sol.grid.boxes.enum.foldl
    (fun st bb => structValuesOfBox sol sol.grid.ndim bb.1 bb.2 st)
    ⟨[], []⟩

/-- The routine `GLVis_PrintStructVector(sol, solfile_prefix, myid)`. -/
def GLVis_PrintStructVector (fopen : String → Bool) (sol : hypre_StructVector)
    ( solfile_prefix : String) (myid : Int) : Outcome FieldFile :=
  let solfile := rankFileName solfile_prefix myid
  if !fopen solfile then
    ⟨["Error: can't open output file " ++ solfile ++ "\n"], none, none, true⟩
  else
    ⟨[], some solfile, some ⟨"Local_L2_2D_P0", (StructVector_pass sol).out⟩, false⟩

/-! ## `GLVis_PrintGlobalSquareMesh`, `GLVis_PrintLocalRhombusMesh`, `GLVis_PrintData` -/

/-- The element loop of `GLVis_PrintGlobalSquareMesh`: lines
`"1 3 %d %d %d %d\n"` for `j < n`, `i < n`. -/
def GlobalSquareMesh_elements (n : Int) : List (CellRef × Element) :=
  (loopLt 0 n).foldl
    (fun out (j : Int) =>
      (loopLt 0 n).foldl
        (fun out (i : Int) =>
          out ++ [(⟨0, 0, i, j, 0⟩,
            ⟨1, 3, [i + j * (n + 1), i + 1 + j * (n + 1),
                    i + 1 + (j + 1) * (n + 1), i + (j + 1) * (n + 1)]⟩)])
        out)
    []

/-- The vertex loop of `GLVis_PrintGlobalSquareMesh`: `h = 1.0/n`, and
`x = i*h; y = j*h` for `j < n+1`, `i < n+1`. -/
def GlobalSquareMesh_vertices (n : Int) : List (CornerRef × List ℚ) :=
  let h : ℚ := 1 / (n : ℚ)
  (loopLt 0 (n + 1)).foldl
    (fun out (j : Int) =>
      (loopLt 0 (n + 1)).foldl
        (fun out (i : Int) =>
          out ++ [(⟨⟨0, 0, i, j, 0⟩, 0, 0, 0⟩, [(i : ℚ) * h, (j : ℚ) * h])])
        out)
    []

/-- The routine `GLVis_PrintGlobalSquareMesh(meshfile, n)`; the file name is
`meshfile` itself. -/
def GLVis_PrintGlobalSquareMesh (fopen : String → Bool) (meshfile : String) (n : Int) :
    Outcome MeshFile :=
  let Dim : Int := 2
  let NumOfVertices := (n + 1) * (n + 1)
  let NumOfElements := n * n
  if !fopen meshfile then
    ⟨["Error: can't open output file " ++ meshfile ++ "\n"], none, none, true⟩
  else
    ⟨[], some meshfile,
      some ⟨Dim, NumOfElements, GlobalSquareMesh_elements n, NumOfVertices, Dim,
        GlobalSquareMesh_vertices n⟩,
      false⟩

/-- The vertex loop of `GLVis_PrintLocalRhombusMesh`; the library functions
`sin` and `cos` are parameters. -/
def LocalRhombusMesh_vertices (sin cos : ℚ → ℚ) (n myid : Int) (gamma : ℚ) :
    List (CornerRef × List ℚ) :=
  let h : ℚ := 1 / (n : ℚ)
  let rho := gamma * (myid : ℚ)
  let sg := sin gamma
  let cg := cos gamma
  let sr := sin rho
  let cr := cos rho
  (loopLt 0 (n + 1)).foldl
    (fun out (j : Int) =>
      (loopLt 0 (n + 1)).foldl
        (fun out (i : Int) =>
          let x := (i : ℚ) * h + cg * (j : ℚ) * h
          let y := sg * (j : ℚ) * h
          out ++ [(⟨⟨0, 0, i, j, 0⟩, 0, 0, 0⟩, [cr * x - sr * y, sr * x + cr * y])])
        out)
    []

/-- The routine `GLVis_PrintLocalRhombusMesh(meshfile_prefix, n, myid, gamma)`;
its element loop is that of the `n × n` square mesh. -/
def GLVis_PrintLocalRhombusMesh (fopen : String → Bool) (sin cos : ℚ → ℚ)
    ( meshfile_prefix : String) (n myid : Int) (gamma : ℚ) : Outcome MeshFile :=
  let Dim : Int := 2
  let NumOfVertices := (n + 1) * (n + 1)
  let NumOfElements := n * n
  let meshfile := rankFileName meshfile_prefix myid
  if !fopen meshfile then
    ⟨["Error: can't open output file " ++ meshfile ++ "\n"], none, none, true⟩
  else
    ⟨[], some meshfile,
      some ⟨Dim, NumOfElements, GlobalSquareMesh_elements n, NumOfVertices, Dim,
        LocalRhombusMesh_vertices sin cos n myid gamma⟩,
      false⟩

/-- The conversion `%d` of `fprintf`. -/
def fmt_d (n : Int) : String :=
  if n < 0 then String.mk ('-' :: Nat.toDigits 10 n.natAbs)
  else String.mk (Nat.toDigits 10 n.toNat)

/-- The variable part of the data file: the number of processes. -/
structure DataFile where
  num_procs : Int
deriving DecidableEq

/-- The single record `"np %d\n"` of the data file. -/
def DataFile.lines (d : DataFile) : List Line :=
  [Line.text ("np " ++ fmt_d d.num_procs ++ "\n")]

/-- The routine `GLVis_PrintData(datafile, myid, num_procs)`. On rank 0 the
result of `fopen` is not tested: when the file cannot be opened the routine goes
on to call `fprintf` on the null stream (undefined in C), which is recorded as a
write attempt with no file opened, no message and no `exit`. -/
def GLVis_PrintData (fopen : String → Bool) (datafile : String) (myid num_procs : Int) :
    Outcome DataFile :=
  if myid = 0 then
    if fopen datafile then ⟨[], some datafile, some ⟨num_procs⟩, false⟩
    else ⟨[], none, some ⟨num_procs⟩, false⟩
  else ⟨[], none, none, false⟩

/-! ## Reference enumerations -/

/-- The cells of box `b` of part `p` in the order `k` (outermost), `j`, `i`
(innermost), each index running over `[min_d, max_d]` inclusive. -/
def boxCells (p b : Nat) (box : hypre_Box) : List CellRef :=
  (loopLe (hypre_BoxIMinD box 2) (hypre_BoxIMaxD box 2)).flatMap fun k =>
    (loopLe (hypre_BoxIMinD box 1) (hypre_BoxIMaxD box 1)).flatMap fun j =>
      (loopLe (hypre_BoxIMinD box 0) (hypre_BoxIMaxD box 0)).map fun i =>
        (⟨p, b, i, j, k⟩ : CellRef)

/-- The cells of a box array, box after box. -/
def boxesCells (p : Nat) (boxes : List hypre_Box) : List CellRef :=
  boxes.enum.flatMap fun bb => boxCells p bb.1 bb.2

/-- The cells of a multi-part grid: part order, then box order, then the cell
order of `boxCells`. -/
def gridCells (grid : hypre_SStructGrid) : List CellRef :=
  grid.pgrids.enum.flatMap fun pp => boxesCells pp.1 pp.2.sgrids0.boxes

/-- Sum of the volumes of the boxes of a box array. -/
def boxesVolume (boxes : List hypre_Box) : Int :=
  (boxes.map hypre_BoxVolume).sum

/-- Total cell count of a multi-part grid: the sum of the box volumes over all
parts. -/
def totalCells (grid : hypre_SStructGrid) : Int :=
  (grid.pgrids.map fun part => boxesVolume part.sgrids0.boxes).sum

/-- The ids `first, first+1, ..., first+n-1`. -/
def consecutiveIds (first : Int) (n : Nat) : List Int :=
  (List.range n).map fun (v : Nat) => first + (v : Int)

/-- The element records of a list of cells when the vertex counter starts at
`first`: one element per cell, in order, each taking the next block of
`cellNV` consecutive ids. -/
def elementRecords (dim : Int) : Int → List CellRef → List (CellRef × Element)
  | _, [] => []
  | first, c :: cs =>
    (c, ⟨1, elemid dim, consecutiveIds first (cellNV dim).toNat⟩)
      :: elementRecords dim (first + cellNV dim) cs

/-- The pointer `T` after `p` executions of `if (given_trans) T += dim*dim;`: the
pointer in effect for part `p` in `GLVis_PrintSStructGrid`. -/
def transOfPart (dim : Int) (given_trans : Bool) (trans : Option (Int → ℚ)) (p : Nat) :
    Option (Int → ℚ) :=
  if given_trans then ptrAdd trans ((p : Int) * (dim * dim)) else trans

/-- The pointer `O` after `p` executions of `if (given_trans) O += dim;`: the
pointer in effect for part `p` in `GLVis_PrintSStructGrid`. -/
def originOfPart (dim : Int) (given_trans : Bool) (origin : Option (Int → ℚ)) (p : Nat) :
    Option (Int → ℚ) :=
  if given_trans then ptrAdd origin ((p : Int) * dim) else origin

/-- The corners of a cell in mesh corner order: `(i,j)`, `(i+1,j)`,
`(i+1,j+1)`, `(i,j+1)`, and for a dimension other than 2 the same four again
one step up on axis 2. -/
def cellCorners (dim : Int) (c : CellRef) : List CornerRef :=
  if dim = 2 then [⟨c, 0, 0, 0⟩, ⟨c, 1, 0, 0⟩, ⟨c, 1, 1, 0⟩, ⟨c, 0, 1, 0⟩]
  else [⟨c, 0, 0, 0⟩, ⟨c, 1, 0, 0⟩, ⟨c, 1, 1, 0⟩, ⟨c, 0, 1, 0⟩,
        ⟨c, 0, 0, 1⟩, ⟨c, 1, 0, 1⟩, ⟨c, 1, 1, 1⟩, ⟨c, 0, 1, 1⟩]

/-- Raw index of a corner on axis `d`. -/
def CornerRef.raw (c : CornerRef) (d : Nat) : Int :=
  match d with
  | 0 => c.ri
  | 1 => c.rj
  | _ => c.rk

/-- Entry `(row, col)` of the row-major `n × n` matrix of part `p`, stored at
`T[p*n*n .. (p+1)*n*n)`. -/
def partMatrix (n : Nat) (T : Int → ℚ) (p row col : Nat) : ℚ :=
  T ((p : Int) * n * n + (row : Int) * n + col)

/-- Entry `row` of the translation of part `p`, stored at `O[p*n .. (p+1)*n)`. -/
def partOffset (n : Nat) (O : Int → ℚ) (p row : Nat) : ℚ :=
  O ((p : Int) * n + row)

/-- The affine image `M · r + O` of an index `r` with `n` components. -/
def affineImage (n : Nat) (M : Nat → Nat → ℚ) (O : Nat → ℚ) (r : Nat → Int) : List ℚ :=
  (List.range n).map fun row =>
    ((List.range n).map fun col => M row col * (r col : ℚ)).sum + O row

/-- The cell index lies in the box: `min_d ≤ index_d ≤ max_d` on the three axes. -/
def CellRef.inBox (c : CellRef) (box : hypre_Box) : Prop :=
  hypre_BoxIMinD box 0 ≤ c.i ∧ c.i ≤ hypre_BoxIMaxD box 0
  ∧ hypre_BoxIMinD box 1 ≤ c.j ∧ c.j ≤ hypre_BoxIMaxD box 1
  ∧ hypre_BoxIMinD box 2 ≤ c.k ∧ c.k ≤ hypre_BoxIMaxD box 2

instance (c : CellRef) (box : hypre_Box) : Decidable (c.inBox box) := by
  unfold CellRef.inBox
  infer_instance

/-- The enumeration order of cells: by part, then box, then `k`, then `j`,
then `i` (lexicographic, `i` varying fastest). -/
def CellRef.before (c d : CellRef) : Prop :=
  c.p < d.p ∨ (c.p = d.p ∧ (c.b < d.b ∨ (c.b = d.b ∧ (c.k < d.k ∨ (c.k = d.k ∧
    (c.j < d.j ∨ (c.j = d.j ∧ c.i < d.i)))))))

instance (c d : CellRef) : Decidable (c.before d) := by
  unfold CellRef.before
  infer_instance

/-- The allocation and request that the box loop body of
`GLVis_PrintSStructVector` makes for box `b` of part `p`. -/
def sstructRequestOfBox (dim var_off var : Int) (p b : Nat) (box : hypre_Box) : BoxRequest :=
  let ni := hypre_BoxSizeD box 0
  let nj := hypre_BoxSizeD box 1
  let nk := hypre_BoxSizeD box 2
  let ilower01 := [hypre_BoxIMinD box 0 - var_off, hypre_BoxIMinD box 1 - var_off]
  let iupper01 := [hypre_BoxIMaxD box 0, hypre_BoxIMaxD box 1]
  let size :=
    if dim = 2 then (ni + var_off) * (nj + var_off)
    else (ni + var_off) * (nj + var_off) * (nk + var_off)
  let ilower := if dim = 2 then ilower01 else ilower01 ++ [hypre_BoxIMinD box 2 - var_off]
  let iupper := if dim = 2 then iupper01 else iupper01 ++ [hypre_BoxIMaxD box 2]
  ⟨p, b, size, ilower, iupper, var⟩

/-- Box `b` of part `p` of a multi-part grid. -/
def boxAt (grid : hypre_SStructGrid) (p b : Nat) : Option hypre_Box :=
  grid.pgrids[p]?.bind fun part => part.sgrids0.boxes[b]?

/-- The statement that every request of a node-centered export asks for the box
extended by one unit at the upper bound: lower corner `min_d`, upper corner
`max_d + 1` on every axis `d < dim`. -/
def RequestsExtendUpper (sol : hypre_SStructVector) (var : Int) : Prop :=
  ∀ r ∈ (SStructVector_pass sol var HYPRE_SStructVariable.NODE 1).requests,
    ∀ box, boxAt sol.grid r.p r.b = some box →
      ∀ d : Nat, (d : Int) < sol.grid.ndim →
        r.ilower[d]? = some (hypre_BoxIMinD box d)
        ∧ r.iupper[d]? = some (hypre_BoxIMaxD box d + 1)

/-! ## Reference form of the value lines -/

/-- The cell offsets visited by the three value loops `k < nk`, `j < nj`,
`i < ni` of a box. -/
def offsetCells3 (ni nj nk : Int) (p b : Nat) : List CellRef :=
  (loopLt 0 nk).flatMap fun k => (loopLt 0 nj).flatMap fun j =>
    (loopLt 0 ni).map fun i => (⟨p, b, i, j, k⟩ : CellRef)

/-- The cell offsets visited by the two value loops `j < nj`, `i < ni` of a box
(offset 0 on axis 2). -/
def offsetCells2 (ni nj : Int) (p b : Nat) : List CellRef :=
  (loopLt 0 nj).flatMap fun j => (loopLt 0 ni).map fun i => (⟨p, b, i, j, 0⟩ : CellRef)

/-- Position of a node in the dense node buffer of a box with extents `ni`, `nj`:
`r_i + r_j*(ni+1)` in 2D and `r_i + r_j*(ni+1) + r_k*(ni+1)*(nj+1)` otherwise,
where `r` is the cell offset plus the corner offset. -/
def nodeIndex (dim ni nj : Int) (r : CornerRef) : Int :=
  if dim = 2 then r.ri + r.rj * (ni + 1)
  else r.ri + r.rj * (ni + 1) + r.rk * (ni + 1) * (nj + 1)

/-- The corner samples of one cell in mesh corner order: for every corner of
`cellCorners` the buffer entry at its `nodeIndex`. -/
def nodeCellLines (dim ni nj : Int) (values : Int → ℚ) (c : CellRef) : List ValueLine :=
  (cellCorners dim c).map fun r =>
    (⟨r, nodeIndex dim ni nj r, values (nodeIndex dim ni nj r)⟩ : ValueLine)

/-- The buffer that `GLVis_PrintSStructVector` retrieves for box `b` of part `p`. -/
def sstructBufferOfBox (sol : hypre_SStructVector) (var dim var_off : Int) (p b : Nat)
    (box : hypre_Box) : Int → ℚ :=
  sol.getBoxValues p (sstructRequestOfBox dim var_off var p b box).ilower
    (sstructRequestOfBox dim var_off var p b box).iupper var

/-- The value lines of a node-centered variable for one box: cell after cell
(`j`, `i` in 2D; `k`, `j`, `i` otherwise), the corner samples of each cell. -/
def nodeValuesOfBox (sol : hypre_SStructVector) (var dim : Int) (p b : Nat)
    (box : hypre_Box) : List ValueLine :=
  (if dim = 2 then offsetCells2 (hypre_BoxSizeD box 0) (hypre_BoxSizeD box 1) p b
    else offsetCells3 (hypre_BoxSizeD box 0) (hypre_BoxSizeD box 1)
      (hypre_BoxSizeD box 2) p b).flatMap
    (nodeCellLines dim (hypre_BoxSizeD box 0) (hypre_BoxSizeD box 1)
      (sstructBufferOfBox sol var dim 1 p b box))

/-- The value lines of a node-centered variable for a whole grid: part order,
then box order. -/
def nodeValueLines (sol : hypre_SStructVector) (var : Int) : List ValueLine :=
  sol.grid.pgrids.enum.flatMap fun pp =>
    pp.2.sgrids0.boxes.enum.flatMap fun bb =>
      nodeValuesOfBox sol var sol.grid.ndim pp.1 bb.1 bb.2

/-- The value lines that the code prints for a cell-centered variable for one
box: for the cell at offset `(i,j,k)` the buffer entry at index `i + j*ni`. -/
def cellValuesOfBox (sol : hypre_SStructVector) (var dim : Int) (p b : Nat)
    (box : hypre_Box) : List ValueLine :=
  (offsetCells3 (hypre_BoxSizeD box 0) (hypre_BoxSizeD box 1)
      (hypre_BoxSizeD box 2) p b).map fun c =>
    (⟨⟨c, 0, 0, 0⟩, c.i + c.j * hypre_BoxSizeD box 0,
      sstructBufferOfBox sol var dim 0 p b box (c.i + c.j * hypre_BoxSizeD box 0)⟩ :
      ValueLine)

/-- The value lines that the code prints for a cell-centered variable for a
whole grid: part order, then box order. -/
def cellValueLines (sol : hypre_SStructVector) (var : Int) : List ValueLine :=
  sol.grid.pgrids.enum.flatMap fun pp =>
    pp.2.sgrids0.boxes.enum.flatMap fun bb =>
      cellValuesOfBox sol var sol.grid.ndim pp.1 bb.1 bb.2

/-- A node-centered field on the 2D grid of the single cell `(0,0)` whose node
buffer holds `v0, v1, v2, v3` at the positions of the corners `(0,0)`, `(1,0)`,
`(1,1)`, `(0,1)`, that is at the indices 0, 1, 3, 2. -/
def sstructVectorCorners (v0 v1 v2 v3 : ℚ) : hypre_SStructVector :=
  ⟨⟨2, [⟨⟨2, [⟨⟨0, 0, 0⟩, ⟨0, 0, 0⟩⟩]⟩, [HYPRE_SStructVariable.NODE]⟩]⟩,
   fun _ _ _ _ => arrayMem [v0, v1, v3, v2]⟩

/-- The cell of the grid that a cell offset of the value loops stands for: the
offset `(i,j,k)` inside box `b` of part `p` is the cell `min + (i,j,k)` of that
box (`none` when the grid has no such box). -/
def absCell (grid : hypre_SStructGrid) (c : CellRef) : Option CellRef :=
  (boxAt grid c.p c.b).map fun box =>
    (⟨c.p, c.b, hypre_BoxIMinD box 0 + c.i, hypre_BoxIMinD box 1 + c.j,
      hypre_BoxIMinD box 2 + c.k⟩ : CellRef)

/-- Every box of the grid is non-empty on every axis: `min_d ≤ max_d`. -/
def BoxesNonEmpty (grid : hypre_SStructGrid) : Prop :=
  ∀ part ∈ grid.pgrids, ∀ box ∈ part.sgrids0.boxes,
    hypre_BoxIMinD box 0 ≤ hypre_BoxIMaxD box 0
    ∧ hypre_BoxIMinD box 1 ≤ hypre_BoxIMaxD box 1
    ∧ hypre_BoxIMinD box 2 ≤ hypre_BoxIMaxD box 2

/-- Every box of the grid spans a single index on axis 2. -/
def BoxesFlat (grid : hypre_SStructGrid) : Prop :=
  ∀ part ∈ grid.pgrids, ∀ box ∈ part.sgrids0.boxes,
    hypre_BoxIMinD box 2 = hypre_BoxIMaxD box 2

/-! ## Example inputs -/

/-- An environment in which every file can be opened. -/
def openAll : String → Bool := fun _ => true

/-- An environment in which only the file of the given name can be opened. -/
def openOnly (name : String) : String → Bool := fun s => decide (s = name)

/-- A single-part 2D grid of one box of 2×2 cells, index range `[0,1]×[0,1]`. -/
def grid2x2 : hypre_SStructGrid :=
  ⟨2, [⟨⟨2, [⟨⟨0, 0, 0⟩, ⟨1, 1, 0⟩⟩]⟩, [HYPRE_SStructVariable.CELL]⟩]⟩

/-- A single-part 3D grid of one box of 1×1×2 cells. -/
def grid1x1x2 : hypre_SStructGrid :=
  ⟨3, [⟨⟨3, [⟨⟨0, 0, 0⟩, ⟨0, 0, 1⟩⟩]⟩, [HYPRE_SStructVariable.CELL]⟩]⟩

/-- A two-part 2D grid, one single-cell box per part. -/
def gridTwoParts : hypre_SStructGrid :=
  ⟨2, [⟨⟨2, [⟨⟨0, 0, 0⟩, ⟨0, 0, 0⟩⟩]⟩, [HYPRE_SStructVariable.CELL]⟩,
       ⟨⟨2, [⟨⟨1, 0, 0⟩, ⟨1, 0, 0⟩⟩]⟩, [HYPRE_SStructVariable.CELL]⟩]⟩

/-- A 2D Struct grid of two single-cell boxes, `(0,0)` and `(1,0)`. -/
def structGridTwoBoxes : hypre_StructGrid :=
  ⟨2, [⟨⟨0, 0, 0⟩, ⟨0, 0, 0⟩⟩, ⟨⟨1, 0, 0⟩, ⟨1, 0, 0⟩⟩]⟩

/-- A cell-centered field on `grid1x1x2` whose buffer for the box is `[10, 20]`. -/
def sstructVector1x1x2 : hypre_SStructVector :=
  ⟨grid1x1x2, fun _ _ _ _ => arrayMem [10, 20]⟩

/-- A field on the 3D Struct grid of one box of 1×1×2 cells whose buffer for
the box is `[10, 20]`. -/
def structVector1x1x2 : hypre_StructVector :=
  ⟨⟨3, [⟨⟨0, 0, 0⟩, ⟨0, 0, 1⟩⟩]⟩, fun _ _ => arrayMem [10, 20]⟩

/-- A node-centered field on the 2D grid of the single cell `(0,0)`. -/
def sstructVectorNode : hypre_SStructVector :=
  ⟨⟨2, [⟨⟨2, [⟨⟨0, 0, 0⟩, ⟨0, 0, 0⟩⟩]⟩, [HYPRE_SStructVariable.NODE]⟩]⟩,
   fun _ _ _ _ => arrayMem [1, 2, 3, 4]⟩

/-- A face-centered field on the 2D grid of the single cell `(0,0)`. -/
def sstructVectorFace : hypre_SStructVector :=
  ⟨⟨2, [⟨⟨2, [⟨⟨0, 0, 0⟩, ⟨0, 0, 0⟩⟩]⟩, [HYPRE_SStructVariable.FACE]⟩]⟩,
   fun _ _ _ _ => arrayMem [1]⟩

/-- A grid of dimension 2 whose only box spans the two indices 0 and 1 on
axis 2. -/
def gridInconsistent : hypre_SStructGrid :=
  ⟨2, [⟨⟨2, [⟨⟨0, 0, 0⟩, ⟨0, 0, 1⟩⟩]⟩, [HYPRE_SStructVariable.CELL]⟩]⟩

/-- The statement that an unsupported variable kind makes
`GLVis_PrintSStructVector` abort before any file has been opened or created. -/
def FailsBeforeOpening (fopen : String → Bool) (sol : hypre_SStructVector) (var : Int)
    (pfx : String) (myid : Int) : Prop :=
  (GLVis_PrintSStructVector fopen sol var pfx myid).exited = true
  ∧ (GLVis_PrintSStructVector fopen sol var pfx myid).opened = none

/-- The statement that `GLVis_PrintSStructGrid` raises a failure rather than
emit a mesh file. -/
def RaisesInsteadOfEmitting (fopen : String → Bool) (grid : hypre_SStructGrid)
    (pfx : String) (myid : Int) (trans origin : Option (Int → ℚ)) : Prop :=
  (GLVis_PrintSStructGrid fopen grid pfx myid trans origin).exited = true
  ∧ (GLVis_PrintSStructGrid fopen grid pfx myid trans origin).content = none

/-- An environment in which no file can be opened. -/
def openNone : String → Bool := fun _ => false

/-- The outcome "report that the file cannot be opened and terminate": the
message on standard output, no file opened, no write attempted, `exit(1)`. -/
def failedOpen {α : Type} (name : String) : Outcome α :=
  ⟨["Error: can't open output file " ++ name ++ "\n"], none, none, true⟩

/-- The number read from a list of decimal digit characters, continuing from
`acc`. -/
def digitsValueFrom (acc : Nat) (cs : List Char) : Nat :=
  cs.foldl (fun a c => 10 * a + (c.toNat - 48)) acc

/-- The number written by a list of decimal digit characters. -/
def digitsValue (cs : List Char) : Nat := digitsValueFrom 0 cs

/-- The number of cells of a box counted over the axes `d < dim` only: the
product of `max_d - min_d + 1` for `d = 0, ..., dim-1`. -/
def boxVolumeD (dim : Int) (box : hypre_Box) : Int :=
  ((List.range dim.toNat).map (hypre_BoxSizeD box)).prod

/-- Total cell count of a multi-part grid when every box is counted over the
axes `d < dim` of the grid. -/
def totalCellsD (grid : hypre_SStructGrid) : Int :=
  (grid.pgrids.map fun part => (part.sgrids0.boxes.map (boxVolumeD grid.ndim)).sum).sum

/-- Every part `p < nparts` is given the `n × n` identity matrix (stored
row-major at `T[p*n*n ..]`) and the zero translation (stored at `O[p*n ..]`). -/
def IdentityPerPart (n nparts : Nat) (T O : Int → ℚ) : Prop :=
  ∀ p, p < nparts → ∀ row, row < n →
    partOffset n O p row = 0
    ∧ ∀ col, col < n → partMatrix n T p row col = if row = col then 1 else 0

/-- Identity matrices and zero translations for two parts of a 2D grid. -/
def identityTwoParts2D : (Int → ℚ) × (Int → ℚ) :=
  (arrayMem [1, 0, 0, 1, 1, 0, 0, 1], arrayMem [0, 0, 0, 0])

/-- The single-part multi-part grid of the same dimension whose part is the
given Struct grid (with one cell-centered variable). -/
def singlePartGrid (grid : hypre_StructGrid) : hypre_SStructGrid :=
  ⟨grid.ndim, [⟨grid, [HYPRE_SStructVariable.CELL]⟩]⟩

/-- The Struct field seen as a field on `singlePartGrid`: the buffers of part 0
are the buffers of the Struct field, for every variable. -/
def singlePartVector (sol : hypre_StructVector) : hypre_SStructVector :=
  ⟨singlePartGrid sol.grid, fun _ il iu _ => sol.getBoxValues il iu⟩

/-- The number of indices in the requested range of a request: the product,
over the axes listed in the request, of the number of integers in
`[ilower_d, iupper_d]`. -/
def BoxRequest.rangeSize (r : BoxRequest) : Int :=
  (List.zipWith (fun lo hi => ((loopLe lo hi).length : Int)) r.ilower r.iupper).prod

/-- The buffer length named for a box with extents `ni`, `nj`, `nk`: for a
cell-centered variable (`var_off = 0`) `ni*nj` when `dim = 2` and `ni*nj*nk`
otherwise, for a node-centered variable (`var_off = 1`) `(ni+1)*(nj+1)` when
`dim = 2` and `(ni+1)*(nj+1)*(nk+1)` otherwise. -/
def bufferLength (dim var_off : Int) (box : hypre_Box) : Int :=
  if dim = 2 then (hypre_BoxSizeD box 0 + var_off) * (hypre_BoxSizeD box 1 + var_off)
  else (hypre_BoxSizeD box 0 + var_off) * (hypre_BoxSizeD box 1 + var_off)
    * (hypre_BoxSizeD box 2 + var_off)

/-- The extents `ni`, `nj`, `nk` of every box of the list are at least 0. -/
def ExtentsNonneg (boxes : List hypre_Box) : Prop :=
  ∀ box ∈ boxes, ∀ d, d < 3 → 0 ≤ hypre_BoxSizeD box d

/-- Every read of a pass of a vector routine hits the buffer allocated for its
box: the line was printed for a box of the grid, the pass made a request for
that box whose allocation has the length `bufferLength`, and the index read
lies in `[0, length)`. -/
def ReadsInsideBuffers (grid : hypre_SStructGrid) (var_off : Int) (st : VectorState) :
    Prop :=
  ∀ v ∈ st.out, ∃ box r,
    boxAt grid v.corner.cell.p v.corner.cell.b = some box
    ∧ r ∈ st.requests ∧ r.p = v.corner.cell.p ∧ r.b = v.corner.cell.b
    ∧ r.size = bufferLength grid.ndim var_off box
    ∧ 0 ≤ v.index ∧ v.index < r.size

/-- Every allocation of a pass of a vector routine has the length
`bufferLength` of its box, its request lists the axes `d < dim`, and the
allocated length is the number of indices in the requested range. -/
def AllocationsMatchRequests (grid : hypre_SStructGrid) (var_off : Int)
    (st : VectorState) : Prop :=
  ∀ r ∈ st.requests, ∃ box,
    boxAt grid r.p r.b = some box
    ∧ r.size = bufferLength grid.ndim var_off box
    ∧ r.ilower.length = grid.ndim.toNat ∧ r.iupper.length = grid.ndim.toNat
    ∧ r.size = r.rangeSize

/-- A prefix of 300 letters `a`. -/
def longPrefix : String := String.mk (List.replicate 300 'a')

/-- Position of the cell at offset `(i,j,k)` of a box in the dense row-major
buffer of the box: `i + j*ni + k*ni*nj`. -/
def rowMajorIndex (ni nj i j k : Int) : Int :=
  i + j * ni + k * ni * nj

/-- The sample of a cell of the grid in a cell-centered field: the entry, at the
row-major position of the cell inside its box, of the buffer retrieved for that
box (`none` when the grid has no such box). -/
def cellSample (sol : hypre_SStructVector) (var : Int) (c : CellRef) : Option ℚ :=
  (boxAt sol.grid c.p c.b).map fun box =>
    sstructBufferOfBox sol var sol.grid.ndim 0 c.p c.b box
      (rowMajorIndex (hypre_BoxSizeD box 0) (hypre_BoxSizeD box 1)
        (c.i - hypre_BoxIMinD box 0) (c.j - hypre_BoxIMinD box 1)
        (c.k - hypre_BoxIMinD box 2))

/-- The cell with the same part, box and `(i,j)` in the lowest layer of its box
(index `min_2` on axis 2). -/
def baseLayerCell (grid : hypre_SStructGrid) (c : CellRef) : CellRef :=
  match boxAt grid c.p c.b with
  | some box => ⟨c.p, c.b, c.i, c.j, hypre_BoxIMinD box 2⟩
  | none => c

/-! ## Auxiliary facts on loops -/

theorem foldl_nested {α β σ : Type} (f : α → List β) (g : σ → β → σ) (l : List α) (s : σ) :
    l.foldl (fun s a => (f a).foldl g s) s = (l.flatMap f).foldl g s := by
  induction l generalizing s with
  | nil => rfl
  | cons a l ih => simp [List.flatMap_cons, List.foldl_append, ih]

theorem foldl_append_out {α β : Type} (f : α → List β) (l : List α) (out : List β) :
    l.foldl (fun out a => out ++ f a) out = out ++ l.flatMap f := by
  induction l generalizing out with
  | nil => simp
  | cons a l ih => simp [List.flatMap_cons, ih, List.append_assoc]

theorem foldl_append_out2 {α β γ : Type} (f : α → β → List γ) (l1 : List α) (l2 : List β)
    (out : List γ) :
    l1.foldl (fun out a => l2.foldl (fun out b => out ++ f a b) out) out
      = out ++ l1.flatMap fun a => l2.flatMap fun b => f a b := by
  have h : (fun (out : List γ) a => l2.foldl (fun out b => out ++ f a b) out)
      = fun out a => out ++ l2.flatMap fun b => f a b := by
    funext out a
    exact foldl_append_out (f a) l2 out
  rw [h, foldl_append_out]

theorem foldl_append_out3 {α β γ δ : Type} (f : α → β → γ → List δ) (l1 : List α)
    (l2 : List β) (l3 : List γ) (out : List δ) :
    l1.foldl (fun out a =>
        l2.foldl (fun out b => l3.foldl (fun out c => out ++ f a b c) out) out) out
      = out ++ l1.flatMap fun a => l2.flatMap fun b => l3.flatMap fun c => f a b c := by
  have h : (fun (out : List δ) a =>
        l2.foldl (fun out b => l3.foldl (fun out c => out ++ f a b c) out) out)
      = fun out a => out ++ l2.flatMap fun b => l3.flatMap fun c => f a b c := by
    funext out a
    exact foldl_append_out2 (f a) l2 l3 out
  rw [h, foldl_append_out]

theorem flatMap_single {α β : Type} (g : α → β) (l : List α) :
    (l.flatMap fun a => [g a]) = l.map g := by
  induction l with
  | nil => rfl
  | cons a l ih => simp [List.flatMap_cons, ih]

/-! ## Count headers -/

theorem countBoxes_eq (dim : Int) (boxes : List hypre_Box) (st : Int × Int) :
    countBoxes dim boxes st
      = (st.1 + boxesVolume boxes * cellNV dim, st.2 + boxesVolume boxes) := by
  unfold countBoxes boxesVolume
  induction boxes generalizing st with
  | nil => simp
  | cons box boxes ih =>
    simp only [List.foldl_cons, List.map_cons, List.sum_cons, ih]
    ext <;> simp <;> ring

theorem SStructGrid_counts_eq (grid : hypre_SStructGrid) :
    SStructGrid_counts grid = (totalCells grid * cellNV grid.ndim, totalCells grid) := by
  unfold SStructGrid_counts totalCells
  suffices h : ∀ (l : List hypre_SStructPGrid) (st : Int × Int),
      l.foldl (fun st part => countBoxes grid.ndim part.sgrids0.boxes st) st
        = (st.1 + (l.map fun part => boxesVolume part.sgrids0.boxes).sum * cellNV grid.ndim,
           st.2 + (l.map fun part => boxesVolume part.sgrids0.boxes).sum) by
    simpa using h grid.pgrids (0, 0)
  intro l
  induction l with
  | nil => intro st; simp
  | cons part l ih =>
    intro st
    rw [List.foldl_cons, ih, countBoxes_eq]
    simp only [List.map_cons, List.sum_cons]
    ext <;> simp <;> ring

theorem GLVis_PrintSStructGrid_content (fopen : String → Bool) (grid : hypre_SStructGrid)
    (pfx : String) (myid : Int) (trans origin : Option (Int → ℚ))
    (h : fopen (rankFileName pfx myid) = true) :
    (GLVis_PrintSStructGrid fopen grid pfx myid trans origin).content
      = some ⟨grid.ndim, (SStructGrid_counts grid).2, (SStructGrid_elements grid).2,
          (SStructGrid_counts grid).1, grid.ndim, SStructGrid_vertices grid trans origin⟩ := by
  simp [GLVis_PrintSStructGrid, h]

theorem GLVis_PrintStructGrid_content (fopen : String → Bool) (grid : hypre_StructGrid)
    (pfx : String) (myid : Int) (trans origin : Option (Int → ℚ))
    (h : fopen (rankFileName pfx myid) = true) :
    (GLVis_PrintStructGrid fopen grid pfx myid trans origin).content
      = some ⟨grid.ndim, (StructGrid_counts grid).2, (StructGrid_elements grid).2,
          (StructGrid_counts grid).1, grid.ndim, StructGrid_vertices grid trans origin⟩ := by
  simp [GLVis_PrintStructGrid, h]

/-- C1: whenever the file can be opened, `GLVis_PrintSStructGrid` writes the
total cell count `C` (sum of the box volumes over all parts) as element count
header and `C * cellNV` as vertex count header, `GLVis_PrintStructGrid` does
the same for the sum of the volumes of its box list, and `cellNV` is 4 for
`dim = 2` and 8 for `dim = 3`. -/
theorem C1_count_headers (fopen : String → Bool) (pfx : String) (myid : Int)
    (trans origin : Option (Int → ℚ)) (h : fopen (rankFileName pfx myid) = true) :
    (∀ grid : hypre_SStructGrid, ∃ m,
        (GLVis_PrintSStructGrid fopen grid pfx myid trans origin).content = some m
        ∧ m.nelem = totalCells grid
        ∧ m.nvert = totalCells grid * cellNV grid.ndim)
    ∧ (∀ grid : hypre_StructGrid, ∃ m,
        (GLVis_PrintStructGrid fopen grid pfx myid trans origin).content = some m
        ∧ m.nelem = boxesVolume grid.boxes
        ∧ m.nvert = boxesVolume grid.boxes * cellNV grid.ndim)
    ∧ cellNV 2 = 4 ∧ cellNV 3 = 8 := by
  refine ⟨fun grid => ⟨_, GLVis_PrintSStructGrid_content fopen grid pfx myid trans origin h, ?_, ?_⟩,
    fun grid => ⟨_, GLVis_PrintStructGrid_content fopen grid pfx myid trans origin h, ?_, ?_⟩,
    by decide, by decide⟩
  · simp [SStructGrid_counts_eq]
  · simp [SStructGrid_counts_eq]
  · simp [StructGrid_counts, countBoxes_eq]
  · simp [StructGrid_counts, countBoxes_eq]

/-! ## Element pass -/

theorem consecutiveIds_succ (first : Int) (n : Nat) :
    consecutiveIds first (n + 1) = first :: consecutiveIds (first + 1) n := by
  simp only [consecutiveIds, List.range_succ_eq_map, List.map_cons, List.map_map]
  simp only [Nat.cast_zero, add_zero, List.cons.injEq, true_and]
  apply List.map_congr_left
  intro v _
  simp only [Function.comp, Nat.succ_eq_add_one, Nat.cast_add, Nat.cast_one]
  ring

theorem idLoop_eq (l : List Int) (v : Int) (acc : List Int) :
    l.foldl (fun (s : Int × List Int) _ => (s.1 + 1, s.2 ++ [s.1])) (v, acc)
      = (v + l.length, acc ++ consecutiveIds v l.length) := by
  induction l generalizing v acc with
  | nil => simp [consecutiveIds]
  | cons a l ih =>
    simp only [List.foldl_cons, ih, List.length_cons, consecutiveIds_succ]
    ext1
    · simp only [Nat.cast_add, Nat.cast_one]; ring
    · simp

theorem loopLt_length (lo hi : Int) : (loopLt lo hi).length = (hi - lo).toNat := by
  simp [loopLt]

theorem loopLe_length (lo hi : Int) : (loopLe lo hi).length = (hi + 1 - lo).toNat := by
  simp [loopLe]

theorem cellNV_nonneg (dim : Int) : 0 ≤ cellNV dim := by
  unfold cellNV; split <;> decide

theorem printElement_eq (dim : Int) (c : CellRef) (st : Int × List (CellRef × Element)) :
    printElement dim c st
      = (st.1 + cellNV dim,
         st.2 ++ [(c, ⟨1, elemid dim, consecutiveIds st.1 (cellNV dim).toNat⟩)]) := by
  unfold printElement
  simp only [idLoop_eq, loopLt_length, sub_zero, List.nil_append]
  rw [Int.toNat_of_nonneg (cellNV_nonneg dim)]

theorem printElement_fold (dim : Int) (cs : List CellRef)
    (st : Int × List (CellRef × Element)) :
    cs.foldl (fun st c => printElement dim c st) st
      = (st.1 + cs.length * cellNV dim, st.2 ++ elementRecords dim st.1 cs) := by
  induction cs generalizing st with
  | nil => simp [elementRecords]
  | cons c cs ih =>
    rw [List.foldl_cons, ih, printElement_eq]
    simp only [elementRecords, List.length_cons]
    ext1
    · simp only [Nat.cast_add, Nat.cast_one]; ring
    · simp

theorem elementsOfBox_eq (dim : Int) (p b : Nat) (box : hypre_Box)
    (st : Int × List (CellRef × Element)) :
    elementsOfBox dim p b box st
      = (boxCells p b box).foldl (fun st c => printElement dim c st) st := by
  unfold elementsOfBox boxCells
  simp only [← foldl_nested, List.foldl_map]

theorem elementsOfBoxes_eq (dim : Int) (p : Nat) (boxes : List hypre_Box)
    (st : Int × List (CellRef × Element)) :
    elementsOfBoxes dim p boxes st
      = (boxesCells p boxes).foldl (fun st c => printElement dim c st) st := by
  unfold elementsOfBoxes boxesCells
  simp only [← foldl_nested, elementsOfBox_eq]

theorem SStructGrid_elements_eq (grid : hypre_SStructGrid) :
    SStructGrid_elements grid
      = ((gridCells grid).length * cellNV grid.ndim,
         elementRecords grid.ndim 0 (gridCells grid)) := by
  unfold SStructGrid_elements gridCells
  simp only [elementsOfBoxes_eq]
  rw [foldl_nested (fun pp : Nat × hypre_SStructPGrid => boxesCells pp.1 pp.2.sgrids0.boxes)
    (fun st c => printElement grid.ndim c st), printElement_fold]
  simp

theorem elementRecords_fst (dim : Int) (first : Int) (cs : List CellRef) :
    (elementRecords dim first cs).map Prod.fst = cs := by
  induction cs generalizing first with
  | nil => rfl
  | cons c cs ih => simp [elementRecords, ih]

theorem elementRecords_getElem? (dim : Int) (first : Int) (cs : List CellRef) (e : Nat) :
    (elementRecords dim first cs)[e]?
      = cs[e]?.map fun c =>
          (c, (⟨1, elemid dim,
            consecutiveIds (first + e * cellNV dim) (cellNV dim).toNat⟩ : Element)) := by
  induction cs generalizing first e with
  | nil => simp [elementRecords]
  | cons c cs ih =>
    cases e with
    | zero => simp [elementRecords]
    | succ e =>
      simp only [elementRecords, List.getElem?_cons_succ, ih]
      congr 1
      funext c
      simp only [Nat.cast_add, Nat.cast_one]
      congr 3
      ring

theorem mem_loopLe (lo hi x : Int) : x ∈ loopLe lo hi ↔ lo ≤ x ∧ x ≤ hi := by
  simp only [loopLe, List.mem_map, List.mem_range]
  constructor
  · rintro ⟨n, hn, rfl⟩
    omega
  · rintro ⟨h1, h2⟩
    exact ⟨(x - lo).toNat, by omega, by omega⟩

theorem loopLe_pairwise (lo hi : Int) : (loopLe lo hi).Pairwise (· < ·) := by
  unfold loopLe
  rw [List.pairwise_map]
  exact (List.pairwise_lt_range _).imp (by intro a b hab; omega)

theorem enum_pairwise {α : Type} (l : List α) :
    l.enum.Pairwise (fun a b => a.1 < b.1) := by
  have h := List.pairwise_lt_range l.length
  rw [← List.enum_map_fst l, List.pairwise_map] at h
  exact h

theorem mem_boxCells (p b : Nat) (box : hypre_Box) (c : CellRef) :
    c ∈ boxCells p b box ↔ c.p = p ∧ c.b = b ∧ c.inBox box := by
  simp only [boxCells, List.mem_flatMap, List.mem_map, mem_loopLe, CellRef.inBox]
  constructor
  · rintro ⟨k, hk, j, hj, i, hi, rfl⟩
    exact ⟨rfl, rfl, hi.1, hi.2, hj.1, hj.2, hk.1, hk.2⟩
  · rintro ⟨rfl, rfl, hi1, hi2, hj1, hj2, hk1, hk2⟩
    exact ⟨c.k, ⟨hk1, hk2⟩, c.j, ⟨hj1, hj2⟩, c.i, ⟨hi1, hi2⟩, rfl⟩

theorem boxCells_pairwise (p b : Nat) (box : hypre_Box) :
    (boxCells p b box).Pairwise CellRef.before := by
  unfold boxCells
  rw [List.pairwise_flatMap]
  constructor
  · intro k _
    rw [List.pairwise_flatMap]
    constructor
    · intro j _
      rw [List.pairwise_map]
      exact (loopLe_pairwise _ _).imp (by
        intro a b hab
        dsimp only [CellRef.before]
        omega)
    · exact (loopLe_pairwise _ _).imp (by
        intro a b hab x hx y hy
        simp only [List.mem_map] at hx hy
        obtain ⟨_, _, rfl⟩ := hx
        obtain ⟨_, _, rfl⟩ := hy
        dsimp only [CellRef.before]
        omega)
  · exact (loopLe_pairwise _ _).imp (by
      intro a b hab x hx y hy
      simp only [List.mem_flatMap, List.mem_map] at hx hy
      obtain ⟨_, _, _, _, rfl⟩ := hx
      obtain ⟨_, _, _, _, rfl⟩ := hy
      dsimp only [CellRef.before]
      omega)

theorem mem_boxesCells (p : Nat) (boxes : List hypre_Box) (c : CellRef) :
    c ∈ boxesCells p boxes ↔ c.p = p ∧ ∃ box, boxes[c.b]? = some box ∧ c.inBox box := by
  simp only [boxesCells, List.mem_flatMap, mem_boxCells, List.mem_enum_iff_getElem?]
  constructor
  · rintro ⟨bb, hbb, hp, hb, hin⟩
    exact ⟨hp, bb.2, by rw [hb]; exact hbb, hin⟩
  · rintro ⟨hp, box, hbox, hin⟩
    exact ⟨(c.b, box), hbox, hp, rfl, hin⟩

theorem boxesCells_pairwise (p : Nat) (boxes : List hypre_Box) :
    (boxesCells p boxes).Pairwise CellRef.before := by
  unfold boxesCells
  rw [List.pairwise_flatMap]
  constructor
  · intro bb _
    exact boxCells_pairwise _ _ _
  · exact (enum_pairwise boxes).imp (by
      intro a b hab x hx y hy
      rw [mem_boxCells] at hx hy
      simp only [CellRef.before]
      omega)

theorem mem_gridCells (grid : hypre_SStructGrid) (c : CellRef) :
    c ∈ gridCells grid ↔ ∃ box, boxAt grid c.p c.b = some box ∧ c.inBox box := by
  simp only [gridCells, List.mem_flatMap, mem_boxesCells, List.mem_enum_iff_getElem?, boxAt]
  constructor
  · rintro ⟨pp, hpp, hp, box, hbox, hin⟩
    refine ⟨box, ?_, hin⟩
    rw [hp, hpp]
    exact hbox
  · rintro ⟨box, hbox, hin⟩
    cases hpart : grid.pgrids[c.p]? with
    | none => simp [hpart] at hbox
    | some part =>
      rw [hpart] at hbox
      exact ⟨(c.p, part), hpart, rfl, box, hbox, hin⟩

theorem gridCells_pairwise (grid : hypre_SStructGrid) :
    (gridCells grid).Pairwise CellRef.before := by
  unfold gridCells
  rw [List.pairwise_flatMap]
  constructor
  · intro pp _
    exact boxesCells_pairwise _ _
  · exact (enum_pairwise grid.pgrids).imp (by
      intro a b hab x hx y hy
      rw [mem_boxesCells] at hx hy
      simp only [CellRef.before]
      omega)

/-- C2: the elements of `GLVis_PrintSStructGrid` are emitted for the cells in
part order, then box order, then `k` (outermost), `j`, `i` (innermost) over
`[min_d, max_d]` inclusive: the cells of the element lines are the list
`gridCells`, which is strictly increasing in that order and holds exactly the
cells lying in a box of the grid. The `e`-th element (from 0, across all boxes
and parts) lists exactly the ids `e*cellNV, e*cellNV+1, ..., e*cellNV+cellNV-1`
in increasing order. -/
theorem C2_element_order (fopen : String → Bool) (grid : hypre_SStructGrid) (pfx : String)
    (myid : Int) (trans origin : Option (Int → ℚ))
    (h : fopen (rankFileName pfx myid) = true) :
    ∃ m, (GLVis_PrintSStructGrid fopen grid pfx myid trans origin).content = some m
      ∧ m.elements.map Prod.fst = gridCells grid
      ∧ (m.elements.map Prod.fst).Pairwise CellRef.before
      ∧ (∀ c, c ∈ m.elements.map Prod.fst
          ↔ ∃ box, boxAt grid c.p c.b = some box ∧ c.inBox box)
      ∧ ∀ e : Nat, e < m.elements.length →
          (m.elements.map fun r => r.2.ids)[e]?
            = some ((List.range (cellNV grid.ndim).toNat).map fun (v : Nat) =>
                (e : Int) * cellNV grid.ndim + (v : Int)) := by
  have hfst : (elementRecords grid.ndim 0 (gridCells grid)).map Prod.fst = gridCells grid :=
    elementRecords_fst _ _ _
  refine ⟨_, GLVis_PrintSStructGrid_content fopen grid pfx myid trans origin h,
    ?_, ?_, ?_, ?_⟩
  · simp [SStructGrid_elements_eq, elementRecords_fst]
  · simp only [SStructGrid_elements_eq, hfst]
    exact gridCells_pairwise grid
  · intro c
    simp only [SStructGrid_elements_eq, hfst]
    exact mem_gridCells grid c
  · intro e he
    simp only [SStructGrid_elements_eq] at he ⊢
    have hlen : (elementRecords grid.ndim 0 (gridCells grid)).length
        = (gridCells grid).length := by
      rw [← List.length_map (elementRecords grid.ndim 0 (gridCells grid)) Prod.fst,
        elementRecords_fst]
    rw [hlen] at he
    simp [elementRecords_getElem?, List.getElem?_eq_getElem he, consecutiveIds]

theorem StructGrid_elements_eq (grid : hypre_StructGrid) :
    StructGrid_elements grid
      = ((boxesCells 0 grid.boxes).length * cellNV grid.ndim,
         elementRecords grid.ndim 0 (boxesCells 0 grid.boxes)) := by
  unfold StructGrid_elements
  rw [elementsOfBoxes_eq, printElement_fold]
  simp

theorem elementRecords_mem (dim : Int) (first : Int) (cs : List CellRef)
    (r : CellRef × Element) (hr : r ∈ elementRecords dim first cs) :
    r.2.attr = 1 ∧ r.2.geom = elemid dim ∧ r.2.ids.length = (cellNV dim).toNat := by
  induction cs generalizing first with
  | nil => simp [elementRecords] at hr
  | cons c cs ih =>
    simp only [elementRecords, List.mem_cons] at hr
    rcases hr with rfl | hr
    · simp [consecutiveIds]
    · exact ih _ hr

theorem LocalSquareMesh_elements_eq (nx ny : Int) :
    LocalSquareMesh_elements nx ny
      = (loopLt 0 ny).flatMap fun j => (loopLt 0 nx).map fun i =>
          ((⟨0, 0, i, j, 0⟩ : CellRef),
            (⟨1, 3, [i + j * (nx + 1), i + 1 + j * (nx + 1),
                     i + 1 + (j + 1) * (nx + 1), i + (j + 1) * (nx + 1)]⟩ : Element)) := by
  unfold LocalSquareMesh_elements
  rw [foldl_append_out2, List.nil_append]
  congr 1
  funext j
  exact flatMap_single _ _

theorem LocalCubicMesh_elements_eq (nx ny nz : Int) :
    LocalCubicMesh_elements nx ny nz
      = (loopLt 0 nz).flatMap fun k => (loopLt 0 ny).flatMap fun j =>
          (loopLt 0 nx).map fun i =>
            ((⟨0, 0, i, j, k⟩ : CellRef),
              (⟨1, 5,
                 [i + j * (nx + 1) + k * (nx + 1) * (ny + 1),
                  i + 1 + j * (nx + 1) + k * (nx + 1) * (ny + 1),
                  i + 1 + (j + 1) * (nx + 1) + k * (nx + 1) * (ny + 1),
                  i + (j + 1) * (nx + 1) + k * (nx + 1) * (ny + 1),
                  i + j * (nx + 1) + (k + 1) * (nx + 1) * (ny + 1),
                  i + 1 + j * (nx + 1) + (k + 1) * (nx + 1) * (ny + 1),
                  i + 1 + (j + 1) * (nx + 1) + (k + 1) * (nx + 1) * (ny + 1),
                  i + (j + 1) * (nx + 1) + (k + 1) * (nx + 1) * (ny + 1)]⟩ : Element)) := by
  unfold LocalCubicMesh_elements
  rw [foldl_append_out3, List.nil_append]
  congr 1
  funext k
  congr 1
  funext j
  exact flatMap_single _ _

/-- C3: every element record of `GLVis_PrintSStructGrid` and
`GLVis_PrintStructGrid` has attribute 1 and geometry tag 3 with 4 vertex ids
when `dim = 2`, tag 5 with 8 vertex ids when `dim = 3`; these are the tags
that `GLVis_PrintLocalSquareMesh` (3) and `GLVis_PrintLocalCubicMesh` (5)
write. -/
theorem C3_element_tags (fopen : String → Bool) (pfx : String) (myid : Int)
    (h : fopen (rankFileName pfx myid) = true) :
    (∀ (grid : hypre_SStructGrid) (trans origin : Option (Int → ℚ)), ∃ m,
        (GLVis_PrintSStructGrid fopen grid pfx myid trans origin).content = some m
        ∧ ∀ r ∈ m.elements, r.2.attr = 1
            ∧ (grid.ndim = 2 → r.2.geom = 3 ∧ r.2.ids.length = 4)
            ∧ (grid.ndim = 3 → r.2.geom = 5 ∧ r.2.ids.length = 8))
    ∧ (∀ (grid : hypre_StructGrid) (trans origin : Option (Int → ℚ)), ∃ m,
        (GLVis_PrintStructGrid fopen grid pfx myid trans origin).content = some m
        ∧ ∀ r ∈ m.elements, r.2.attr = 1
            ∧ (grid.ndim = 2 → r.2.geom = 3 ∧ r.2.ids.length = 4)
            ∧ (grid.ndim = 3 → r.2.geom = 5 ∧ r.2.ids.length = 8))
    ∧ (∀ (nx ny : Int) (hh x0 y0 : ℚ), ∃ m,
        (GLVis_PrintLocalSquareMesh fopen pfx nx ny hh x0 y0 myid).content = some m
        ∧ ∀ r ∈ m.elements, r.2.attr = 1 ∧ r.2.geom = 3 ∧ r.2.ids.length = 4)
    ∧ (∀ (nx ny nz : Int) (hh x0 y0 z0 : ℚ), ∃ m,
        (GLVis_PrintLocalCubicMesh fopen pfx nx ny nz hh x0 y0 z0 myid).content = some m
        ∧ ∀ r ∈ m.elements, r.2.attr = 1 ∧ r.2.geom = 5 ∧ r.2.ids.length = 8) := by
  refine ⟨fun grid trans origin =>
      ⟨_, GLVis_PrintSStructGrid_content fopen grid pfx myid trans origin h, ?_⟩,
    fun grid trans origin =>
      ⟨_, GLVis_PrintStructGrid_content fopen grid pfx myid trans origin h, ?_⟩,
    fun nx ny hh x0 y0 => ⟨_, by simp only [GLVis_PrintLocalSquareMesh, h]; rfl, ?_⟩,
    fun nx ny nz hh x0 y0 z0 => ⟨_, by simp only [GLVis_PrintLocalCubicMesh, h]; rfl, ?_⟩⟩
  · intro r hr
    simp only [SStructGrid_elements_eq] at hr
    obtain ⟨h1, h2, h3⟩ := elementRecords_mem _ _ _ r hr
    refine ⟨h1, fun hd => ?_, fun hd => ?_⟩ <;> simp [h2, h3, hd, elemid, cellNV]
  · intro r hr
    simp only [StructGrid_elements_eq] at hr
    obtain ⟨h1, h2, h3⟩ := elementRecords_mem _ _ _ r hr
    refine ⟨h1, fun hd => ?_, fun hd => ?_⟩ <;> simp [h2, h3, hd, elemid, cellNV]
  · intro r hr
    simp only [LocalSquareMesh_elements_eq, List.mem_flatMap, List.mem_map] at hr
    obtain ⟨j, _, i, _, rfl⟩ := hr
    simp
  · intro r hr
    simp only [LocalCubicMesh_elements_eq, List.mem_flatMap, List.mem_map] at hr
    obtain ⟨k, _, j, _, i, _, rfl⟩ := hr
    simp

/-! ## Vertex pass -/

theorem flatMap_flatMap {α β γ : Type} (l : List α) (f : α → List β) (g : β → List γ) :
    (l.flatMap f).flatMap g = l.flatMap fun a => (f a).flatMap g := by
  induction l with
  | nil => rfl
  | cons a l ih => simp [List.flatMap_cons, List.flatMap_append, ih]

theorem map_flatMap_eq {α β γ : Type} (l : List α) (f : α → β) (g : β → List γ) :
    (l.map f).flatMap g = l.flatMap fun a => g (f a) := by
  induction l with
  | nil => rfl
  | cons a l ih => simp [List.flatMap_cons, ih]

theorem boxCells_flatMap {γ : Type} (p b : Nat) (box : hypre_Box) (g : CellRef → List γ) :
    (boxCells p b box).flatMap g
      = (loopLe (hypre_BoxIMinD box 2) (hypre_BoxIMaxD box 2)).flatMap fun k =>
          (loopLe (hypre_BoxIMinD box 1) (hypre_BoxIMaxD box 1)).flatMap fun j =>
            (loopLe (hypre_BoxIMinD box 0) (hypre_BoxIMaxD box 0)).flatMap fun i =>
              g ⟨p, b, i, j, k⟩ := by
  unfold boxCells
  rw [flatMap_flatMap]
  congr 1
  funext k
  rw [flatMap_flatMap]
  congr 1
  funext j
  rw [map_flatMap_eq]

theorem verticesOfBox_eq (dim : Int) (given_trans : Bool) (T O : Option (Int → ℚ))
    (x0 y0 z0 h : ℚ) (p b : Nat) (box : hypre_Box) (out : List (CornerRef × List ℚ)) :
    verticesOfBox dim given_trans T O x0 y0 z0 h p b box out
      = out ++ (boxCells p b box).flatMap
          (printCellVertices dim given_trans T O x0 y0 z0 h) := by
  unfold verticesOfBox
  rw [foldl_append_out3
    (fun k j i => printCellVertices dim given_trans T O x0 y0 z0 h ⟨p, b, i, j, k⟩),
    boxCells_flatMap]

theorem verticesOfBoxes_eq (dim : Int) (given_trans : Bool) (T O : Option (Int → ℚ))
    (x0 y0 z0 h : ℚ) (p : Nat) (boxes : List (Nat × hypre_Box))
    (out : List (CornerRef × List ℚ)) :
    boxes.foldl
        (fun out bb => verticesOfBox dim given_trans T O x0 y0 z0 h p bb.1 bb.2 out) out
      = out ++ (boxes.flatMap fun bb => boxCells p bb.1 bb.2).flatMap
          (printCellVertices dim given_trans T O x0 y0 z0 h) := by
  have hfun : (fun (out : List (CornerRef × List ℚ)) (bb : Nat × hypre_Box) =>
        verticesOfBox dim given_trans T O x0 y0 z0 h p bb.1 bb.2 out)
      = fun out bb => out ++ (boxCells p bb.1 bb.2).flatMap
          (printCellVertices dim given_trans T O x0 y0 z0 h) := by
    funext out bb
    exact verticesOfBox_eq _ _ _ _ _ _ _ _ _ _ _ _
  rw [hfun, foldl_append_out, flatMap_flatMap]

theorem ptrAdd_ptrAdd (P : Option (Int → ℚ)) (a b : Int) :
    ptrAdd (ptrAdd P a) b = ptrAdd P (a + b) := by
  cases P with
  | none => rfl
  | some f =>
    simp only [ptrAdd, Option.map_some', Option.some.injEq]
    funext m
    rw [add_assoc]

theorem ptrAdd_zero (P : Option (Int → ℚ)) : ptrAdd P 0 = P := by
  cases P with
  | none => rfl
  | some f => simp [ptrAdd]

theorem verticesOfPart_eq (dim : Int) (given_trans : Bool) (p : Nat)
    (part : hypre_SStructPGrid) (trans origin : Option (Int → ℚ))
    (out : List (CornerRef × List ℚ)) :
    verticesOfPart dim given_trans p part
        ⟨transOfPart dim given_trans trans p, originOfPart dim given_trans origin p, out⟩
      = ⟨transOfPart dim given_trans trans (p + 1),
         originOfPart dim given_trans origin (p + 1),
         out ++ (boxesCells p part.sgrids0.boxes).flatMap
           (printCellVertices dim given_trans (transOfPart dim given_trans trans p)
             (originOfPart dim given_trans origin p) 0 0 0 1)⟩ := by
  unfold verticesOfPart
  simp only [verticesOfBoxes_eq, boxesCells]
  cases given_trans with
  | false => simp [transOfPart, originOfPart]
  | true =>
    simp only [transOfPart, originOfPart, if_true, ptrAdd_ptrAdd, VertexState.mk.injEq,
      and_true]
    constructor
    · congr 1; push_cast; ring
    · congr 1; push_cast; ring

theorem verticesOfParts_eq (dim : Int) (given_trans : Bool)
    (trans origin : Option (Int → ℚ)) (parts : List hypre_SStructPGrid) (n : Nat)
    (out : List (CornerRef × List ℚ)) :
    ((parts.enumFrom n).foldl
        (fun st pp => verticesOfPart dim given_trans pp.1 pp.2 st)
        ⟨transOfPart dim given_trans trans n, originOfPart dim given_trans origin n, out⟩).out
      = out ++ (parts.enumFrom n).flatMap fun pp =>
          (boxesCells pp.1 pp.2.sgrids0.boxes).flatMap
            (printCellVertices dim given_trans (transOfPart dim given_trans trans pp.1)
              (originOfPart dim given_trans origin pp.1) 0 0 0 1) := by
  induction parts generalizing n out with
  | nil => simp
  | cons part parts ih =>
    simp only [List.enumFrom_cons, List.foldl_cons, List.flatMap_cons]
    rw [verticesOfPart_eq, ih, List.append_assoc]

theorem transOfPart_zero (dim : Int) (g : Bool) (trans : Option (Int → ℚ)) :
    transOfPart dim g trans 0 = trans := by
  unfold transOfPart
  split
  · simpa using ptrAdd_zero trans
  · rfl

theorem originOfPart_zero (dim : Int) (g : Bool) (origin : Option (Int → ℚ)) :
    originOfPart dim g origin 0 = origin := by
  unfold originOfPart
  split
  · simpa using ptrAdd_zero origin
  · rfl

/-- Closed form of the vertex pass of `GLVis_PrintSStructGrid`: the vertex lines
of the cells in part, box and cell order, part `p` being printed with the
pointers advanced `p` times. -/
theorem SStructGrid_vertices_eq (grid : hypre_SStructGrid) (trans origin : Option (Int → ℚ)) :
    SStructGrid_vertices grid trans origin
      = grid.pgrids.enum.flatMap fun pp =>
          (boxesCells pp.1 pp.2.sgrids0.boxes).flatMap
            (printCellVertices grid.ndim (given_trans trans origin)
              (transOfPart grid.ndim (given_trans trans origin) trans pp.1)
              (originOfPart grid.ndim (given_trans trans origin) origin pp.1) 0 0 0 1) := by
  have h := verticesOfParts_eq grid.ndim (given_trans trans origin) trans origin
    grid.pgrids 0 []
  rw [transOfPart_zero, originOfPart_zero] at h
  simpa [SStructGrid_vertices, List.enum] using h

theorem flatMap_chunk {α β : Type} (f : α → List β) (n : Nat)
    (hf : ∀ a, (f a).length = n) (l : List α) (e r : Nat) (hr : r < n) :
    (l.flatMap f)[n * e + r]? = l[e]?.bind fun a => (f a)[r]? := by
  induction l generalizing e with
  | nil => simp
  | cons a l ih =>
    cases e with
    | zero =>
      have hlt : r < (f a).length := by rw [hf]; exact hr
      simp [List.flatMap_cons, List.getElem?_append_left hlt]
    | succ e =>
      have hge : (f a).length ≤ n * (e + 1) + r := by
        rw [hf, Nat.mul_succ]; omega
      have hsub : n * (e + 1) + r - (f a).length = n * e + r := by
        rw [hf, Nat.mul_succ]; omega
      rw [List.flatMap_cons, List.getElem?_append_right hge, hsub, ih]
      simp

theorem SStructGrid_vertices_plain (grid : hypre_SStructGrid)
    (trans origin : Option (Int → ℚ)) (hg : given_trans trans origin = false) :
    SStructGrid_vertices grid trans origin
      = (gridCells grid).flatMap
          (printCellVertices grid.ndim false trans origin 0 0 0 1) := by
  rw [SStructGrid_vertices_eq, hg]
  unfold gridCells
  rw [flatMap_flatMap]
  simp [transOfPart, originOfPart]

/-- C4: for a 2D grid exported by `GLVis_PrintSStructGrid` without transform,
the `e`-th enumerated cell `(i,j)` owns element `e` with ids `4e..4e+3`, and
the vertex lines `4e, 4e+1, 4e+2, 4e+3` carry the coordinates `(i,j)`,
`(i+1,j)`, `(i+1,j+1)`, `(i,j+1)`; the grid made of the single cell `(0,0)`
yields exactly the vertices `(0,0),(1,0),(1,1),(0,1)`. -/
theorem C4_vertices_2D (fopen : String → Bool) (pfx : String) (myid : Int)
    (h : fopen (rankFileName pfx myid) = true) :
    (∀ grid : hypre_SStructGrid, grid.ndim = 2 → ∃ m,
        (GLVis_PrintSStructGrid fopen grid pfx myid none none).content = some m
        ∧ ∀ (e : Nat) (c : CellRef), (gridCells grid)[e]? = some c →
            (m.elements[e]?).map (fun r => (r.1, r.2.ids))
              = some (c, [4 * (e : Int), 4 * e + 1, 4 * e + 2, 4 * e + 3])
            ∧ (m.vertices.map Prod.snd)[4 * e]? = some [(c.i : ℚ), (c.j : ℚ)]
            ∧ (m.vertices.map Prod.snd)[4 * e + 1]? = some [(c.i : ℚ) + 1, (c.j : ℚ)]
            ∧ (m.vertices.map Prod.snd)[4 * e + 2]? = some [(c.i : ℚ) + 1, (c.j : ℚ) + 1]
            ∧ (m.vertices.map Prod.snd)[4 * e + 3]? = some [(c.i : ℚ), (c.j : ℚ) + 1])
    ∧ (∀ (sdim : Int) (vartypes : List HYPRE_SStructVariable), ∃ m,
        (GLVis_PrintSStructGrid fopen
            ⟨2, [⟨⟨sdim, [⟨⟨0, 0, 0⟩, ⟨0, 0, 0⟩⟩]⟩, vartypes⟩]⟩ pfx myid none none).content
          = some m
        ∧ m.vertices.map Prod.snd = [[0, 0], [1, 0], [1, 1], [0, 1]]) := by
  constructor
  · intro grid hdim
    refine ⟨_, GLVis_PrintSStructGrid_content fopen grid pfx myid none none h, ?_⟩
    intro e c hc
    have hv := SStructGrid_vertices_plain grid none none rfl
    have hlen : ∀ a : CellRef,
        ((printCellVertices grid.ndim false none none 0 0 0 1 a).map Prod.snd).length = 4 := by
      intro a; simp [printCellVertices, hdim]
    have hchunk := fun r hr => flatMap_chunk
      (fun a => (printCellVertices grid.ndim false none none 0 0 0 1 a).map Prod.snd)
      4 hlen (gridCells grid) e r hr
    simp only [hv, List.map_flatMap]
    refine ⟨?_, ?_, ?_, ?_, ?_⟩
    · simp only [SStructGrid_elements_eq, elementRecords_getElem?, hc, Option.map_some',
        hdim, cellNV, consecutiveIds]
      simp [List.range_succ]
      ring
    · have := hchunk 0 (by decide)
      simp only [add_zero] at this
      rw [this, hc]
      simp [printCellVertices, hdim]
    · rw [hchunk 1 (by decide), hc]
      simp [printCellVertices, hdim]
    · rw [hchunk 2 (by decide), hc]
      simp [printCellVertices, hdim]
    · rw [hchunk 3 (by decide), hc]
      simp [printCellVertices, hdim]
  · intro sdim vartypes
    refine ⟨_, GLVis_PrintSStructGrid_content fopen _ pfx myid none none h, ?_⟩
    rw [SStructGrid_vertices_plain _ none none rfl]
    simp [gridCells, boxesCells, boxCells, loopLe, hypre_BoxIMinD, hypre_BoxIMaxD,
      hypre_IndexD, List.enum, printCellVertices, List.range_succ]

/-- C5: for a 3D grid exported by `GLVis_PrintSStructGrid` without transform,
the `e`-th enumerated cell `(i,j,k)` contributes the 8 consecutive vertex
lines `8e .. 8e+7`: `(i,j,k)`, `(i+1,j,k)`, `(i+1,j+1,k)`, `(i,j+1,k)`, then
the same four `(i,j)` corners in the same order at height `k+1`. -/
theorem C5_vertices_3D (fopen : String → Bool) (grid : hypre_SStructGrid) (pfx : String)
    (myid : Int) (h : fopen (rankFileName pfx myid) = true) (hdim : grid.ndim = 3) :
    ∃ m, (GLVis_PrintSStructGrid fopen grid pfx myid none none).content = some m
      ∧ ∀ (e : Nat) (c : CellRef), (gridCells grid)[e]? = some c →
          ∀ r : Nat, r < 8 →
            (m.vertices.map Prod.snd)[8 * e + r]?
              = ([[(c.i : ℚ), (c.j : ℚ), (c.k : ℚ)],
                  [(c.i : ℚ) + 1, (c.j : ℚ), (c.k : ℚ)],
                  [(c.i : ℚ) + 1, (c.j : ℚ) + 1, (c.k : ℚ)],
                  [(c.i : ℚ), (c.j : ℚ) + 1, (c.k : ℚ)],
                  [(c.i : ℚ), (c.j : ℚ), (c.k : ℚ) + 1],
                  [(c.i : ℚ) + 1, (c.j : ℚ), (c.k : ℚ) + 1],
                  [(c.i : ℚ) + 1, (c.j : ℚ) + 1, (c.k : ℚ) + 1],
                  [(c.i : ℚ), (c.j : ℚ) + 1, (c.k : ℚ) + 1]] : List (List ℚ))[r]? := by
  refine ⟨_, GLVis_PrintSStructGrid_content fopen grid pfx myid none none h, ?_⟩
  intro e c hc r hr
  have hlen : ∀ a : CellRef,
      ((printCellVertices grid.ndim false none none 0 0 0 1 a).map Prod.snd).length = 8 := by
    intro a; simp [printCellVertices, hdim]
  simp only [SStructGrid_vertices_plain grid none none rfl, List.map_flatMap]
  rw [flatMap_chunk
    (fun a => (printCellVertices grid.ndim false none none 0 0 0 1 a).map Prod.snd)
    8 hlen (gridCells grid) e r hr, hc]
  simp [printCellVertices, hdim]

theorem mem_boxesCells_p (p : Nat) (boxes : List hypre_Box) (c : CellRef)
    (hc : c ∈ boxesCells p boxes) : c.p = p := by
  simp only [boxesCells, boxCells, List.mem_flatMap, List.mem_map] at hc
  obtain ⟨bb, _, k, _, j, _, i, _, rfl⟩ := hc
  rfl

theorem printCellVertices_fst (dim : Int) (g : Bool) (T O : Option (Int → ℚ))
    (x0 y0 z0 h : ℚ) (c : CellRef) :
    (printCellVertices dim g T O x0 y0 z0 h c).map Prod.fst = cellCorners dim c := by
  unfold printCellVertices cellCorners
  by_cases hd : dim = 2 <;> cases g <;> simp [hd]

theorem SStructGrid_vertices_fst (grid : hypre_SStructGrid) (trans origin : Option (Int → ℚ)) :
    (SStructGrid_vertices grid trans origin).map Prod.fst
      = (gridCells grid).flatMap (cellCorners grid.ndim) := by
  rw [SStructGrid_vertices_eq, gridCells, flatMap_flatMap, List.map_flatMap]
  congr 1
  funext pp
  rw [List.map_flatMap]
  congr 1
  funext c
  exact printCellVertices_fst _ _ _ _ _ _ _ _ _

/-- C6: when both `trans` and `origin` are supplied to `GLVis_PrintSStructGrid`
(`dim` 2 or 3), the vertex lines are those of all corners of all cells, in the
same cell and corner order as without a transform, and the corner with raw
index `r` of a cell of part `p` is printed as `M_p · r + O_p`, with `M_p` the
row-major `dim × dim` matrix at `trans[p*dim*dim ..]` and `O_p` the vector at
`origin[p*dim ..]`: the pair depends on the part only. -/
theorem C6_affine_per_part (fopen : String → Bool) (grid : hypre_SStructGrid) (pfx : String)
    (myid : Int) (T O : Int → ℚ) (h : fopen (rankFileName pfx myid) = true)
    (hdim : grid.ndim = 2 ∨ grid.ndim = 3) :
    ∃ m m0, (GLVis_PrintSStructGrid fopen grid pfx myid (some T) (some O)).content = some m
      ∧ (GLVis_PrintSStructGrid fopen grid pfx myid none none).content = some m0
      ∧ m.vertices.map Prod.fst = (gridCells grid).flatMap (cellCorners grid.ndim)
      ∧ m.vertices.map Prod.fst = m0.vertices.map Prod.fst
      ∧ ∀ v ∈ m.vertices,
          v.2 = affineImage grid.ndim.toNat
            (partMatrix grid.ndim.toNat T v.1.cell.p)
            (partOffset grid.ndim.toNat O v.1.cell.p) v.1.raw := by
  refine ⟨_, _, GLVis_PrintSStructGrid_content fopen grid pfx myid (some T) (some O) h,
    GLVis_PrintSStructGrid_content fopen grid pfx myid none none h, ?_, ?_, ?_⟩
  · exact SStructGrid_vertices_fst grid _ _
  · simp only [SStructGrid_vertices_fst]
  · intro v hv
    simp only [SStructGrid_vertices_eq, List.mem_flatMap] at hv
    obtain ⟨pp, _, c, hc, hv⟩ := hv
    have hp := mem_boxesCells_p _ _ _ hc
    rcases hdim with hd | hd
    · simp only [hd, printCellVertices, given_trans, Option.isSome_some, Bool.and_self,
        Bool.not_true, if_true, transOfPart, originOfPart, ptrAdd, Option.map_some',
        deref, List.mem_cons, List.mem_singleton, List.not_mem_nil, or_false,
        Bool.false_eq_true, if_false] at hv
      rcases hv with rfl | rfl | rfl | rfl <;>
        simp [affineImage, partMatrix, partOffset, CornerRef.raw, CornerRef.ri,
          CornerRef.rj, List.range_succ, hd, hp] <;>
        constructor <;> ring_nf
    · simp only [hd, printCellVertices, given_trans, Option.isSome_some, Bool.and_self,
        Bool.not_true, if_true, transOfPart, originOfPart, ptrAdd, Option.map_some',
        deref, List.mem_cons, List.mem_singleton, List.not_mem_nil, or_false,
        Bool.false_eq_true, if_false, show ¬ ((3 : Int) = 2) by decide] at hv
      rcases hv with rfl | rfl | rfl | rfl | rfl | rfl | rfl | rfl <;>
        simp [affineImage, partMatrix, partOffset, CornerRef.raw, CornerRef.ri,
          CornerRef.rj, CornerRef.rk, List.range_succ, hd, hp] <;>
        refine ⟨?_, ?_, ?_⟩ <;> ring_nf

theorem structVerticesOfBox_eq (dim : Int) (g : Bool) (b : Nat) (box : hypre_Box)
    (trans origin : Option (Int → ℚ)) (out : List (CornerRef × List ℚ)) :
    structVerticesOfBox dim g b box
        ⟨transOfPart dim g trans b, originOfPart dim g origin b, out⟩
      = ⟨transOfPart dim g trans (b + 1), originOfPart dim g origin (b + 1),
         out ++ (boxCells 0 b box).flatMap
           (printCellVertices dim g (transOfPart dim g trans b)
             (originOfPart dim g origin b) 0 0 0 1)⟩ := by
  unfold structVerticesOfBox
  simp only [verticesOfBox_eq]
  cases g with
  | false => simp [transOfPart, originOfPart]
  | true =>
    simp only [transOfPart, originOfPart, if_true, ptrAdd_ptrAdd, VertexState.mk.injEq,
      and_true]
    constructor
    · congr 1; push_cast; ring
    · congr 1; push_cast; ring

theorem structVerticesOfBoxes_eq (dim : Int) (g : Bool) (trans origin : Option (Int → ℚ))
    (boxes : List hypre_Box) (n : Nat) (out : List (CornerRef × List ℚ)) :
    ((boxes.enumFrom n).foldl (fun st bb => structVerticesOfBox dim g bb.1 bb.2 st)
        ⟨transOfPart dim g trans n, originOfPart dim g origin n, out⟩).out
      = out ++ (boxes.enumFrom n).flatMap fun bb =>
          (boxCells 0 bb.1 bb.2).flatMap
            (printCellVertices dim g (transOfPart dim g trans bb.1)
              (originOfPart dim g origin bb.1) 0 0 0 1) := by
  induction boxes generalizing n out with
  | nil => simp
  | cons box boxes ih =>
    simp only [List.enumFrom_cons, List.foldl_cons, List.flatMap_cons]
    rw [structVerticesOfBox_eq, ih, List.append_assoc]

/-- Closed form of the vertex pass of `GLVis_PrintStructGrid`: box `b` is printed
with the pointers advanced `b` times, that is with `trans[b*dim*dim ..]` and
`origin[b*dim ..]` when a transform is given. -/
theorem StructGrid_vertices_eq (grid : hypre_StructGrid) (trans origin : Option (Int → ℚ)) :
    StructGrid_vertices grid trans origin
      = grid.boxes.enum.flatMap fun bb =>
          (boxCells 0 bb.1 bb.2).flatMap
            (printCellVertices grid.ndim (given_trans trans origin)
              (transOfPart grid.ndim (given_trans trans origin) trans bb.1)
              (originOfPart grid.ndim (given_trans trans origin) origin bb.1) 0 0 0 1) := by
  have h := structVerticesOfBoxes_eq grid.ndim (given_trans trans origin) trans origin
    grid.boxes 0 []
  rw [transOfPart_zero, originOfPart_zero] at h
  simpa [StructGrid_vertices, List.enum] using h

/-- C7 (evaluation at the failing input): `GLVis_PrintStructGrid` on the grid of
the two single-cell boxes `(0,0)` and `(1,0)` with `trans = [1,0,0,1,2,0,0,2]`
and `origin = [0,0,5,5]` prints the first corner of the second box, raw index
`(1,0)`, as `(7,5)`: it uses the matrix at `trans[4..8)` and the vector at
`origin[2..4)`, whereas `M · r + O` with `M = trans[0..4)`, `O = origin[0..2)`
is `(1,0)`. -/
theorem C7_struct_transform_advances_per_box :
    ∃ m, (GLVis_PrintStructGrid openAll structGridTwoBoxes "mesh" 0
        (arrayOf [1, 0, 0, 1, 2, 0, 0, 2]) (arrayOf [0, 0, 5, 5])).content = some m
      ∧ m.vertices.map Prod.snd
          = [[0, 0], [1, 0], [1, 1], [0, 1], [7, 5], [9, 5], [9, 7], [7, 7]]
      ∧ m.vertices[4]?.map Prod.fst = some ⟨⟨0, 1, 1, 0, 0⟩, 0, 0, 0⟩
      ∧ affineImage 2 (partMatrix 2 (arrayMem [1, 0, 0, 1, 2, 0, 0, 2]) 0)
          (partOffset 2 (arrayMem [0, 0, 5, 5]) 0)
          (CornerRef.raw ⟨⟨0, 1, 1, 0, 0⟩, 0, 0, 0⟩) = [1, 0] := by
  refine ⟨_, rfl, ?_, ?_, ?_⟩
  · decide!
  · decide!
  · decide!

/-- C8: exporting with `GLVis_PrintSStructGrid` the single-part 2D grid of one
box of 2×2 cells `[0,1]×[0,1]` with `trans = [0.5, 0, 0, 0.5]`,
`origin = [0, 0]` writes element count header 4, vertex count header 16, the
elements `0..3` with the ids `4e..4e+3`, vertex 0 at `(0,0)` and vertex 3 at
`(0,0.5)`. -/
theorem C8_end_to_end (fopen : String → Bool) (pfx : String) (myid : Int)
    (h : fopen (rankFileName pfx myid) = true) :
    ∃ m, (GLVis_PrintSStructGrid fopen grid2x2 pfx myid
        (arrayOf [1 / 2, 0, 0, 1 / 2]) (arrayOf [0, 0])).content = some m
      ∧ m.nelem = 4 ∧ m.nvert = 16
      ∧ m.elements.map (fun r => r.2.ids)
          = [[0, 1, 2, 3], [4, 5, 6, 7], [8, 9, 10, 11], [12, 13, 14, 15]]
      ∧ m.vertices.length = 16
      ∧ (m.vertices.map Prod.snd)[0]? = some [0, 0]
      ∧ (m.vertices.map Prod.snd)[3]? = some [0, 1 / 2] := by
  refine ⟨_, GLVis_PrintSStructGrid_content fopen grid2x2 pfx myid _ _ h,
    ?_, ?_, ?_, ?_, ?_, ?_⟩
  · decide
  · decide
  · decide
  · decide!
  · decide!
  · decide!

/-- Closed form of the value loops for a cell-centered variable: the cell at
offset `(i,j,k)` gets the buffer entry at index `i + j*ni`, whatever `k`. -/
theorem printCellValues_eq (ni nj nk : Int) (p b : Nat) (values : Int → ℚ)
    (out : List ValueLine) :
    printCellValues ni nj nk p b values out
      = out ++ (loopLt 0 nk).flatMap fun k => (loopLt 0 nj).flatMap fun j =>
          (loopLt 0 ni).map fun i =>
            (⟨⟨⟨p, b, i, j, k⟩, 0, 0, 0⟩, i + j * ni, values (i + j * ni)⟩ : ValueLine) := by
  unfold printCellValues
  rw [foldl_append_out3
    (fun (k j i : Int) =>
      [(⟨⟨⟨p, b, i, j, k⟩, 0, 0, 0⟩, i + j * ni, values (i + j * ni)⟩ : ValueLine)])]
  congr 2
  funext k
  congr 1
  funext j
  exact flatMap_single _ _

/-- C9 (evaluation at the failing input): for the cell-centered field on one 3D
box of 1×1×2 cells with buffer `[10, 20]`, `GLVis_PrintSStructVector` and
`GLVis_PrintStructVector` allocate 2 entries and print, for the cells at
offsets `(0,0,0)` and `(0,0,1)`, the entry at index 0 twice (values 10, 10);
the row-major index `i + j*ni + k*ni*nj` of the second cell is 1, and the
entry 20 is never written. -/
theorem C9_cell_values_ignore_k :
    (∃ f, (GLVis_PrintSStructVector openAll sstructVector1x1x2 0 "sol" 0).content = some f
      ∧ f.values.map (fun v => (v.corner.cell.i, v.corner.cell.j, v.corner.cell.k,
            v.index, v.value))
          = [(0, 0, 0, 0, 10), (0, 0, 1, 0, 10)])
    ∧ (∃ f, (GLVis_PrintStructVector openAll structVector1x1x2 "sol" 0).content = some f
      ∧ f.values.map (fun v => (v.corner.cell.i, v.corner.cell.j, v.corner.cell.k,
            v.index, v.value))
          = [(0, 0, 0, 0, 10), (0, 0, 1, 0, 10)])
    ∧ (SStructVector_pass sstructVector1x1x2 0 HYPRE_SStructVariable.CELL 0).requests.map
        (fun r => r.size) = [2]
    ∧ (StructVector_pass structVector1x1x2).requests.map (fun r => r.size) = [2] := by
  refine ⟨⟨_, rfl, ?_⟩, ⟨_, rfl, ?_⟩, ?_, ?_⟩
  · decide!
  · decide!
  · decide
  · decide

/-! ## Requests of the vector export -/

theorem foldl_proj_append {σ α β : Type} (proj : σ → List β) (step : σ → α → σ)
    (g : α → List β) (hstep : ∀ st a, proj (step st a) = proj st ++ g a)
    (l : List α) (st : σ) :
    proj (l.foldl step st) = proj st ++ l.flatMap g := by
  induction l generalizing st with
  | nil => simp
  | cons a l ih => simp [List.flatMap_cons, ih, hstep, List.append_assoc]

theorem sstructValuesOfBox_requests (sol : hypre_SStructVector) (var dim : Int)
    (vartype : HYPRE_SStructVariable) (var_off : Int) (p b : Nat) (box : hypre_Box)
    (st : VectorState) :
    (sstructValuesOfBox sol var dim vartype var_off p b box st).requests
      = st.requests ++ [sstructRequestOfBox dim var_off var p b box] := rfl

/-- Closed form of the requests of `GLVis_PrintSStructVector`: one per box, in
part order then box order. -/
theorem SStructVector_pass_requests (sol : hypre_SStructVector) (var : Int)
    (vartype : HYPRE_SStructVariable) (var_off : Int) :
    (SStructVector_pass sol var vartype var_off).requests
      = sol.grid.pgrids.enum.flatMap fun pp =>
          pp.2.sgrids0.boxes.enum.flatMap fun bb =>
            [sstructRequestOfBox sol.grid.ndim var_off var pp.1 bb.1 bb.2] := by
  unfold SStructVector_pass
  rw [foldl_proj_append VectorState.requests _
    (fun pp : Nat × hypre_SStructPGrid => pp.2.sgrids0.boxes.enum.flatMap fun bb =>
      [sstructRequestOfBox sol.grid.ndim var_off var pp.1 bb.1 bb.2])]
  · rfl
  · intro st pp
    exact foldl_proj_append VectorState.requests _ _
      (fun st (bb : Nat × hypre_Box) =>
        sstructValuesOfBox_requests sol var sol.grid.ndim vartype var_off
          pp.1 bb.1 bb.2 st) _ st

theorem GLVis_PrintSStructVector_node (fopen : String → Bool) (sol : hypre_SStructVector)
    (var : Int) (pfx : String) (myid : Int) (h : fopen (rankFileName pfx myid) = true)
    (hv : vartypeOf sol.grid var = some HYPRE_SStructVariable.NODE) :
    (GLVis_PrintSStructVector fopen sol var pfx myid).content
      = some ⟨"Local_H1_2D_P1",
          (SStructVector_pass sol var HYPRE_SStructVariable.NODE 1).out⟩ := by
  simp [GLVis_PrintSStructVector, h, hv]

/-- C10 (counterexample): for the node-centered field on the 2D grid of the
single cell `(0,0)`, the range requested for the box `[0,0]×[0,0]` is
`[-1,0]×[-1,0]`, not `[0,1]×[0,1]`: the upper corner is not `max_d + 1`. -/
theorem C10_counterexample :
    vartypeOf sstructVectorNode.grid 0 = some HYPRE_SStructVariable.NODE
    ∧ (SStructVector_pass sstructVectorNode 0 HYPRE_SStructVariable.NODE 1).requests.map
        (fun r => (r.ilower, r.iupper)) = [([-1, -1], [0, 0])]
    ∧ ¬ RequestsExtendUpper sstructVectorNode 0 := by
  refine ⟨rfl, by decide, ?_⟩
  intro hreq
  have h := hreq ⟨0, 0, 4, [-1, -1], [0, 0], 0⟩ (by decide) ⟨⟨0, 0, 0⟩, ⟨0, 0, 0⟩⟩ rfl 0
    (by decide)
  revert h
  decide

/-- C10 (amended): for a node-centered variable on a grid of dimension at most
3, `GLVis_PrintSStructVector` makes one request per box, in part and box
order, and the range requested for a box `[min_d, max_d]` is the box extended
by one unit at the lower bound on every axis in use: lower corner `min_d - 1`
and upper corner `max_d` for every `d < dim`. -/
theorem C10_node_request_range (fopen : String → Bool) (sol : hypre_SStructVector)
    (var : Int) (pfx : String) (myid : Int) (h : fopen (rankFileName pfx myid) = true)
    (hv : vartypeOf sol.grid var = some HYPRE_SStructVariable.NODE)
    (hdim : sol.grid.ndim ≤ 3) :
    (GLVis_PrintSStructVector fopen sol var pfx myid).content
      = some ⟨"Local_H1_2D_P1",
          (SStructVector_pass sol var HYPRE_SStructVariable.NODE 1).out⟩
    ∧ (SStructVector_pass sol var HYPRE_SStructVariable.NODE 1).requests.map
        (fun r => (r.p, r.b))
      = (sol.grid.pgrids.enum.flatMap fun pp =>
          pp.2.sgrids0.boxes.enum.map fun bb => (pp.1, bb.1))
    ∧ ∀ r ∈ (SStructVector_pass sol var HYPRE_SStructVariable.NODE 1).requests,
        ∃ box, boxAt sol.grid r.p r.b = some box
          ∧ ∀ d : Nat, (d : Int) < sol.grid.ndim →
              r.ilower[d]? = some (hypre_BoxIMinD box d - 1)
              ∧ r.iupper[d]? = some (hypre_BoxIMaxD box d) := by
  refine ⟨GLVis_PrintSStructVector_node fopen sol var pfx myid h hv, ?_, ?_⟩
  · rw [SStructVector_pass_requests, List.map_flatMap]
    congr 1
    funext pp
    rw [List.map_flatMap, ← flatMap_single]
    rfl
  · intro r hr
    rw [SStructVector_pass_requests] at hr
    simp only [List.mem_flatMap, List.mem_singleton] at hr
    obtain ⟨pp, hpp, bb, hbb, rfl⟩ := hr
    rw [List.mem_enum_iff_getElem?] at hpp hbb
    refine ⟨bb.2, by simp [boxAt, sstructRequestOfBox, hpp, hbb], ?_⟩
    intro d hd
    by_cases h2 : sol.grid.ndim = 2
    · have hd2 : d < 2 := by omega
      interval_cases d <;> simp [sstructRequestOfBox, h2]
    · have hd3 : d < 3 := by omega
      interval_cases d <;> simp [sstructRequestOfBox, h2]

/-! ## Instances on the example inputs -/

/-- C1 on the 2×2 grid: the file `mesh.000000` gets the headers 4 and 16. -/
theorem C1_count_headers_witness :
    openOnly "mesh.000000" (rankFileName "mesh" 0) = true
    ∧ ∃ m, (GLVis_PrintSStructGrid (openOnly "mesh.000000") grid2x2 "mesh" 0
          none none).content = some m
        ∧ m.nelem = 4 ∧ m.nvert = 16 := by
  refine ⟨by decide, ?_⟩
  obtain ⟨m, hm, h1, h2⟩ :=
    (C1_count_headers (openOnly "mesh.000000") "mesh" 0 none none (by decide)).1 grid2x2
  exact ⟨m, hm, by rw [h1]; decide, by rw [h2]; decide⟩

/-- C2 on the 2×2 grid: the cells come in the order `(0,0)`, `(1,0)`, `(0,1)`,
`(1,1)` and element 2 lists the ids 8, 9, 10, 11. -/
theorem C2_element_order_witness :
    openOnly "mesh.000000" (rankFileName "mesh" 0) = true
    ∧ ∃ m, (GLVis_PrintSStructGrid (openOnly "mesh.000000") grid2x2 "mesh" 0
          none none).content = some m
        ∧ m.elements.map Prod.fst
            = [⟨0, 0, 0, 0, 0⟩, ⟨0, 0, 1, 0, 0⟩, ⟨0, 0, 0, 1, 0⟩, ⟨0, 0, 1, 1, 0⟩]
        ∧ (m.elements.map fun r => r.2.ids)[2]? = some [8, 9, 10, 11] := by
  refine ⟨by decide, ?_⟩
  obtain ⟨m, hm, h1, _, _, h2⟩ :=
    C2_element_order (openOnly "mesh.000000") grid2x2 "mesh" 0 none none (by decide)
  have hl : m.elements.length = 4 := by
    rw [← List.length_map m.elements Prod.fst, h1]; decide
  refine ⟨m, hm, by rw [h1]; decide, ?_⟩
  rw [h2 2 (by rw [hl]; decide)]
  decide

/-- C3 on the 2×2 grid: every element has attribute 1, tag 3 and 4 ids. -/
theorem C3_element_tags_witness :
    openOnly "mesh.000000" (rankFileName "mesh" 0) = true
    ∧ ∃ m, (GLVis_PrintSStructGrid (openOnly "mesh.000000") grid2x2 "mesh" 0
          none none).content = some m
        ∧ ∀ r ∈ m.elements, r.2.attr = 1 ∧ r.2.geom = 3 ∧ r.2.ids.length = 4 := by
  refine ⟨by decide, ?_⟩
  obtain ⟨m, hm, h1⟩ :=
    (C3_element_tags (openOnly "mesh.000000") "mesh" 0 (by decide)).1 grid2x2 none none
  exact ⟨m, hm, fun r hr => ⟨(h1 r hr).1, (h1 r hr).2.1 rfl⟩⟩

/-- C4 on the 2×2 grid: the cell `(1,1)` is cell 3 and owns the vertices
12..15 at `(1,1)`, `(2,1)`, `(2,2)`, `(1,2)`. -/
theorem C4_vertices_2D_witness :
    openOnly "mesh.000000" (rankFileName "mesh" 0) = true
    ∧ ∃ m, (GLVis_PrintSStructGrid (openOnly "mesh.000000") grid2x2 "mesh" 0
          none none).content = some m
        ∧ (m.vertices.map Prod.snd)[12]? = some [1, 1]
        ∧ (m.vertices.map Prod.snd)[13]? = some [2, 1]
        ∧ (m.vertices.map Prod.snd)[14]? = some [2, 2]
        ∧ (m.vertices.map Prod.snd)[15]? = some [1, 2] := by
  refine ⟨by decide, ?_⟩
  obtain ⟨m, hm, h1⟩ :=
    (C4_vertices_2D (openOnly "mesh.000000") "mesh" 0 (by decide)).1 grid2x2 rfl
  obtain ⟨_, h12, h13, h14, h15⟩ := h1 3 ⟨0, 0, 1, 1, 0⟩ (by decide)
  refine ⟨m, hm, ?_, ?_, ?_, ?_⟩
  · rw [show (12 : Nat) = 4 * 3 from rfl, h12]; norm_num
  · rw [show (13 : Nat) = 4 * 3 + 1 from rfl, h13]; norm_num
  · rw [show (14 : Nat) = 4 * 3 + 2 from rfl, h14]; norm_num
  · rw [show (15 : Nat) = 4 * 3 + 3 from rfl, h15]; norm_num

/-- C5 on the 1×1×2 grid: the cell `(0,0,1)` is cell 1 and its fifth corner,
vertex 12, is `(0,0,2)`. -/
theorem C5_vertices_3D_witness :
    openOnly "mesh.000000" (rankFileName "mesh" 0) = true
    ∧ grid1x1x2.ndim = 3
    ∧ ∃ m, (GLVis_PrintSStructGrid (openOnly "mesh.000000") grid1x1x2 "mesh" 0
          none none).content = some m
        ∧ (m.vertices.map Prod.snd)[12]? = some [0, 0, 2] := by
  refine ⟨by decide, rfl, ?_⟩
  obtain ⟨m, hm, h1⟩ :=
    C5_vertices_3D (openOnly "mesh.000000") grid1x1x2 "mesh" 0 (by decide) rfl
  refine ⟨m, hm, ?_⟩
  rw [show (12 : Nat) = 8 * 1 + 4 from rfl, h1 1 ⟨0, 0, 0, 0, 1⟩ (by decide) 4 (by decide)]
  norm_num

/-- C6 on the two-part grid with `trans = [1,0,0,1,2,0,0,2]` and
`origin = [0,0,5,5]`: every vertex line is the affine image of its raw corner
index under the pair of its part. -/
theorem C6_affine_per_part_witness :
    openOnly "mesh.000000" (rankFileName "mesh" 0) = true
    ∧ (gridTwoParts.ndim = 2 ∨ gridTwoParts.ndim = 3)
    ∧ ∃ m, (GLVis_PrintSStructGrid (openOnly "mesh.000000") gridTwoParts "mesh" 0
          (some (arrayMem [1, 0, 0, 1, 2, 0, 0, 2])) (some (arrayMem [0, 0, 5, 5]))).content
          = some m
        ∧ ∀ v ∈ m.vertices,
            v.2 = affineImage 2 (partMatrix 2 (arrayMem [1, 0, 0, 1, 2, 0, 0, 2]) v.1.cell.p)
              (partOffset 2 (arrayMem [0, 0, 5, 5]) v.1.cell.p) v.1.raw := by
  refine ⟨by decide, Or.inl rfl, ?_⟩
  obtain ⟨m, _, hm, _, _, _, h1⟩ :=
    C6_affine_per_part (openOnly "mesh.000000") gridTwoParts "mesh" 0
      (arrayMem [1, 0, 0, 1, 2, 0, 0, 2]) (arrayMem [0, 0, 5, 5]) (by decide) (Or.inl rfl)
  exact ⟨m, hm, h1⟩

/-- C8 in the environment where only `mesh.000000` can be opened. -/
theorem C8_end_to_end_witness :
    openOnly "mesh.000000" (rankFileName "mesh" 0) = true
    ∧ ∃ m, (GLVis_PrintSStructGrid (openOnly "mesh.000000") grid2x2 "mesh" 0
          (arrayOf [1 / 2, 0, 0, 1 / 2]) (arrayOf [0, 0])).content = some m
        ∧ m.nelem = 4 ∧ m.nvert = 16
        ∧ (m.vertices.map Prod.snd)[3]? = some [0, 1 / 2] := by
  refine ⟨by decide, ?_⟩
  obtain ⟨m, hm, h1, h2, _, _, _, h3⟩ :=
    C8_end_to_end (openOnly "mesh.000000") "mesh" 0 (by decide)
  exact ⟨m, hm, h1, h2, h3⟩

/-- C10 (amended) on the node-centered field of the single cell `(0,0)`: the
request `[-1,0]×[-1,0]` is the box `[0,0]×[0,0]` extended at the lower bound. -/
theorem C10_node_request_range_witness :
    openOnly "sol.000000" (rankFileName "sol" 0) = true
    ∧ vartypeOf sstructVectorNode.grid 0 = some HYPRE_SStructVariable.NODE
    ∧ sstructVectorNode.grid.ndim ≤ 3
    ∧ ∃ box, boxAt sstructVectorNode.grid 0 0 = some box
        ∧ ∀ d : Nat, (d : Int) < sstructVectorNode.grid.ndim →
            ([-1, -1] : List Int)[d]? = some (hypre_BoxIMinD box d - 1)
            ∧ ([0, 0] : List Int)[d]? = some (hypre_BoxIMaxD box d) := by
  refine ⟨by decide, rfl, by decide, ?_⟩
  exact (C10_node_request_range (openOnly "sol.000000") sstructVectorNode 0 "sol" 0
    (by decide) rfl (by decide)).2.2 ⟨0, 0, 4, [-1, -1], [0, 0], 0⟩ (by decide)

/-! ## Value lines of the vector export -/

theorem printNodeValues2D_eq (ni nj : Int) (p b : Nat) (values : Int → ℚ)
    (out : List ValueLine) :
    printNodeValues2D ni nj p b values out
      = out ++ (offsetCells2 ni nj p b).flatMap (nodeCellLines 2 ni nj values) := by
  unfold printNodeValues2D offsetCells2
  trans (loopLt 0 nj).foldl (fun out j => (loopLt 0 ni).foldl
    (fun out i => out ++ nodeCellLines 2 ni nj values ⟨p, b, i, j, 0⟩) out) out
  · congr 1
    funext out j
    congr 1
    funext out i
    congr 1
    simp [nodeCellLines, cellCorners, nodeIndex, CornerRef.ri, CornerRef.rj]
  · rw [foldl_append_out2
      (fun (j i : Int) => nodeCellLines 2 ni nj values ⟨p, b, i, j, 0⟩), flatMap_flatMap]
    congr 2
    funext j
    rw [map_flatMap_eq]

theorem printNodeValues3D_eq (dim : Int) (hdim : dim ≠ 2) (ni nj nk : Int) (p b : Nat)
    (values : Int → ℚ) (out : List ValueLine) :
    printNodeValues3D ni nj nk p b values out
      = out ++ (offsetCells3 ni nj nk p b).flatMap (nodeCellLines dim ni nj values) := by
  unfold printNodeValues3D offsetCells3
  trans (loopLt 0 nk).foldl (fun out k => (loopLt 0 nj).foldl (fun out j =>
    (loopLt 0 ni).foldl
      (fun out i => out ++ nodeCellLines dim ni nj values ⟨p, b, i, j, k⟩) out) out) out
  · congr 1
    funext out k
    congr 1
    funext out j
    congr 1
    funext out i
    congr 1
    simp [nodeCellLines, cellCorners, nodeIndex, CornerRef.ri, CornerRef.rj, CornerRef.rk,
      hdim]
  · rw [foldl_append_out3
      (fun (k j i : Int) => nodeCellLines dim ni nj values ⟨p, b, i, j, k⟩),
      flatMap_flatMap]
    congr 2
    funext k
    rw [flatMap_flatMap]
    congr 1
    funext j
    rw [map_flatMap_eq]

theorem sstructValuesOfBox_out_node (sol : hypre_SStructVector) (var dim : Int)
    (p b : Nat) (box : hypre_Box) (st : VectorState) :
    (sstructValuesOfBox sol var dim HYPRE_SStructVariable.NODE 1 p b box st).out
      = st.out ++ nodeValuesOfBox sol var dim p b box := by
  by_cases hd : dim = 2
  · subst hd
    simp only [sstructValuesOfBox, nodeValuesOfBox, sstructBufferOfBox, sstructRequestOfBox,
      if_true, printNodeValues2D_eq]
  · simp only [sstructValuesOfBox, nodeValuesOfBox, sstructBufferOfBox, sstructRequestOfBox,
      hd, if_false, printNodeValues3D_eq dim hd]

theorem sstructValuesOfBox_out_cell (sol : hypre_SStructVector) (var dim : Int)
    (p b : Nat) (box : hypre_Box) (st : VectorState) :
    (sstructValuesOfBox sol var dim HYPRE_SStructVariable.CELL 0 p b box st).out
      = st.out ++ cellValuesOfBox sol var dim p b box := by
  simp only [sstructValuesOfBox, cellValuesOfBox, sstructBufferOfBox, sstructRequestOfBox,
    printCellValues_eq, offsetCells3, List.map_flatMap, List.map_map]
  rfl

/-- Closed form of the value lines of `GLVis_PrintSStructVector` for a
node-centered variable. -/
theorem SStructVector_pass_out_node (sol : hypre_SStructVector) (var : Int) :
    (SStructVector_pass sol var HYPRE_SStructVariable.NODE 1).out = nodeValueLines sol var := by
  unfold SStructVector_pass nodeValueLines
  rw [foldl_proj_append VectorState.out _
    (fun pp : Nat × hypre_SStructPGrid => pp.2.sgrids0.boxes.enum.flatMap fun bb =>
      nodeValuesOfBox sol var sol.grid.ndim pp.1 bb.1 bb.2)]
  · rfl
  · intro st pp
    exact foldl_proj_append VectorState.out _ _
      (fun st (bb : Nat × hypre_Box) =>
        sstructValuesOfBox_out_node sol var sol.grid.ndim pp.1 bb.1 bb.2 st) _ st

/-- Closed form of the value lines of `GLVis_PrintSStructVector` for a
cell-centered variable. -/
theorem SStructVector_pass_out_cell (sol : hypre_SStructVector) (var : Int) :
    (SStructVector_pass sol var HYPRE_SStructVariable.CELL 0).out = cellValueLines sol var := by
  unfold SStructVector_pass cellValueLines
  rw [foldl_proj_append VectorState.out _
    (fun pp : Nat × hypre_SStructPGrid => pp.2.sgrids0.boxes.enum.flatMap fun bb =>
      cellValuesOfBox sol var sol.grid.ndim pp.1 bb.1 bb.2)]
  · rfl
  · intro st pp
    exact foldl_proj_append VectorState.out _ _
      (fun st (bb : Nat × hypre_Box) =>
        sstructValuesOfBox_out_cell sol var sol.grid.ndim pp.1 bb.1 bb.2 st) _ st

theorem GLVis_PrintSStructVector_cell (fopen : String → Bool) (sol : hypre_SStructVector)
    (var : Int) (pfx : String) (myid : Int) (h : fopen (rankFileName pfx myid) = true)
    (hv : vartypeOf sol.grid var = some HYPRE_SStructVariable.CELL) :
    (GLVis_PrintSStructVector fopen sol var pfx myid).content
      = some ⟨"Local_L2_2D_P0",
          (SStructVector_pass sol var HYPRE_SStructVariable.CELL 0).out⟩ := by
  simp [GLVis_PrintSStructVector, h, hv]

/-- C11: for a node-centered variable `GLVis_PrintSStructVector` prints, box
after box and cell after cell, the corner samples of each cell in the mesh
corner order `cellCorners`: in 2D the buffer entries at
`(i+di) + (j+dj)*(ni+1)` for `(di,dj) = (0,0),(1,0),(1,1),(0,1)`, otherwise
the entries at `(i+di) + (j+dj)*(ni+1) + (k+dk)*(ni+1)*(nj+1)` for the same
four with `dk = 0`, then with `dk = 1`. A single 2D cell whose node buffer
holds `v0..v3` at the positions of the corners yields exactly the 4 lines
`v0, v1, v2, v3`. -/
theorem C11_node_corner_samples (fopen : String → Bool) (pfx : String) (myid : Int)
    (h : fopen (rankFileName pfx myid) = true) :
    (∀ (sol : hypre_SStructVector) (var : Int),
        vartypeOf sol.grid var = some HYPRE_SStructVariable.NODE →
        ∃ f, (GLVis_PrintSStructVector fopen sol var pfx myid).content = some f
          ∧ f.values = nodeValueLines sol var)
    ∧ (∀ (ni nj : Int) (values : Int → ℚ) (c : CellRef),
        (nodeCellLines 2 ni nj values c).map (fun v =>
            (v.corner.di, v.corner.dj, v.index))
          = [(0, 0, c.i + c.j * (ni + 1)), (1, 0, c.i + 1 + c.j * (ni + 1)),
             (1, 1, c.i + 1 + (c.j + 1) * (ni + 1)), (0, 1, c.i + (c.j + 1) * (ni + 1))]
        ∧ ∀ v ∈ nodeCellLines 2 ni nj values c, v.value = values v.index)
    ∧ (∀ (ni nj : Int) (values : Int → ℚ) (c : CellRef),
        (nodeCellLines 3 ni nj values c).map (fun v =>
            (v.corner.di, v.corner.dj, v.corner.dk, v.index))
          = [(0, 0, 0, c.i + c.j * (ni + 1) + c.k * (ni + 1) * (nj + 1)),
             (1, 0, 0, c.i + 1 + c.j * (ni + 1) + c.k * (ni + 1) * (nj + 1)),
             (1, 1, 0, c.i + 1 + (c.j + 1) * (ni + 1) + c.k * (ni + 1) * (nj + 1)),
             (0, 1, 0, c.i + (c.j + 1) * (ni + 1) + c.k * (ni + 1) * (nj + 1)),
             (0, 0, 1, c.i + c.j * (ni + 1) + (c.k + 1) * (ni + 1) * (nj + 1)),
             (1, 0, 1, c.i + 1 + c.j * (ni + 1) + (c.k + 1) * (ni + 1) * (nj + 1)),
             (1, 1, 1, c.i + 1 + (c.j + 1) * (ni + 1) + (c.k + 1) * (ni + 1) * (nj + 1)),
             (0, 1, 1, c.i + (c.j + 1) * (ni + 1) + (c.k + 1) * (ni + 1) * (nj + 1))]
        ∧ ∀ v ∈ nodeCellLines 3 ni nj values c, v.value = values v.index)
    ∧ (∀ v0 v1 v2 v3 : ℚ, ∃ f,
        (GLVis_PrintSStructVector fopen (sstructVectorCorners v0 v1 v2 v3) 0 pfx myid).content
          = some f
        ∧ f.values.map (fun v => v.value) = [v0, v1, v2, v3]) := by
  refine ⟨fun sol var hv =>
      ⟨_, GLVis_PrintSStructVector_node fopen sol var pfx myid h hv,
        SStructVector_pass_out_node sol var⟩, ?_, ?_, ?_⟩
  · intro ni nj values c
    constructor
    · simp [nodeCellLines, cellCorners, nodeIndex, CornerRef.ri, CornerRef.rj]
    · intro v hv
      simp only [nodeCellLines, List.mem_map] at hv
      obtain ⟨r, _, rfl⟩ := hv
      rfl
  · intro ni nj values c
    constructor
    · simp [nodeCellLines, cellCorners, nodeIndex, CornerRef.ri, CornerRef.rj, CornerRef.rk]
    · intro v hv
      simp only [nodeCellLines, List.mem_map] at hv
      obtain ⟨r, _, rfl⟩ := hv
      rfl
  · intro v0 v1 v2 v3
    refine ⟨_, GLVis_PrintSStructVector_node fopen _ 0 pfx myid h rfl, ?_⟩
    rw [SStructVector_pass_out_node]
    simp [nodeValueLines, nodeValuesOfBox, sstructVectorCorners, List.enum, offsetCells2,
      loopLt, hypre_BoxSizeD, hypre_BoxIMinD, hypre_BoxIMaxD, hypre_IndexD, List.range_succ,
      nodeCellLines, cellCorners, nodeIndex, CornerRef.ri, CornerRef.rj,
      sstructBufferOfBox, arrayMem]

/-! ## Common traversal of mesh and field -/

theorem loopLe_eq_map (lo hi : Int) :
    loopLe lo hi = (loopLt 0 (hi - lo + 1)).map fun x => lo + x := by
  simp only [loopLe, loopLt, List.map_map]
  have hn : (hi + 1 - lo).toNat = (hi - lo + 1 - 0).toNat := by congr 1; ring
  rw [hn]
  apply List.map_congr_left
  intro n _
  simp

theorem flatMap_congr_mem {α β : Type} (l : List α) (f g : α → List β)
    (hfg : ∀ a ∈ l, f a = g a) : l.flatMap f = l.flatMap g := by
  induction l with
  | nil => rfl
  | cons a l ih =>
    rw [List.flatMap_cons, List.flatMap_cons, hfg a (List.mem_cons_self _ _),
      ih (fun x hx => hfg x (List.mem_cons_of_mem _ hx))]

theorem boxCells_eq_offsets3 (p b : Nat) (box : hypre_Box) :
    boxCells p b box
      = (offsetCells3 (hypre_BoxSizeD box 0) (hypre_BoxSizeD box 1)
          (hypre_BoxSizeD box 2) p b).map fun c =>
            (⟨c.p, c.b, hypre_BoxIMinD box 0 + c.i, hypre_BoxIMinD box 1 + c.j,
              hypre_BoxIMinD box 2 + c.k⟩ : CellRef) := by
  simp only [boxCells, offsetCells3, hypre_BoxSizeD, loopLe_eq_map, List.map_flatMap,
    List.map_map, map_flatMap_eq]
  rfl

theorem boxCells_eq_offsets2 (p b : Nat) (box : hypre_Box)
    (hflat : hypre_BoxIMinD box 2 = hypre_BoxIMaxD box 2) :
    boxCells p b box
      = (offsetCells2 (hypre_BoxSizeD box 0) (hypre_BoxSizeD box 1) p b).map fun c =>
            (⟨c.p, c.b, hypre_BoxIMinD box 0 + c.i, hypre_BoxIMinD box 1 + c.j,
              hypre_BoxIMinD box 2 + c.k⟩ : CellRef) := by
  have h1 : loopLe (hypre_BoxIMinD box 2) (hypre_BoxIMaxD box 2) = [hypre_BoxIMinD box 2] := by
    rw [← hflat]
    simp [loopLe, List.range_succ]
  simp only [boxCells, h1, offsetCells2, hypre_BoxSizeD, loopLe_eq_map, List.map_flatMap,
    List.map_map, map_flatMap_eq, List.flatMap_cons, List.flatMap_nil, List.append_nil]
  congr 1
  funext a
  apply List.map_congr_left
  intro x _
  simp [Function.comp]

theorem boxAt_of_mem_enum (grid : hypre_SStructGrid) (pp : Nat × hypre_SStructPGrid)
    (bb : Nat × hypre_Box) (hpp : pp ∈ grid.pgrids.enum)
    (hbb : bb ∈ pp.2.sgrids0.boxes.enum) : boxAt grid pp.1 bb.1 = some bb.2 := by
  rw [List.mem_enum_iff_getElem?] at hpp hbb
  simp [boxAt, hpp, hbb]

theorem mem_offsetCells3 (ni nj nk : Int) (p b : Nat) (c : CellRef)
    (hc : c ∈ offsetCells3 ni nj nk p b) : c.p = p ∧ c.b = b := by
  simp only [offsetCells3, List.mem_flatMap, List.mem_map] at hc
  obtain ⟨k, _, j, _, i, _, rfl⟩ := hc
  exact ⟨rfl, rfl⟩

theorem mem_offsetCells2 (ni nj : Int) (p b : Nat) (c : CellRef)
    (hc : c ∈ offsetCells2 ni nj p b) : c.p = p ∧ c.b = b := by
  simp only [offsetCells2, List.mem_flatMap, List.mem_map] at hc
  obtain ⟨j, _, i, _, rfl⟩ := hc
  exact ⟨rfl, rfl⟩

theorem absCell_of_box (grid : hypre_SStructGrid) (p b : Nat) (box : hypre_Box)
    (hbox : boxAt grid p b = some box) (c : CellRef) (hp : c.p = p) (hb : c.b = b) :
    absCell grid c
      = some ⟨c.p, c.b, hypre_BoxIMinD box 0 + c.i, hypre_BoxIMinD box 1 + c.j,
          hypre_BoxIMinD box 2 + c.k⟩ := by
  unfold absCell
  rw [hp, hb, hbox]
  rfl

/-- The cells of the value lines of a cell-centered variable are, in order, the
cells of the element lines. -/
theorem cellValueLines_cells (sol : hypre_SStructVector) (var : Int) :
    (cellValueLines sol var).map (fun v => absCell sol.grid v.corner.cell)
      = (gridCells sol.grid).map some := by
  unfold cellValueLines gridCells boxesCells
  rw [List.map_flatMap, List.map_flatMap]
  apply flatMap_congr_mem
  intro pp hpp
  rw [List.map_flatMap, List.map_flatMap]
  apply flatMap_congr_mem
  intro bb hbb
  have hbox := boxAt_of_mem_enum sol.grid pp bb hpp hbb
  rw [boxCells_eq_offsets3, cellValuesOfBox, List.map_map, List.map_map]
  apply List.map_congr_left
  intro c hc
  obtain ⟨hp, hb⟩ := mem_offsetCells3 _ _ _ _ _ _ hc
  simp only [Function.comp]
  exact absCell_of_box sol.grid pp.1 bb.1 bb.2 hbox c hp hb

theorem cellCorners_place (grid : hypre_SStructGrid) (dim : Int) (c c' : CellRef)
    (hc : absCell grid c = some c') :
    (cellCorners dim c).map (fun r => (absCell grid r.cell, r.di, r.dj, r.dk))
      = (cellCorners dim c').map (fun r => (some r.cell, r.di, r.dj, r.dk)) := by
  unfold cellCorners
  split <;> simp [hc]

/-- The cells and corner offsets of the value lines of a node-centered variable
are, in order, those of the vertex lines, when the grid is 3D or is 2D with
boxes spanning a single index on axis 2. -/
theorem nodeValueLines_corners (sol : hypre_SStructVector) (var : Int)
    (trans origin : Option (Int → ℚ))
    (hflat : sol.grid.ndim = 2 → BoxesFlat sol.grid) :
    (nodeValueLines sol var).map
        (fun v => (absCell sol.grid v.corner.cell, v.corner.di, v.corner.dj, v.corner.dk))
      = (SStructGrid_vertices sol.grid trans origin).map
          (fun v => (some v.1.cell, v.1.di, v.1.dj, v.1.dk)) := by
  have hv : (SStructGrid_vertices sol.grid trans origin).map
        (fun v => (some v.1.cell, v.1.di, v.1.dj, v.1.dk))
      = ((gridCells sol.grid).flatMap (cellCorners sol.grid.ndim)).map
          (fun r => (some r.cell, r.di, r.dj, r.dk)) := by
    rw [← SStructGrid_vertices_fst sol.grid trans origin, List.map_map]
    rfl
  rw [hv]
  unfold nodeValueLines gridCells boxesCells
  rw [flatMap_flatMap, List.map_flatMap, List.map_flatMap]
  apply flatMap_congr_mem
  intro pp hpp
  rw [flatMap_flatMap, List.map_flatMap, List.map_flatMap]
  apply flatMap_congr_mem
  intro bb hbb
  have hbox := boxAt_of_mem_enum sol.grid pp bb hpp hbb
  have hpart : pp.2 ∈ sol.grid.pgrids := List.snd_mem_of_mem_enum hpp
  have hbmem : bb.2 ∈ pp.2.sgrids0.boxes := List.snd_mem_of_mem_enum hbb
  unfold nodeValuesOfBox
  by_cases hd : sol.grid.ndim = 2
  · rw [if_pos hd, boxCells_eq_offsets2 _ _ _ (hflat hd pp.2 hpart bb.2 hbmem),
      map_flatMap_eq, List.map_flatMap, List.map_flatMap]
    apply flatMap_congr_mem
    intro c hc
    obtain ⟨hp, hb⟩ := mem_offsetCells2 _ _ _ _ _ hc
    rw [nodeCellLines, List.map_map]
    exact cellCorners_place sol.grid sol.grid.ndim c _
      (absCell_of_box sol.grid pp.1 bb.1 bb.2 hbox c hp hb)
  · rw [if_neg hd, boxCells_eq_offsets3, map_flatMap_eq, List.map_flatMap,
      List.map_flatMap]
    apply flatMap_congr_mem
    intro c hc
    obtain ⟨hp, hb⟩ := mem_offsetCells3 _ _ _ _ _ _ hc
    rw [nodeCellLines, List.map_map]
    exact cellCorners_place sol.grid sol.grid.ndim c _
      (absCell_of_box sol.grid pp.1 bb.1 bb.2 hbox c hp hb)

theorem length_flatMap_const {α β : Type} (l : List α) (f : α → List β) (n : Nat)
    (hf : ∀ a, (f a).length = n) : (l.flatMap f).length = l.length * n := by
  induction l with
  | nil => simp
  | cons a l ih =>
    rw [List.flatMap_cons, List.length_append, ih, hf, List.length_cons]
    ring

theorem boxCells_length (p b : Nat) (box : hypre_Box)
    (h0 : hypre_BoxIMinD box 0 ≤ hypre_BoxIMaxD box 0)
    (h1 : hypre_BoxIMinD box 1 ≤ hypre_BoxIMaxD box 1)
    (h2 : hypre_BoxIMinD box 2 ≤ hypre_BoxIMaxD box 2) :
    ((boxCells p b box).length : Int) = hypre_BoxVolume box := by
  unfold boxCells
  rw [length_flatMap_const _ _
    ((loopLe (hypre_BoxIMinD box 1) (hypre_BoxIMaxD box 1)).length
      * (loopLe (hypre_BoxIMinD box 0) (hypre_BoxIMaxD box 0)).length)]
  · simp only [loopLe_length, hypre_BoxVolume, hypre_BoxSizeD]
    push_cast
    rw [Int.toNat_of_nonneg (by omega), Int.toNat_of_nonneg (by omega),
      Int.toNat_of_nonneg (by omega)]
    ring
  · intro k
    rw [length_flatMap_const _ _
      (loopLe (hypre_BoxIMinD box 0) (hypre_BoxIMaxD box 0)).length]
    intro j
    simp

theorem length_enumFrom_flatMap {α β : Type} (l : List α) (f : Nat × α → List β)
    (w : α → Int) (n : Nat) (h : ∀ a ∈ l, ∀ i, ((f (i, a)).length : Int) = w a) :
    (((l.enumFrom n).flatMap f).length : Int) = (l.map w).sum := by
  induction l generalizing n with
  | nil => simp
  | cons a l ih =>
    rw [List.enumFrom_cons, List.flatMap_cons, List.length_append, List.map_cons,
      List.sum_cons]
    push_cast
    rw [h a (List.mem_cons_self _ _) n, ih (n + 1) (fun x hx => h x (List.mem_cons_of_mem _ hx))]

/-- For a grid whose boxes are non-empty the number of enumerated cells is the
total cell count. -/
theorem gridCells_length (grid : hypre_SStructGrid) (hne : BoxesNonEmpty grid) :
    ((gridCells grid).length : Int) = totalCells grid := by
  unfold gridCells totalCells
  apply length_enumFrom_flatMap
  intro part hpart i
  unfold boxesCells boxesVolume
  apply length_enumFrom_flatMap
  intro box hbox b
  obtain ⟨h0, h1, h2⟩ := hne part hpart box hbox
  exact boxCells_length i b box h0 h1 h2

theorem cellCorners_length (dim : Int) (c : CellRef) :
    (cellCorners dim c).length = (cellNV dim).toNat := by
  unfold cellCorners cellNV
  split <;> rfl

theorem SStructGrid_vertices_length (grid : hypre_SStructGrid)
    (trans origin : Option (Int → ℚ)) :
    ((SStructGrid_vertices grid trans origin).length : Int)
      = (gridCells grid).length * cellNV grid.ndim := by
  rw [← List.length_map (SStructGrid_vertices grid trans origin) Prod.fst,
    SStructGrid_vertices_fst,
    length_flatMap_const _ _ (cellNV grid.ndim).toNat (cellCorners_length grid.ndim)]
  push_cast
  rw [Int.toNat_of_nonneg (cellNV_nonneg _)]

theorem SStructGrid_elements_length (grid : hypre_SStructGrid) :
    (SStructGrid_elements grid).2.length = (gridCells grid).length := by
  rw [SStructGrid_elements_eq,
    ← List.length_map (elementRecords grid.ndim 0 (gridCells grid)) Prod.fst,
    elementRecords_fst]

/-- The loops of `GLVis_PrintSStructVector` run in the order of the loops of
`GLVis_PrintSStructGrid`: for a grid whose boxes are non-empty (and, when
`dim = 2`, span a single index on axis 2), the `n`-th value line of a
cell-centered variable is printed in the loop iteration of the (part, box, cell)
of the `n`-th element, the `n`-th value line of a node-centered variable in the
iteration and at the corner offset of the `n`-th vertex line, and the line
counts agree with the headers. Which buffer entry a line reads is not part of
this statement. -/
theorem value_lines_follow_mesh_order (fopen : String → Bool) (sol : hypre_SStructVector) (var : Int)
    ( mesh_prefix sol_prefix : String) (myid : Int) (trans origin : Option (Int → ℚ))
    (hm : fopen (rankFileName mesh_prefix myid) = true)
    (hs : fopen (rankFileName sol_prefix myid) = true)
    (hne : BoxesNonEmpty sol.grid)
    (hflat : sol.grid.ndim = 2 → BoxesFlat sol.grid) :
    ∃ m, (GLVis_PrintSStructGrid fopen sol.grid mesh_prefix myid trans origin).content = some m
      ∧ (vartypeOf sol.grid var = some HYPRE_SStructVariable.CELL →
          ∃ f, (GLVis_PrintSStructVector fopen sol var sol_prefix myid).content = some f
            ∧ f.values.map (fun v => absCell sol.grid v.corner.cell)
                = m.elements.map (fun e => some e.1)
            ∧ f.values.length = m.elements.length
            ∧ (f.values.length : Int) = m.nelem)
      ∧ (vartypeOf sol.grid var = some HYPRE_SStructVariable.NODE →
          ∃ f, (GLVis_PrintSStructVector fopen sol var sol_prefix myid).content = some f
            ∧ f.values.map (fun v =>
                  (absCell sol.grid v.corner.cell, v.corner.di, v.corner.dj, v.corner.dk))
                = m.vertices.map (fun v => (some v.1.cell, v.1.di, v.1.dj, v.1.dk))
            ∧ f.values.length = m.vertices.length
            ∧ (f.values.length : Int) = m.nvert) := by
  refine ⟨_, GLVis_PrintSStructGrid_content fopen sol.grid mesh_prefix myid trans origin hm,
    ?_, ?_⟩
  · intro hv
    refine ⟨_, GLVis_PrintSStructVector_cell fopen sol var sol_prefix myid hs hv, ?_⟩
    have hcells : (cellValueLines sol var).map (fun v => absCell sol.grid v.corner.cell)
        = (SStructGrid_elements sol.grid).2.map (fun e => some e.1) := by
      rw [cellValueLines_cells, SStructGrid_elements_eq]
      have hfst := elementRecords_fst sol.grid.ndim 0 (gridCells sol.grid)
      conv_lhs => rw [← hfst]
      rw [List.map_map]
      rfl
    have hlen : (cellValueLines sol var).length = (SStructGrid_elements sol.grid).2.length := by
      have := congrArg List.length hcells
      simpa using this
    simp only [SStructVector_pass_out_cell]
    refine ⟨hcells, hlen, ?_⟩
    rw [hlen, SStructGrid_elements_length, gridCells_length sol.grid hne,
      SStructGrid_counts_eq]
  · intro hv
    refine ⟨_, GLVis_PrintSStructVector_node fopen sol var sol_prefix myid hs hv, ?_⟩
    have hcorners := nodeValueLines_corners sol var trans origin hflat
    have hlen : (nodeValueLines sol var).length
        = (SStructGrid_vertices sol.grid trans origin).length := by
      have := congrArg List.length hcorners
      simpa using this
    simp only [SStructVector_pass_out_node]
    refine ⟨hcorners, hlen, ?_⟩
    rw [hlen, SStructGrid_vertices_length, gridCells_length sol.grid hne,
      SStructGrid_counts_eq]

/-- The value printed by the `n`-th value line of a cell-centered variable is the
sample of the cell that lies below the `n`-th enumerated cell in the lowest
layer of its box: the read `values[i + j*ni]` has no `k` term. -/
theorem cellValueLines_samples (sol : hypre_SStructVector) (var : Int) :
    (cellValueLines sol var).map (fun v => some v.value)
      = (gridCells sol.grid).map
          (fun c => cellSample sol var (baseLayerCell sol.grid c)) := by
  unfold cellValueLines gridCells boxesCells
  rw [List.map_flatMap, List.map_flatMap]
  apply flatMap_congr_mem
  intro pp hpp
  rw [List.map_flatMap, List.map_flatMap]
  apply flatMap_congr_mem
  intro bb hbb
  have hbox := boxAt_of_mem_enum sol.grid pp bb hpp hbb
  rw [boxCells_eq_offsets3, cellValuesOfBox, List.map_map, List.map_map]
  apply List.map_congr_left
  intro c hc
  obtain ⟨hp, hb⟩ := mem_offsetCells3 _ _ _ _ _ _ hc
  simp only [Function.comp, baseLayerCell, cellSample, hp, hb, hbox, Option.map_some',
    rowMajorIndex, add_sub_cancel_left, sub_self, zero_mul, add_zero]

/-- On a grid whose boxes span a single index on axis 2 every enumerated cell
lies in the lowest layer of its box. -/
theorem baseLayerCell_of_flat (grid : hypre_SStructGrid) (hflat : BoxesFlat grid)
    (c : CellRef) (hc : c ∈ gridCells grid) : baseLayerCell grid c = c := by
  simp only [gridCells, boxesCells, List.mem_flatMap] at hc
  obtain ⟨pp, hpp, bb, hbb, hc⟩ := hc
  have hbox := boxAt_of_mem_enum grid pp bb hpp hbb
  have hf := hflat pp.2 (List.snd_mem_of_mem_enum hpp) bb.2 (List.snd_mem_of_mem_enum hbb)
  simp only [boxCells, List.mem_flatMap, List.mem_map, mem_loopLe] at hc
  obtain ⟨k, hk, j, _, i, _, rfl⟩ := hc
  have hk2 : hypre_BoxIMinD bb.2 2 = k := by omega
  simp only [baseLayerCell, hbox, hk2]

theorem SStructGrid_elements_eq_snd (grid : hypre_SStructGrid) :
    (SStructGrid_elements grid).2 = elementRecords grid.ndim 0 (gridCells grid) := by
  rw [SStructGrid_elements_eq]

/-- The values of the value lines of a cell-centered variable against the
elements of the mesh of the same grid: the `n`-th value line carries the sample
of the cell below the cell of the `n`-th element in the lowest layer of its
box; it carries the sample of the cell of the `n`-th element itself when every
box spans a single index on axis 2. -/
theorem cell_value_lines_samples (fopen : String → Bool) (sol : hypre_SStructVector)
    (var : Int) ( mesh_prefix sol_prefix : String) (myid : Int)
    (trans origin : Option (Int → ℚ))
    (hm : fopen (rankFileName mesh_prefix myid) = true)
    (hs : fopen (rankFileName sol_prefix myid) = true)
    (hv : vartypeOf sol.grid var = some HYPRE_SStructVariable.CELL) :
    ∃ m f, (GLVis_PrintSStructGrid fopen sol.grid mesh_prefix myid trans origin).content
          = some m
      ∧ (GLVis_PrintSStructVector fopen sol var sol_prefix myid).content = some f
      ∧ f.values.map (fun v => some v.value)
          = m.elements.map (fun e => cellSample sol var (baseLayerCell sol.grid e.1))
      ∧ (BoxesFlat sol.grid →
          f.values.map (fun v => some v.value)
            = m.elements.map (fun e => cellSample sol var e.1)) := by
  have hfst := elementRecords_fst sol.grid.ndim 0 (gridCells sol.grid)
  have h1 : (SStructVector_pass sol var HYPRE_SStructVariable.CELL 0).out.map
        (fun v => some v.value)
      = (SStructGrid_elements sol.grid).2.map
          (fun e => cellSample sol var (baseLayerCell sol.grid e.1)) := by
    simp only [SStructVector_pass_out_cell, cellValueLines_samples, SStructGrid_elements_eq]
    conv_lhs => rw [← hfst]
    rw [List.map_map]
    rfl
  refine ⟨_, _, GLVis_PrintSStructGrid_content fopen sol.grid mesh_prefix myid trans origin hm,
    GLVis_PrintSStructVector_cell fopen sol var sol_prefix myid hs hv, h1, ?_⟩
  intro hflat
  simp only [h1]
  apply List.map_congr_left
  intro e he
  have hmem : e.1 ∈ gridCells sol.grid := by
    rw [← hfst, ← SStructGrid_elements_eq_snd]
    exact List.mem_map_of_mem _ he
  rw [baseLayerCell_of_flat sol.grid hflat e.1 hmem]

/-- C12 (evaluation at the failing input): on the 3D grid of one box of 1×1×2
cells, which satisfies the conditions of the claim, with a cell-centered field
whose buffer is `[10, 20]`, the mesh has the elements of the cells `(0,0,0)` and
`(0,0,1)`, whose samples are 10 and 20. `GLVis_PrintSStructVector` prints two
value lines and its loops visit the same two cells in the same order, but both
lines read buffer index 0 and carry the value 10: the second value line holds
the sample of the cell of the first element, not of the second. -/
theorem C12_value_lines_mismatch_cells :
    (sstructVector1x1x2.grid.ndim = 2 ∨ sstructVector1x1x2.grid.ndim = 3)
    ∧ BoxesNonEmpty sstructVector1x1x2.grid
    ∧ (sstructVector1x1x2.grid.ndim = 2 → BoxesFlat sstructVector1x1x2.grid)
    ∧ vartypeOf sstructVector1x1x2.grid 0 = some HYPRE_SStructVariable.CELL
    ∧ ∃ m f,
        (GLVis_PrintSStructGrid openAll sstructVector1x1x2.grid "mesh" 0 none none).content
          = some m
        ∧ (GLVis_PrintSStructVector openAll sstructVector1x1x2 0 "sol" 0).content = some f
        ∧ m.elements.map (fun e => e.1) = [⟨0, 0, 0, 0, 0⟩, ⟨0, 0, 0, 0, 1⟩]
        ∧ m.elements.map (fun e => cellSample sstructVector1x1x2 0 e.1) = [some 10, some 20]
        ∧ f.values.length = m.elements.length
        ∧ f.values.map (fun v => absCell sstructVector1x1x2.grid v.corner.cell)
            = m.elements.map (fun e => some e.1)
        ∧ f.values.map (fun v => (v.index, v.value)) = [(0, 10), (0, 10)]
        ∧ f.values.map (fun v => some v.value)
            ≠ m.elements.map (fun e => cellSample sstructVector1x1x2 0 e.1) := by
  refine ⟨Or.inr rfl, by unfold BoxesNonEmpty; decide, fun h => absurd h (by decide), rfl,
    _, _, rfl, rfl, ?_, ?_, ?_, ?_, ?_, ?_⟩
  · decide
  · decide!
  · decide
  · decide
  · decide!
  · decide!

/-! ## Failures -/

/-- C13 (counterexample): for the face-centered field on the single-cell grid,
with every file openable, `GLVis_PrintSStructVector` exits with the
unsupported-type message after it has opened (created) the file `sol.000000`. -/
theorem C13_counterexample :
    vartypeOf sstructVectorFace.grid 0 = some HYPRE_SStructVariable.FACE
    ∧ (GLVis_PrintSStructVector openAll sstructVectorFace 0 "sol" 0).exited = true
    ∧ (GLVis_PrintSStructVector openAll sstructVectorFace 0 "sol" 0).opened
        = some "sol.000000"
    ∧ ¬ FailsBeforeOpening openAll sstructVectorFace 0 "sol" 0 := by
  refine ⟨rfl, rfl, by decide, ?_⟩
  intro hf
  have h := hf.2
  revert h
  decide

/-- C13 (amended): when the selected variable's kind is neither cell-centered
nor node-centered and the output file can be opened, `GLVis_PrintSStructVector`
opens (creates or truncates) the file, writes nothing to it, prints the
unsupported-type message and exits: the failure comes after the file has been
opened and before any content is written. -/
theorem C13_unsupported_kind (fopen : String → Bool) (sol : hypre_SStructVector)
    (var : Int) (pfx : String) (myid : Int)
    (h : fopen (rankFileName pfx myid) = true)
    (hv : vartypeOf sol.grid var = some HYPRE_SStructVariable.FACE) :
    (GLVis_PrintSStructVector fopen sol var pfx myid).stdout
        = ["Error: unsuported variable type\n"]
    ∧ (GLVis_PrintSStructVector fopen sol var pfx myid).exited = true
    ∧ (GLVis_PrintSStructVector fopen sol var pfx myid).opened
        = some (rankFileName pfx myid)
    ∧ (GLVis_PrintSStructVector fopen sol var pfx myid).content = none := by
  simp [GLVis_PrintSStructVector, h, hv]

/-- C13 (amended) on the face-centered field of the single-cell grid. -/
theorem C13_unsupported_kind_witness :
    openOnly "sol.000000" (rankFileName "sol" 0) = true
    ∧ vartypeOf sstructVectorFace.grid 0 = some HYPRE_SStructVariable.FACE
    ∧ (GLVis_PrintSStructVector (openOnly "sol.000000") sstructVectorFace 0 "sol" 0).opened
        = some "sol.000000"
    ∧ (GLVis_PrintSStructVector (openOnly "sol.000000") sstructVectorFace 0 "sol" 0).content
        = none := by
  have h := C13_unsupported_kind (openOnly "sol.000000") sstructVectorFace 0 "sol" 0
    (by decide) rfl
  exact ⟨by decide, rfl, by rw [h.2.2.1]; decide, h.2.2.2⟩

/-- C14 (counterexample): for the grid of dimension 2 whose box spans two
indices on axis 2, with every file openable, `GLVis_PrintSStructGrid` raises no
failure and emits a mesh file with two quadrilaterals. -/
theorem C14_counterexample :
    hypre_BoxIMinD ⟨⟨0, 0, 0⟩, ⟨0, 0, 1⟩⟩ 2 < hypre_BoxIMaxD ⟨⟨0, 0, 0⟩, ⟨0, 0, 1⟩⟩ 2
    ∧ (GLVis_PrintSStructGrid openAll gridInconsistent "mesh" 0 none none).exited = false
    ∧ (∃ m, (GLVis_PrintSStructGrid openAll gridInconsistent "mesh" 0 none none).content
          = some m
        ∧ m.elements.map (fun e => (e.2.geom, e.2.ids)) = [(3, [0, 1, 2, 3]), (3, [4, 5, 6, 7])])
    ∧ ¬ RaisesInsteadOfEmitting openAll gridInconsistent "mesh" 0 none none := by
  refine ⟨by decide, rfl, ⟨_, rfl, by decide⟩, ?_⟩
  intro hf
  have h := hf.1
  revert h
  decide

/-- C14 (amended): `GLVis_PrintSStructGrid` makes no dimension-consistency
check. For every grid, also one containing boxes of inconsistent
dimensionality, it raises a failure exactly when the target file cannot be
opened; when the file can be opened it prints no message and emits a mesh file
with one element per enumerated cell. -/
theorem C14_no_dimension_check (fopen : String → Bool) (grid : hypre_SStructGrid)
    (pfx : String) (myid : Int) (trans origin : Option (Int → ℚ)) :
    ((GLVis_PrintSStructGrid fopen grid pfx myid trans origin).exited = true
        ↔ fopen (rankFileName pfx myid) = false)
    ∧ (fopen (rankFileName pfx myid) = true →
        (GLVis_PrintSStructGrid fopen grid pfx myid trans origin).stdout = []
        ∧ (GLVis_PrintSStructGrid fopen grid pfx myid trans origin).opened
            = some (rankFileName pfx myid)
        ∧ ∃ m, (GLVis_PrintSStructGrid fopen grid pfx myid trans origin).content = some m
            ∧ m.elements.map Prod.fst = gridCells grid) := by
  constructor
  · cases hf : fopen (rankFileName pfx myid) <;> simp [GLVis_PrintSStructGrid, hf]
  · intro hf
    refine ⟨by simp [GLVis_PrintSStructGrid, hf], by simp [GLVis_PrintSStructGrid, hf],
      _, GLVis_PrintSStructGrid_content fopen grid pfx myid trans origin hf, ?_⟩
    simp [SStructGrid_elements_eq, elementRecords_fst]

/-- C14 (amended) on the grid of dimension 2 whose box spans two indices on
axis 2. -/
theorem C14_no_dimension_check_witness :
    openOnly "mesh.000000" (rankFileName "mesh" 0) = true
    ∧ (GLVis_PrintSStructGrid (openOnly "mesh.000000") gridInconsistent "mesh" 0
        none none).stdout = []
    ∧ ∃ m, (GLVis_PrintSStructGrid (openOnly "mesh.000000") gridInconsistent "mesh" 0
          none none).content = some m
        ∧ m.elements.map Prod.fst = [⟨0, 0, 0, 0, 0⟩, ⟨0, 0, 0, 0, 1⟩] := by
  obtain ⟨h1, _, m, hm, h2⟩ :=
    (C14_no_dimension_check (openOnly "mesh.000000") gridInconsistent "mesh" 0
      none none).2 (by decide)
  exact ⟨by decide, h1, m, hm, by rw [h2]; decide⟩

/-- C11 on the node-centered field of the single cell `(0,0)` with buffer
`[1, 2, 3, 4]`: the four lines read the indices 0, 1, 3, 2. -/
theorem C11_node_corner_samples_witness :
    openOnly "sol.000000" (rankFileName "sol" 0) = true
    ∧ vartypeOf sstructVectorNode.grid 0 = some HYPRE_SStructVariable.NODE
    ∧ ∃ f, (GLVis_PrintSStructVector (openOnly "sol.000000") sstructVectorNode 0
          "sol" 0).content = some f
        ∧ f.values.map (fun v => (v.index, v.value)) = [(0, 1), (1, 2), (3, 4), (2, 3)] := by
  obtain ⟨f, hf, hvals⟩ :=
    (C11_node_corner_samples (openOnly "sol.000000") "sol" 0 (by decide)).1
      sstructVectorNode 0 rfl
  refine ⟨by decide, rfl, f, hf, ?_⟩
  rw [hvals]
  decide!

/-- The loop order on the node-centered field of the single cell `(0,0)`: four
value lines for the four vertex lines of the mesh. -/
theorem value_lines_follow_mesh_order_witness :
    openAll (rankFileName "mesh" 0) = true
    ∧ openAll (rankFileName "sol" 0) = true
    ∧ BoxesNonEmpty sstructVectorNode.grid
    ∧ (sstructVectorNode.grid.ndim = 2 → BoxesFlat sstructVectorNode.grid)
    ∧ vartypeOf sstructVectorNode.grid 0 = some HYPRE_SStructVariable.NODE
    ∧ ∃ m f, (GLVis_PrintSStructGrid openAll sstructVectorNode.grid "mesh" 0
          none none).content = some m
        ∧ (GLVis_PrintSStructVector openAll sstructVectorNode 0 "sol" 0).content = some f
        ∧ f.values.length = m.vertices.length
        ∧ (f.values.length : Int) = m.nvert := by
  have hne : BoxesNonEmpty sstructVectorNode.grid := by
    unfold BoxesNonEmpty; decide
  have hflat : sstructVectorNode.grid.ndim = 2 → BoxesFlat sstructVectorNode.grid := by
    intro _; unfold BoxesFlat; decide
  obtain ⟨m, hm, _, hnode⟩ :=
    value_lines_follow_mesh_order openAll sstructVectorNode 0 "mesh" "sol" 0 none none rfl rfl hne hflat
  obtain ⟨f, hf, _, h1, h2⟩ := hnode rfl
  exact ⟨rfl, rfl, hne, hflat, rfl, m, f, hm, hf, h1, h2⟩

/-- The eight routines that test the result of `fopen` report the failure and
exit without a write attempt whenever the target file cannot be opened. -/
theorem failedOpen_of_unopenable (fopen : String → Bool) (name pfx : String) (myid : Int)
    (hname : fopen name = false) (hrank : fopen (rankFileName pfx myid) = false) :
    (∀ n, GLVis_PrintGlobalSquareMesh fopen name n = failedOpen name)
    ∧ (∀ nx ny h x0 y0,
        GLVis_PrintLocalSquareMesh fopen pfx nx ny h x0 y0 myid
          = failedOpen (rankFileName pfx myid))
    ∧ (∀ sin cos n gamma,
        GLVis_PrintLocalRhombusMesh fopen sin cos pfx n myid gamma
          = failedOpen (rankFileName pfx myid))
    ∧ (∀ nx ny nz h x0 y0 z0,
        GLVis_PrintLocalCubicMesh fopen pfx nx ny nz h x0 y0 z0 myid
          = failedOpen (rankFileName pfx myid))
    ∧ (∀ grid trans origin,
        GLVis_PrintSStructGrid fopen grid pfx myid trans origin
          = failedOpen (rankFileName pfx myid))
    ∧ (∀ sol var,
        GLVis_PrintSStructVector fopen sol var pfx myid = failedOpen (rankFileName pfx myid))
    ∧ (∀ grid trans origin,
        GLVis_PrintStructGrid fopen grid pfx myid trans origin
          = failedOpen (rankFileName pfx myid))
    ∧ (∀ sol, GLVis_PrintStructVector fopen sol pfx myid = failedOpen (rankFileName pfx myid)) := by
  refine ⟨?_, ?_, ?_, ?_, ?_, ?_, ?_, ?_⟩
  · intro n; simp [GLVis_PrintGlobalSquareMesh, failedOpen, hname]
  · intro nx ny h x0 y0; simp [GLVis_PrintLocalSquareMesh, failedOpen, hrank]
  · intro sin cos n gamma; simp [GLVis_PrintLocalRhombusMesh, failedOpen, hrank]
  · intro nx ny nz h x0 y0 z0; simp [GLVis_PrintLocalCubicMesh, failedOpen, hrank]
  · intro grid trans origin; simp [GLVis_PrintSStructGrid, failedOpen, hrank]
  · intro sol var; simp [GLVis_PrintSStructVector, failedOpen, hrank]
  · intro grid trans origin; simp [GLVis_PrintStructGrid, failedOpen, hrank]
  · intro sol; simp [GLVis_PrintStructVector, failedOpen, hrank]

/-- C15 (evaluation at the failing input): when no file can be opened, the
eight routines that test the result of `fopen` report the failure and exit
without a write attempt, but `GLVis_PrintData` on rank 0 prints no message,
does not exit, and goes on to the `fprintf` call with no file opened. -/
theorem C15_print_data_ignores_fopen_failure :
    (∀ meshfile n, GLVis_PrintGlobalSquareMesh openNone meshfile n = failedOpen meshfile)
    ∧ (∀ pfx nx ny h x0 y0 myid,
        GLVis_PrintLocalSquareMesh openNone pfx nx ny h x0 y0 myid
          = failedOpen (rankFileName pfx myid))
    ∧ (∀ sin cos pfx n myid gamma,
        GLVis_PrintLocalRhombusMesh openNone sin cos pfx n myid gamma
          = failedOpen (rankFileName pfx myid))
    ∧ (∀ pfx nx ny nz h x0 y0 z0 myid,
        GLVis_PrintLocalCubicMesh openNone pfx nx ny nz h x0 y0 z0 myid
          = failedOpen (rankFileName pfx myid))
    ∧ (∀ grid pfx myid trans origin,
        GLVis_PrintSStructGrid openNone grid pfx myid trans origin
          = failedOpen (rankFileName pfx myid))
    ∧ (∀ sol var pfx myid,
        GLVis_PrintSStructVector openNone sol var pfx myid
          = failedOpen (rankFileName pfx myid))
    ∧ (∀ grid pfx myid trans origin,
        GLVis_PrintStructGrid openNone grid pfx myid trans origin
          = failedOpen (rankFileName pfx myid))
    ∧ (∀ sol pfx myid,
        GLVis_PrintStructVector openNone sol pfx myid = failedOpen (rankFileName pfx myid))
    ∧ (GLVis_PrintData openNone "glvis_data" 0 4).stdout = []
    ∧ (GLVis_PrintData openNone "glvis_data" 0 4).exited = false
    ∧ (GLVis_PrintData openNone "glvis_data" 0 4).opened = none
    ∧ (GLVis_PrintData openNone "glvis_data" 0 4).content = some ⟨4⟩ := by
  refine ⟨fun meshfile n => (failedOpen_of_unopenable openNone meshfile "" 0 rfl rfl).1 n,
    fun pfx nx ny h x0 y0 myid =>
      (failedOpen_of_unopenable openNone "" pfx myid rfl rfl).2.1 nx ny h x0 y0,
    fun sin cos pfx n myid gamma =>
      (failedOpen_of_unopenable openNone "" pfx myid rfl rfl).2.2.1 sin cos n gamma,
    fun pfx nx ny nz h x0 y0 z0 myid =>
      (failedOpen_of_unopenable openNone "" pfx myid rfl rfl).2.2.2.1 nx ny nz h x0 y0 z0,
    fun grid pfx myid trans origin =>
      (failedOpen_of_unopenable openNone "" pfx myid rfl rfl).2.2.2.2.1 grid trans origin,
    fun sol var pfx myid =>
      (failedOpen_of_unopenable openNone "" pfx myid rfl rfl).2.2.2.2.2.1 sol var,
    fun grid pfx myid trans origin =>
      (failedOpen_of_unopenable openNone "" pfx myid rfl rfl).2.2.2.2.2.2.1 grid trans origin,
    fun sol pfx myid =>
      (failedOpen_of_unopenable openNone "" pfx myid rfl rfl).2.2.2.2.2.2.2 sol,
    rfl, rfl, rfl, rfl⟩

/-- C16: `GLVis_PrintData` opens and writes nothing for every `myid ≠ 0`; when
the data file can be opened it writes it, with the single record
`"np <num_procs>"`, if and only if `myid = 0`. -/
theorem C16_data_only_on_rank_zero (fopen : String → Bool) (datafile : String)
    (myid num_procs : Int) :
    (myid ≠ 0 →
        (GLVis_PrintData fopen datafile myid num_procs).opened = none
        ∧ (GLVis_PrintData fopen datafile myid num_procs).content = none
        ∧ (GLVis_PrintData fopen datafile myid num_procs).stdout = []
        ∧ (GLVis_PrintData fopen datafile myid num_procs).exited = false)
    ∧ (fopen datafile = true →
        (((GLVis_PrintData fopen datafile myid num_procs).opened = some datafile
            ∧ (GLVis_PrintData fopen datafile myid num_procs).content = some ⟨num_procs⟩)
          ↔ myid = 0))
    ∧ DataFile.lines ⟨num_procs⟩ = [Line.text ("np " ++ fmt_d num_procs ++ "\n")] := by
  refine ⟨?_, ?_, rfl⟩
  · intro hne
    simp [GLVis_PrintData, hne]
  · intro hopen
    by_cases h0 : myid = 0 <;> simp [GLVis_PrintData, h0, hopen]

/-- C16 on four processes: rank 0 writes `np 4` to `glvis_data`, rank 3 opens
and writes nothing. -/
theorem C16_data_only_on_rank_zero_witness :
    openOnly "glvis_data" "glvis_data" = true
    ∧ (GLVis_PrintData (openOnly "glvis_data") "glvis_data" 0 4).opened = some "glvis_data"
    ∧ (GLVis_PrintData (openOnly "glvis_data") "glvis_data" 0 4).content = some ⟨4⟩
    ∧ DataFile.lines ⟨4⟩ = [Line.text "np 4\n"]
    ∧ (GLVis_PrintData (openOnly "glvis_data") "glvis_data" 3 4).opened = none
    ∧ (GLVis_PrintData (openOnly "glvis_data") "glvis_data" 3 4).content = none := by
  have h0 := C16_data_only_on_rank_zero (openOnly "glvis_data") "glvis_data" 0 4
  have h3 := C16_data_only_on_rank_zero (openOnly "glvis_data") "glvis_data" 3 4
  obtain ⟨ho, hc⟩ := (h0.2.1 (by decide)).2 rfl
  obtain ⟨ho3, hc3, _, _⟩ := h3.1 (by decide)
  exact ⟨by decide, ho, hc, by decide, ho3, hc3⟩

/-! ## File names -/

theorem digitChar_value (m : Nat) (hm : m < 10) : (Nat.digitChar m).toNat - 48 = m := by
  interval_cases m <;> rfl

theorem digitChar_isDigit (m : Nat) (hm : m < 10) : (Nat.digitChar m).isDigit = true := by
  interval_cases m <;> rfl

theorem toDigitsCore_value (fuel n : Nat) (ds : List Char) (hn : n < fuel) :
    digitsValueFrom 0 (Nat.toDigitsCore 10 fuel n ds) = digitsValueFrom n ds := by
  induction fuel generalizing n ds with
  | zero => omega
  | succ fuel ih =>
    unfold Nat.toDigitsCore
    by_cases h0 : n / 10 = 0
    · simp only [h0, if_true]
      have hlt : n < 10 := by omega
      simp only [digitsValueFrom, List.foldl_cons, Nat.mul_zero, Nat.zero_add]
      rw [digitChar_value (n % 10) (Nat.mod_lt _ (by decide)), Nat.mod_eq_of_lt hlt]
    · simp only [h0, if_false]
      rw [ih (n / 10) _ (by omega)]
      simp only [digitsValueFrom, List.foldl_cons]
      rw [digitChar_value (n % 10) (Nat.mod_lt _ (by decide)), Nat.div_add_mod]

theorem toDigits_value (n : Nat) : digitsValue (Nat.toDigits 10 n) = n := by
  unfold digitsValue Nat.toDigits
  rw [toDigitsCore_value (n + 1) n [] (by omega)]
  rfl

theorem toDigitsCore_isDigit (fuel n : Nat) (ds : List Char)
    (hds : ∀ c ∈ ds, c.isDigit = true) :
    ∀ c ∈ Nat.toDigitsCore 10 fuel n ds, c.isDigit = true := by
  induction fuel generalizing n ds with
  | zero => simpa [Nat.toDigitsCore] using hds
  | succ fuel ih =>
    have hcons : ∀ c ∈ Nat.digitChar (n % 10) :: ds, c.isDigit = true := by
      intro c hc
      rcases List.mem_cons.1 hc with rfl | hc
      · exact digitChar_isDigit _ (Nat.mod_lt _ (by decide))
      · exact hds c hc
    unfold Nat.toDigitsCore
    by_cases h0 : n / 10 = 0
    · simp only [h0, if_true]
      exact hcons
    · simp only [h0, if_false]
      exact ih _ _ hcons

theorem digitsValueFrom_zeros (k : Nat) (cs : List Char) :
    digitsValueFrom 0 (List.replicate k '0' ++ cs) = digitsValueFrom 0 cs := by
  induction k with
  | zero => simp
  | succ k ih =>
    rw [List.replicate_succ, List.cons_append]
    simp only [digitsValueFrom, List.foldl_cons] at ih ⊢
    exact ih

theorem zeroPad_value (w : Nat) (cs : List Char) :
    digitsValue (zeroPad w cs) = digitsValue cs :=
  digitsValueFrom_zeros _ cs

theorem zeroPad_isDigit (w : Nat) (cs : List Char) (hcs : ∀ c ∈ cs, c.isDigit = true) :
    ∀ c ∈ zeroPad w cs, c.isDigit = true := by
  intro c hc
  simp only [zeroPad, List.mem_append, List.mem_replicate] at hc
  rcases hc with ⟨_, rfl⟩ | hc
  · rfl
  · exact hcs c hc

theorem zeroPad_length (w : Nat) (cs : List Char) :
    w ≤ (zeroPad w cs).length ∧ (cs.length ≤ w → (zeroPad w cs).length = w) := by
  simp only [zeroPad, List.length_append, List.length_replicate]
  omega

theorem toDigits_length_le_six (n : Nat) (hn : n ≤ 999999) :
    (Nat.toDigits 10 n).length ≤ 6 :=
  Nat.toDigitsCore_length 10 (by decide) (n + 1) n 6 (by omega) (by decide)

theorem fmt06d_data (myid : Int) (h0 : 0 ≤ myid) :
    (fmt06d myid).data = zeroPad 6 (Nat.toDigits 10 myid.toNat) := by
  unfold fmt06d
  rw [if_neg (by omega)]

theorem rankFileName_data (pfx : String) (myid : Int) :
    (rankFileName pfx myid).data = pfx.data ++ '.' :: (fmt06d myid).data := by
  simp [rankFileName, String.data_append]

theorem GLVis_PrintSStructVector_opened (fopen : String → Bool) (sol : hypre_SStructVector)
    (var : Int) (pfx : String) (myid : Int) (h : fopen (rankFileName pfx myid) = true) :
    (GLVis_PrintSStructVector fopen sol var pfx myid).opened
      = some (rankFileName pfx myid) := by
  unfold GLVis_PrintSStructVector
  simp only [h, Bool.not_true, Bool.false_eq_true, if_false]
  split <;> rfl

theorem utf8ByteSize_mk (l : List Char) : (String.mk l).utf8ByteSize = String.utf8Len l := by
  show String.utf8ByteSize.go l = _
  rw [String.utf8ByteSize.go_eq]

theorem utf8Size_of_isDigit (c : Char) (h : c.isDigit = true) : c.utf8Size = 1 := by
  simp only [Char.isDigit, Bool.and_eq_true, decide_eq_true_eq, ge_iff_le] at h
  unfold Char.utf8Size
  have h1 := h.2
  rw [UInt32.le_def, BitVec.le_def] at h1
  have h57 : (57 : UInt32).toBitVec.toNat = 57 := by decide
  rw [h57] at h1
  have h2 : c.val ≤ UInt32.ofNatCore 127 (by decide) := by
    rw [UInt32.le_def, BitVec.le_def]
    have h127 : (UInt32.ofNatCore 127 (by decide)).toBitVec.toNat = 127 := by decide
    rw [h127]
    omega
  rw [if_pos h2]

theorem utf8Len_of_isDigit (l : List Char) (h : ∀ c ∈ l, c.isDigit = true) :
    String.utf8Len l = l.length := by
  induction l with
  | nil => rfl
  | cons c l ih =>
    rw [String.utf8Len_cons, List.length_cons,
      ih (fun x hx => h x (List.mem_cons_of_mem _ hx)),
      utf8Size_of_isDigit c (h c (List.mem_cons_self _ _))]

theorem rankFileName_utf8ByteSize (pfx : String) (myid : Int) (h0 : 0 ≤ myid) :
    (rankFileName pfx myid).utf8ByteSize
      = pfx.utf8ByteSize + 1 + (zeroPad 6 (Nat.toDigits 10 myid.toNat)).length := by
  have hd : rankFileName pfx myid
      = String.mk (pfx.data ++ '.' :: zeroPad 6 (Nat.toDigits 10 myid.toNat)) := by
    apply String.ext
    rw [rankFileName_data, fmt06d_data myid h0]
  have hp : pfx.utf8ByteSize = String.utf8Len pfx.data := utf8ByteSize_mk pfx.data
  have hdig : ∀ c ∈ zeroPad 6 (Nat.toDigits 10 myid.toNat), c.isDigit = true :=
    zeroPad_isDigit 6 _ (toDigitsCore_isDigit _ _ [] (by simp))
  rw [hd, utf8ByteSize_mk, String.utf8Len_append, String.utf8Len_cons, hp,
    utf8Len_of_isDigit _ hdig]
  have : Char.utf8Size '.' = 1 := by decide
  omega

theorem utf8Len_replicate_a (n : Nat) : String.utf8Len (List.replicate n 'a') = n := by
  induction n with
  | zero => rfl
  | succ n ih =>
    rw [List.replicate_succ, String.utf8Len_cons, ih]
    have : Char.utf8Size 'a' = 1 := by decide
    omega

theorem sprintfRankFileName_some (pfx : String) (myid : Int) (name : String)
    (h : sprintfRankFileName pfx myid = some name) : rankFileName pfx myid = name := by
  unfold sprintfRankFileName at h
  split at h
  · exact Option.some.inj h
  · exact Option.noConfusion h

/-- C17 (counterexample): the name is not as claimed for every prefix. For the
prefix made of 300 letters `a` and rank 0 the formatted text has 307 bytes, so
with its terminating NUL it does not fit the 255-byte buffer `meshfile` /
`solfile`: `sprintf` writes past the end of the buffer and the routine has no
defined file name. -/
theorem C17_counterexample :
    (0 : Int) ≤ 0
    ∧ (rankFileName longPrefix 0).utf8ByteSize = 307
    ∧ sprintfRankFileName longPrefix 0 = none
    ∧ ¬ (∀ (pfx : String) (myid : Int), 0 ≤ myid →
          sprintfRankFileName pfx myid
            = some (String.mk (pfx.data ++ '.' :: zeroPad 6 (Nat.toDigits 10 myid.toNat)))) := by
  have hp : longPrefix.utf8ByteSize = 300 := by
    rw [longPrefix, utf8ByteSize_mk, utf8Len_replicate_a]
  have hsize : (rankFileName longPrefix 0).utf8ByteSize = 307 := by
    rw [rankFileName_utf8ByteSize longPrefix 0 (le_refl 0), hp]
    decide
  have hnone : sprintfRankFileName longPrefix 0 = none := by
    unfold sprintfRankFileName
    rw [hsize]
    decide
  refine ⟨le_refl 0, hsize, hnone, fun hall => ?_⟩
  have h := hall longPrefix 0 (le_refl 0)
  rw [hnone] at h
  exact Option.noConfusion h

/-- C17 (amended): for every rank `myid ≥ 0` and every prefix for which the
formatted text and its terminating NUL fit the 255-byte name buffer, the
per-process file name is the prefix, a `'.'`, and the decimal digits of the rank
left-padded with `'0'` to six characters: digits only, of value `myid`, at least
six and exactly six for `myid ≤ 999999`. For `0 ≤ myid ≤ 999999` the name fits
exactly when the prefix has at most 247 bytes. Two non-negative ranks with the
same prefix and the same (fitting) file name are equal. This is the name of the
file that `GLVis_PrintSStructGrid` and `GLVis_PrintSStructVector` open. -/
theorem C17_rank_file_names :
    (∀ (pfx : String) (myid : Int), 0 ≤ myid →
        (rankFileName pfx myid).utf8ByteSize + 1 ≤ nameBufferSize →
        (∃ name, sprintfRankFileName pfx myid = some name
          ∧ name.data = pfx.data ++ '.' :: zeroPad 6 (Nat.toDigits 10 myid.toNat))
        ∧ (∀ c ∈ zeroPad 6 (Nat.toDigits 10 myid.toNat), c.isDigit = true)
        ∧ digitsValue (zeroPad 6 (Nat.toDigits 10 myid.toNat)) = myid.toNat
        ∧ 6 ≤ (zeroPad 6 (Nat.toDigits 10 myid.toNat)).length
        ∧ (myid ≤ 999999 → (zeroPad 6 (Nat.toDigits 10 myid.toNat)).length = 6))
    ∧ (∀ (pfx : String) (myid : Int), 0 ≤ myid → myid ≤ 999999 →
        ((rankFileName pfx myid).utf8ByteSize + 1 ≤ nameBufferSize
          ↔ pfx.utf8ByteSize ≤ 247))
    ∧ (∀ (pfx : String) (a b : Int) (name : String), 0 ≤ a → 0 ≤ b →
        sprintfRankFileName pfx a = some name → sprintfRankFileName pfx b = some name →
        a = b)
    ∧ (∀ (fopen : String → Bool) (grid : hypre_SStructGrid) (pfx : String) (myid : Int)
        (trans origin : Option (Int → ℚ)) (name : String),
        sprintfRankFileName pfx myid = some name → fopen name = true →
        (GLVis_PrintSStructGrid fopen grid pfx myid trans origin).opened = some name)
    ∧ (∀ (fopen : String → Bool) (sol : hypre_SStructVector) (var : Int) (pfx : String)
        (myid : Int) (name : String),
        sprintfRankFileName pfx myid = some name → fopen name = true →
        (GLVis_PrintSStructVector fopen sol var pfx myid).opened = some name) := by
  refine ⟨?_, ?_, ?_, ?_, ?_⟩
  · intro pfx myid h0 hfit
    refine ⟨⟨rankFileName pfx myid, ?_, by rw [rankFileName_data, fmt06d_data myid h0]⟩,
      ?_, ?_, ?_, ?_⟩
    · unfold sprintfRankFileName
      rw [if_pos hfit]
    · exact zeroPad_isDigit 6 _ (toDigitsCore_isDigit _ _ [] (by simp))
    · rw [zeroPad_value, toDigits_value]
    · exact (zeroPad_length 6 _).1
    · intro hle
      exact (zeroPad_length 6 _).2 (toDigits_length_le_six _ (by omega))
  · intro pfx myid h0 hle
    rw [rankFileName_utf8ByteSize pfx myid h0,
      (zeroPad_length 6 _).2 (toDigits_length_le_six _ (by omega))]
    unfold nameBufferSize
    omega
  · intro pfx a b name ha hb hna hnb
    have ea := sprintfRankFileName_some pfx a name hna
    have eb := sprintfRankFileName_some pfx b name hnb
    have hab : rankFileName pfx a = rankFileName pfx b := by rw [ea, eb]
    have hdata := congrArg String.data hab
    rw [rankFileName_data, rankFileName_data, fmt06d_data a ha, fmt06d_data b hb] at hdata
    have hpad := List.cons_injective (List.append_cancel_left hdata)
    have hval := congrArg digitsValue hpad
    rw [zeroPad_value, zeroPad_value, toDigits_value, toDigits_value] at hval
    omega
  · intro fopen grid pfx myid trans origin name hname h
    rw [← sprintfRankFileName_some pfx myid name hname] at h ⊢
    simp [GLVis_PrintSStructGrid, h]
  · intro fopen sol var pfx myid name hname h
    rw [← sprintfRankFileName_some pfx myid name hname] at h ⊢
    exact GLVis_PrintSStructVector_opened fopen sol var pfx myid h

/-- C17 on the ranks 7 and 1234567 with prefix `mesh`. -/
theorem C17_rank_file_names_witness :
    (0 : Int) ≤ 7
    ∧ (rankFileName "mesh" 7).utf8ByteSize + 1 ≤ nameBufferSize
    ∧ sprintfRankFileName "mesh" 7 = some "mesh.000007"
    ∧ sprintfRankFileName "mesh" 1234567 = some "mesh.1234567"
    ∧ (∃ name, sprintfRankFileName "mesh" 7 = some name
        ∧ name.data = "mesh".data ++ '.' :: zeroPad 6 (Nat.toDigits 10 7))
    ∧ (zeroPad 6 (Nat.toDigits 10 7)).length = 6
    ∧ (sprintfRankFileName "mesh" 1234567 = some "mesh.000007" → (7 : Int) = 1234567) := by
  obtain ⟨h1, _, _, _, h5⟩ := C17_rank_file_names.1 "mesh" 7 (by decide) (by decide)
  exact ⟨by decide, by decide, by decide, by decide, h1, h5 (by decide),
    C17_rank_file_names.2.2.1 "mesh" 7 1234567 "mesh.000007" (by decide) (by decide)
      (by decide)⟩

/-! ## Structured meshes -/

theorem loopLt_zero_getElem? (n : Int) (i : Nat) (hi : (i : Int) < n) :
    (loopLt 0 n)[i]? = some (i : Int) := by
  have hlt : i < n.toNat := by omega
  simp [loopLt, List.getElem?_map, List.getElem?_range hlt]

theorem grid2_getElem? {β : Type} (W H : Int) (f : Int → Int → β) (i j : Nat)
    (hi : (i : Int) < W) (hj : (j : Int) < H) :
    ((loopLt 0 H).flatMap fun y => (loopLt 0 W).map fun x => f y x)[W.toNat * j + i]?
      = some (f j i) := by
  rw [flatMap_chunk (fun y => (loopLt 0 W).map fun x => f y x) W.toNat
    (by intro a; simp [loopLt_length]) (loopLt 0 H) j i (by omega),
    loopLt_zero_getElem? H j hj]
  simp [List.getElem?_map, loopLt_zero_getElem? W i hi]

theorem grid2_length {β : Type} (W H : Int) (f : Int → Int → β) :
    ((loopLt 0 H).flatMap fun y => (loopLt 0 W).map fun x => f y x).length
      = H.toNat * W.toNat := by
  rw [length_flatMap_const _ _ W.toNat (by intro a; simp [loopLt_length])]
  simp [loopLt_length]

theorem grid3_getElem? {β : Type} (W H D : Int) (f : Int → Int → Int → β) (i j k : Nat)
    (hi : (i : Int) < W) (hj : (j : Int) < H) (hk : (k : Int) < D) :
    ((loopLt 0 D).flatMap fun z => (loopLt 0 H).flatMap fun y =>
        (loopLt 0 W).map fun x => f z y x)[H.toNat * W.toNat * k + (W.toNat * j + i)]?
      = some (f k j i) := by
  have hr : W.toNat * j + i < H.toNat * W.toNat := by
    have h1 : i < W.toNat := by omega
    have h2 : j + 1 ≤ H.toNat := by omega
    calc W.toNat * j + i < W.toNat * j + W.toNat := by omega
      _ = (j + 1) * W.toNat := by ring
      _ ≤ H.toNat * W.toNat := Nat.mul_le_mul_right _ h2
  rw [flatMap_chunk (fun z => (loopLt 0 H).flatMap fun y => (loopLt 0 W).map fun x => f z y x)
    (H.toNat * W.toNat) (fun z => grid2_length W H (f z)) (loopLt 0 D) k _ hr,
    loopLt_zero_getElem? D k hk]
  simp only [Option.some_bind]
  exact grid2_getElem? W H (f k) i j hi hj

theorem grid3_length {β : Type} (W H D : Int) (f : Int → Int → Int → β) :
    ((loopLt 0 D).flatMap fun z => (loopLt 0 H).flatMap fun y =>
        (loopLt 0 W).map fun x => f z y x).length
      = D.toNat * (H.toNat * W.toNat) := by
  rw [length_flatMap_const _ _ (H.toNat * W.toNat) (fun z => grid2_length W H (f z))]
  simp [loopLt_length]

/-- Entry `i + j*W` of a `W × H` table written row after row. -/
theorem grid2_lookup {β : Type} (W H : Int) (f : Int → Int → β) (i j idx : Int)
    (hi0 : 0 ≤ i) (hi : i < W) (hj0 : 0 ≤ j) (hj : j < H) (hidx : idx = i + j * W) :
    ((loopLt 0 H).flatMap fun y => (loopLt 0 W).map fun x => f y x)[idx.toNat]?
      = some (f j i) := by
  lift i to ℕ using hi0
  lift j to ℕ using hj0
  lift W to ℕ using (by omega)
  have hnat : idx.toNat = (W : Int).toNat * j + i := by
    rw [hidx, Int.toNat_ofNat]
    have : ((i : Int) + (j : Int) * (W : Int)) = ((W * j + i : ℕ) : Int) := by
      push_cast; ring
    rw [this, Int.toNat_ofNat]
  rw [hnat]
  exact grid2_getElem? (W : Int) H f i j hi hj

/-- Entry `i + j*W + k*W*H` of a `W × H × D` table written plane after plane,
row after row. -/
theorem grid3_lookup {β : Type} (W H D : Int) (f : Int → Int → Int → β)
    (i j k idx : Int) (hi0 : 0 ≤ i) (hi : i < W) (hj0 : 0 ≤ j) (hj : j < H)
    (hk0 : 0 ≤ k) (hk : k < D) (hidx : idx = i + j * W + k * W * H) :
    ((loopLt 0 D).flatMap fun z => (loopLt 0 H).flatMap fun y =>
        (loopLt 0 W).map fun x => f z y x)[idx.toNat]?
      = some (f k j i) := by
  lift i to ℕ using hi0
  lift j to ℕ using hj0
  lift k to ℕ using hk0
  lift W to ℕ using (by omega)
  lift H to ℕ using (by omega)
  have hnat : idx.toNat = (H : Int).toNat * (W : Int).toNat * k + ((W : Int).toNat * j + i) := by
    rw [hidx, Int.toNat_ofNat, Int.toNat_ofNat]
    have : ((i : Int) + (j : Int) * (W : Int) + (k : Int) * (W : Int) * (H : Int))
        = ((H * W * k + (W * j + i) : ℕ) : Int) := by
      push_cast; ring
    rw [this, Int.toNat_ofNat]
  rw [hnat]
  exact grid3_getElem? (W : Int) (H : Int) D f i j k hi hj hk

theorem LocalSquareMesh_vertices_eq (nx ny : Int) (h x0 y0 : ℚ) :
    LocalSquareMesh_vertices nx ny h x0 y0
      = (loopLt 0 (ny + 1)).flatMap fun j => (loopLt 0 (nx + 1)).map fun i =>
          ((⟨⟨0, 0, i, j, 0⟩, 0, 0, 0⟩ : CornerRef), [x0 + (i : ℚ) * h, y0 + (j : ℚ) * h]) := by
  unfold LocalSquareMesh_vertices
  rw [foldl_append_out2, List.nil_append]
  congr 1
  funext j
  exact flatMap_single _ _

/-- The vertex line with id `i + j*(nx+1)` of `GLVis_PrintLocalSquareMesh`
carries `(x0 + i*h, y0 + j*h)`. -/
theorem LocalSquareMesh_vertex (nx ny : Int) (h x0 y0 : ℚ) (i j idx : Int)
    (hi0 : 0 ≤ i) (hi : i ≤ nx) (hj0 : 0 ≤ j) (hj : j ≤ ny) (hidx : idx = i + j * (nx + 1)) :
    ((LocalSquareMesh_vertices nx ny h x0 y0).map Prod.snd)[idx.toNat]?
      = some [x0 + (i : ℚ) * h, y0 + (j : ℚ) * h] := by
  rw [LocalSquareMesh_vertices_eq, List.getElem?_map,
    grid2_lookup (nx + 1) (ny + 1) _ i j idx hi0 (by omega) hj0 (by omega) hidx]
  rfl

theorem mem_loopLt_zero (n x : Int) : x ∈ loopLt 0 n ↔ 0 ≤ x ∧ x < n := by
  simp only [loopLt, List.mem_map, List.mem_range]
  constructor
  · rintro ⟨m, hm, rfl⟩
    omega
  · rintro ⟨h1, h2⟩
    exact ⟨x.toNat, by omega, by omega⟩

/-- C18: for `nx, ny ≥ 0`, `GLVis_PrintLocalSquareMesh` writes `nx*ny` element
lines and `(nx+1)*(ny+1)` vertex lines, as its two count headers say; every
vertex id of an element is in `[0, (nx+1)*(ny+1))`; every cell `(i,j)` with
`0 ≤ i < nx`, `0 ≤ j < ny` has an element, and the four ids of the element of
cell `(i,j)` are those of the vertex lines `(x0+i*h, y0+j*h)`,
`(x0+(i+1)*h, y0+j*h)`, `(x0+(i+1)*h, y0+(j+1)*h)`, `(x0+i*h, y0+(j+1)*h)`, in
that order. -/
theorem C18_local_square_mesh (fopen : String → Bool) (pfx : String) (nx ny : Int)
    (h x0 y0 : ℚ) (myid : Int) (hopen : fopen (rankFileName pfx myid) = true)
    (hnx : 0 ≤ nx) (hny : 0 ≤ ny) :
    ∃ m, (GLVis_PrintLocalSquareMesh fopen pfx nx ny h x0 y0 myid).content = some m
      ∧ (m.elements.length : Int) = nx * ny ∧ m.nelem = nx * ny
      ∧ (m.vertices.length : Int) = (nx + 1) * (ny + 1) ∧ m.nvert = (nx + 1) * (ny + 1)
      ∧ (∀ r ∈ m.elements, ∀ id ∈ r.2.ids, 0 ≤ id ∧ id < (nx + 1) * (ny + 1))
      ∧ (∀ i j : Int, 0 ≤ i → i < nx → 0 ≤ j → j < ny →
          ∃ r ∈ m.elements, r.1 = ⟨0, 0, i, j, 0⟩)
      ∧ (∀ r ∈ m.elements,
          0 ≤ r.1.i ∧ r.1.i < nx ∧ 0 ≤ r.1.j ∧ r.1.j < ny
          ∧ r.2.ids.map (fun id => (m.vertices.map Prod.snd)[id.toNat]?)
            = [some [x0 + (r.1.i : ℚ) * h, y0 + (r.1.j : ℚ) * h],
               some [x0 + ((r.1.i : ℚ) + 1) * h, y0 + (r.1.j : ℚ) * h],
               some [x0 + ((r.1.i : ℚ) + 1) * h, y0 + ((r.1.j : ℚ) + 1) * h],
               some [x0 + (r.1.i : ℚ) * h, y0 + ((r.1.j : ℚ) + 1) * h]]) := by
  have hc : (GLVis_PrintLocalSquareMesh fopen pfx nx ny h x0 y0 myid).content
      = some ⟨2, nx * ny, LocalSquareMesh_elements nx ny, (nx + 1) * (ny + 1), 2,
          LocalSquareMesh_vertices nx ny h x0 y0⟩ := by
    simp [GLVis_PrintLocalSquareMesh, hopen]
  refine ⟨_, hc, ?_, rfl, ?_, rfl, ?_, ?_, ?_⟩
  · simp only [LocalSquareMesh_elements_eq, grid2_length]
    push_cast
    rw [Int.toNat_of_nonneg hnx, Int.toNat_of_nonneg hny]
    ring
  · simp only [LocalSquareMesh_vertices_eq, grid2_length]
    push_cast
    rw [Int.toNat_of_nonneg (by omega), Int.toNat_of_nonneg (by omega)]
    ring
  · intro r hr id hid
    simp only [LocalSquareMesh_elements_eq, List.mem_flatMap, List.mem_map,
      mem_loopLt_zero] at hr
    obtain ⟨j, ⟨hj0, hj⟩, i, ⟨hi0, hi⟩, rfl⟩ := hr
    simp only [List.mem_cons, List.mem_singleton, List.not_mem_nil, or_false] at hid
    rcases hid with rfl | rfl | rfl | rfl <;> constructor <;> nlinarith
  · intro i j hi0 hi hj0 hj
    refine ⟨((⟨0, 0, i, j, 0⟩ : CellRef),
      (⟨1, 3, [i + j * (nx + 1), i + 1 + j * (nx + 1),
               i + 1 + (j + 1) * (nx + 1), i + (j + 1) * (nx + 1)]⟩ : Element)), ?_, rfl⟩
    simp only [LocalSquareMesh_elements_eq, List.mem_flatMap, List.mem_map, mem_loopLt_zero]
    exact ⟨j, ⟨hj0, hj⟩, i, ⟨hi0, hi⟩, rfl⟩
  · intro r hr
    simp only [LocalSquareMesh_elements_eq, List.mem_flatMap, List.mem_map,
      mem_loopLt_zero] at hr
    obtain ⟨j, ⟨hj0, hj⟩, i, ⟨hi0, hi⟩, rfl⟩ := hr
    refine ⟨hi0, hi, hj0, hj, ?_⟩
    simp only [List.map_cons, List.map_nil]
    rw [LocalSquareMesh_vertex nx ny h x0 y0 i j _ hi0 (by omega) hj0 (by omega) rfl,
      LocalSquareMesh_vertex nx ny h x0 y0 (i + 1) j _ (by omega) (by omega) hj0 (by omega) rfl,
      LocalSquareMesh_vertex nx ny h x0 y0 (i + 1) (j + 1) _ (by omega) (by omega)
        (by omega) (by omega) rfl,
      LocalSquareMesh_vertex nx ny h x0 y0 i (j + 1) _ hi0 (by omega) (by omega) (by omega) rfl]
    push_cast
    rfl

theorem LocalCubicMesh_vertices_eq (nx ny nz : Int) (h x0 y0 z0 : ℚ) :
    LocalCubicMesh_vertices nx ny nz h x0 y0 z0
      = (loopLt 0 (nz + 1)).flatMap fun k => (loopLt 0 (ny + 1)).flatMap fun j =>
          (loopLt 0 (nx + 1)).map fun i =>
            ((⟨⟨0, 0, i, j, k⟩, 0, 0, 0⟩ : CornerRef),
              [x0 + (i : ℚ) * h, y0 + (j : ℚ) * h, z0 + (k : ℚ) * h]) := by
  unfold LocalCubicMesh_vertices
  rw [foldl_append_out3, List.nil_append]
  congr 1
  funext k
  congr 1
  funext j
  exact flatMap_single _ _

/-- The vertex line with id `i + j*(nx+1) + k*(nx+1)*(ny+1)` of
`GLVis_PrintLocalCubicMesh` carries `(x0 + i*h, y0 + j*h, z0 + k*h)`. -/
theorem LocalCubicMesh_vertex (nx ny nz : Int) (h x0 y0 z0 : ℚ) (i j k idx : Int)
    (hi0 : 0 ≤ i) (hi : i ≤ nx) (hj0 : 0 ≤ j) (hj : j ≤ ny) (hk0 : 0 ≤ k) (hk : k ≤ nz)
    (hidx : idx = i + j * (nx + 1) + k * (nx + 1) * (ny + 1)) :
    ((LocalCubicMesh_vertices nx ny nz h x0 y0 z0).map Prod.snd)[idx.toNat]?
      = some [x0 + (i : ℚ) * h, y0 + (j : ℚ) * h, z0 + (k : ℚ) * h] := by
  rw [LocalCubicMesh_vertices_eq, List.getElem?_map,
    grid3_lookup (nx + 1) (ny + 1) (nz + 1) _ i j k idx hi0 (by omega) hj0 (by omega)
      hk0 (by omega) hidx]
  rfl

theorem id3_bound (W H D a b c : Int) (ha0 : 0 ≤ a) (ha : a < W) (hb0 : 0 ≤ b)
    (hb : b < H) (hc0 : 0 ≤ c) (hc : c < D) :
    0 ≤ a + b * W + c * W * H ∧ a + b * W + c * W * H < W * H * D := by
  have hW : 0 < W := by omega
  have hH : 0 < H := by omega
  have hWH : 0 < W * H := mul_pos hW hH
  have h1 : b * W ≤ (H - 1) * W := mul_le_mul_of_nonneg_right (by omega) hW.le
  have h2 : c * W * H ≤ (D - 1) * (W * H) := by
    rw [mul_assoc]
    exact mul_le_mul_of_nonneg_right (by omega) hWH.le
  have h3 : 0 ≤ b * W := mul_nonneg hb0 hW.le
  have h4 : 0 ≤ c * W * H := by
    rw [mul_assoc]
    exact mul_nonneg hc0 hWH.le
  constructor
  · omega
  · have h5 : (H - 1) * W = W * H - W := by ring
    have h6 : (D - 1) * (W * H) = W * H * D - W * H := by ring
    omega

/-- C19: for `nx, ny, nz ≥ 0`, `GLVis_PrintLocalCubicMesh` writes `nx*ny*nz`
element lines and `(nx+1)*(ny+1)*(nz+1)` vertex lines, as its count headers
say; every vertex id of an element is in `[0, (nx+1)*(ny+1)*(nz+1))`; every
cell has an element, and the eight ids of the element of cell `(i,j,k)` are
those of the vertex lines `(x0+(i+di)*h, y0+(j+dj)*h, z0+(k+dk)*h)` for
`(di,dj) = (0,0),(1,0),(1,1),(0,1)` with `dk = 0`, then with `dk = 1`. -/
theorem C19_local_cubic_mesh (fopen : String → Bool) (pfx : String) (nx ny nz : Int)
    (h x0 y0 z0 : ℚ) (myid : Int) (hopen : fopen (rankFileName pfx myid) = true)
    (hnx : 0 ≤ nx) (hny : 0 ≤ ny) (hnz : 0 ≤ nz) :
    ∃ m, (GLVis_PrintLocalCubicMesh fopen pfx nx ny nz h x0 y0 z0 myid).content = some m
      ∧ (m.elements.length : Int) = nx * ny * nz ∧ m.nelem = nx * ny * nz
      ∧ (m.vertices.length : Int) = (nx + 1) * (ny + 1) * (nz + 1)
      ∧ m.nvert = (nx + 1) * (ny + 1) * (nz + 1)
      ∧ (∀ r ∈ m.elements, ∀ id ∈ r.2.ids, 0 ≤ id ∧ id < (nx + 1) * (ny + 1) * (nz + 1))
      ∧ (∀ i j k : Int, 0 ≤ i → i < nx → 0 ≤ j → j < ny → 0 ≤ k → k < nz →
          ∃ r ∈ m.elements, r.1 = ⟨0, 0, i, j, k⟩)
      ∧ (∀ r ∈ m.elements,
          0 ≤ r.1.i ∧ r.1.i < nx ∧ 0 ≤ r.1.j ∧ r.1.j < ny ∧ 0 ≤ r.1.k ∧ r.1.k < nz
          ∧ r.2.ids.map (fun id => (m.vertices.map Prod.snd)[id.toNat]?)
            = [some [x0 + (r.1.i : ℚ) * h, y0 + (r.1.j : ℚ) * h, z0 + (r.1.k : ℚ) * h],
               some [x0 + ((r.1.i : ℚ) + 1) * h, y0 + (r.1.j : ℚ) * h, z0 + (r.1.k : ℚ) * h],
               some [x0 + ((r.1.i : ℚ) + 1) * h, y0 + ((r.1.j : ℚ) + 1) * h, z0 + (r.1.k : ℚ) * h],
               some [x0 + (r.1.i : ℚ) * h, y0 + ((r.1.j : ℚ) + 1) * h, z0 + (r.1.k : ℚ) * h],
               some [x0 + (r.1.i : ℚ) * h, y0 + (r.1.j : ℚ) * h, z0 + ((r.1.k : ℚ) + 1) * h],
               some [x0 + ((r.1.i : ℚ) + 1) * h, y0 + (r.1.j : ℚ) * h, z0 + ((r.1.k : ℚ) + 1) * h],
               some [x0 + ((r.1.i : ℚ) + 1) * h, y0 + ((r.1.j : ℚ) + 1) * h, z0 + ((r.1.k : ℚ) + 1) * h],
               some [x0 + (r.1.i : ℚ) * h, y0 + ((r.1.j : ℚ) + 1) * h, z0 + ((r.1.k : ℚ) + 1) * h]]) := by
  have hc : (GLVis_PrintLocalCubicMesh fopen pfx nx ny nz h x0 y0 z0 myid).content
      = some ⟨3, nx * ny * nz, LocalCubicMesh_elements nx ny nz,
          (nx + 1) * (ny + 1) * (nz + 1), 3,
          LocalCubicMesh_vertices nx ny nz h x0 y0 z0⟩ := by
    simp [GLVis_PrintLocalCubicMesh, hopen]
  refine ⟨_, hc, ?_, rfl, ?_, rfl, ?_, ?_, ?_⟩
  · simp only [LocalCubicMesh_elements_eq, grid3_length]
    push_cast
    rw [Int.toNat_of_nonneg hnx, Int.toNat_of_nonneg hny, Int.toNat_of_nonneg hnz]
    ring
  · simp only [LocalCubicMesh_vertices_eq, grid3_length]
    push_cast
    rw [Int.toNat_of_nonneg (by omega), Int.toNat_of_nonneg (by omega),
      Int.toNat_of_nonneg (by omega)]
    ring
  · intro r hr id hid
    simp only [LocalCubicMesh_elements_eq, List.mem_flatMap, List.mem_map,
      mem_loopLt_zero] at hr
    obtain ⟨k, ⟨hk0, hk⟩, j, ⟨hj0, hj⟩, i, ⟨hi0, hi⟩, rfl⟩ := hr
    simp only [List.mem_cons, List.mem_singleton, List.not_mem_nil, or_false] at hid
    rcases hid with rfl | rfl | rfl | rfl | rfl | rfl | rfl | rfl <;>
      exact id3_bound (nx + 1) (ny + 1) (nz + 1) _ _ _ (by omega) (by omega) (by omega)
        (by omega) (by omega) (by omega)
  · intro i j k hi0 hi hj0 hj hk0 hk
    refine ⟨((⟨0, 0, i, j, k⟩ : CellRef),
      (⟨1, 5, [i + j * (nx + 1) + k * (nx + 1) * (ny + 1),
                i + 1 + j * (nx + 1) + k * (nx + 1) * (ny + 1),
                i + 1 + (j + 1) * (nx + 1) + k * (nx + 1) * (ny + 1),
                i + (j + 1) * (nx + 1) + k * (nx + 1) * (ny + 1),
                i + j * (nx + 1) + (k + 1) * (nx + 1) * (ny + 1),
                i + 1 + j * (nx + 1) + (k + 1) * (nx + 1) * (ny + 1),
                i + 1 + (j + 1) * (nx + 1) + (k + 1) * (nx + 1) * (ny + 1),
                i + (j + 1) * (nx + 1) + (k + 1) * (nx + 1) * (ny + 1)]⟩ : Element)), ?_, rfl⟩
    simp only [LocalCubicMesh_elements_eq, List.mem_flatMap, List.mem_map, mem_loopLt_zero]
    exact ⟨k, ⟨hk0, hk⟩, j, ⟨hj0, hj⟩, i, ⟨hi0, hi⟩, rfl⟩
  · intro r hr
    simp only [LocalCubicMesh_elements_eq, List.mem_flatMap, List.mem_map,
      mem_loopLt_zero] at hr
    obtain ⟨k, ⟨hk0, hk⟩, j, ⟨hj0, hj⟩, i, ⟨hi0, hi⟩, rfl⟩ := hr
    refine ⟨hi0, hi, hj0, hj, hk0, hk, ?_⟩
    simp only [List.map_cons, List.map_nil]
    rw [LocalCubicMesh_vertex nx ny nz h x0 y0 z0 i j k _ hi0 (by omega) hj0 (by omega)
        hk0 (by omega) rfl,
      LocalCubicMesh_vertex nx ny nz h x0 y0 z0 (i + 1) j k _ (by omega) (by omega) hj0 (by omega)
        hk0 (by omega) rfl,
      LocalCubicMesh_vertex nx ny nz h x0 y0 z0 (i + 1) (j + 1) k _ (by omega) (by omega) (by omega) (by omega)
        hk0 (by omega) rfl,
      LocalCubicMesh_vertex nx ny nz h x0 y0 z0 i (j + 1) k _ hi0 (by omega) (by omega) (by omega)
        hk0 (by omega) rfl,
      LocalCubicMesh_vertex nx ny nz h x0 y0 z0 i j (k + 1) _ hi0 (by omega) hj0 (by omega)
        (by omega) (by omega) rfl,
      LocalCubicMesh_vertex nx ny nz h x0 y0 z0 (i + 1) j (k + 1) _ (by omega) (by omega) hj0 (by omega)
        (by omega) (by omega) rfl,
      LocalCubicMesh_vertex nx ny nz h x0 y0 z0 (i + 1) (j + 1) (k + 1) _ (by omega) (by omega) (by omega) (by omega)
        (by omega) (by omega) rfl,
      LocalCubicMesh_vertex nx ny nz h x0 y0 z0 i (j + 1) (k + 1) _ hi0 (by omega) (by omega) (by omega)
        (by omega) (by omega) rfl]
    push_cast
    rfl

theorem GlobalSquareMesh_elements_eq (n : Int) :
    GlobalSquareMesh_elements n = LocalSquareMesh_elements n n := rfl

theorem GlobalSquareMesh_vertices_eq (n : Int) :
    GlobalSquareMesh_vertices n
      = (loopLt 0 (n + 1)).flatMap fun j => (loopLt 0 (n + 1)).map fun i =>
          ((⟨⟨0, 0, i, j, 0⟩, 0, 0, 0⟩ : CornerRef),
            [(i : ℚ) * (1 / (n : ℚ)), (j : ℚ) * (1 / (n : ℚ))]) := by
  unfold GlobalSquareMesh_vertices
  simp only []
  rw [foldl_append_out2, List.nil_append]
  congr 1
  funext j
  exact flatMap_single _ _

/-- The vertex line with id `i + j*(n+1)` of `GLVis_PrintGlobalSquareMesh`
carries `(i/n, j/n)`. -/
theorem GlobalSquareMesh_vertex (n i j idx : Int) (hi0 : 0 ≤ i) (hi : i ≤ n)
    (hj0 : 0 ≤ j) (hj : j ≤ n) (hidx : idx = i + j * (n + 1)) :
    ((GlobalSquareMesh_vertices n).map Prod.snd)[idx.toNat]?
      = some [(i : ℚ) / n, (j : ℚ) / n] := by
  rw [GlobalSquareMesh_vertices_eq, List.getElem?_map,
    grid2_lookup (n + 1) (n + 1) _ i j idx hi0 (by omega) hj0 (by omega) hidx]
  simp [div_eq_mul_inv]

/-- C20: for `n ≥ 1`, `GLVis_PrintGlobalSquareMesh` writes an `n × n` mesh of
squares on the unit square, over exact rational arithmetic: `n*n` elements,
the vertex with id `i + j*(n+1)` (`0 ≤ i, j ≤ n`) at `(i/n, j/n)`, every vertex
in `[0,1]×[0,1]`, the vertices `0`, `n`, `n*(n+1)`, `(n+1)*(n+1)-1` at `(0,0)`,
`(1,0)`, `(0,1)`, `(1,1)`, and the element of cell `(i,j)` with the corners
`(i/n, j/n)`, `((i+1)/n, j/n)`, `((i+1)/n, (j+1)/n)`, `(i/n, (j+1)/n)`, a square
of side `1/n`. -/
theorem C20_global_square_mesh (fopen : String → Bool) (meshfile : String) (n : Int)
    (hopen : fopen meshfile = true) (hn : 1 ≤ n) :
    ∃ m, (GLVis_PrintGlobalSquareMesh fopen meshfile n).content = some m
      ∧ (m.elements.length : Int) = n * n ∧ m.nelem = n * n
      ∧ (m.vertices.length : Int) = (n + 1) * (n + 1) ∧ m.nvert = (n + 1) * (n + 1)
      ∧ (∀ i j : Int, 0 ≤ i → i ≤ n → 0 ≤ j → j ≤ n →
          (m.vertices.map Prod.snd)[(i + j * (n + 1)).toNat]?
            = some [(i : ℚ) / n, (j : ℚ) / n])
      ∧ (∀ v ∈ m.vertices, ∃ x y : ℚ, v.2 = [x, y] ∧ 0 ≤ x ∧ x ≤ 1 ∧ 0 ≤ y ∧ y ≤ 1)
      ∧ (m.vertices.map Prod.snd)[0]? = some [0, 0]
      ∧ (m.vertices.map Prod.snd)[n.toNat]? = some [1, 0]
      ∧ (m.vertices.map Prod.snd)[(n * (n + 1)).toNat]? = some [0, 1]
      ∧ (m.vertices.map Prod.snd)[((n + 1) * (n + 1) - 1).toNat]? = some [1, 1]
      ∧ (∀ r ∈ m.elements,
          0 ≤ r.1.i ∧ r.1.i < n ∧ 0 ≤ r.1.j ∧ r.1.j < n
          ∧ r.2.ids.map (fun id => (m.vertices.map Prod.snd)[id.toNat]?)
            = [some [(r.1.i : ℚ) / n, (r.1.j : ℚ) / n],
               some [((r.1.i : ℚ) + 1) / n, (r.1.j : ℚ) / n],
               some [((r.1.i : ℚ) + 1) / n, ((r.1.j : ℚ) + 1) / n],
               some [(r.1.i : ℚ) / n, ((r.1.j : ℚ) + 1) / n]]) := by
  have hc : (GLVis_PrintGlobalSquareMesh fopen meshfile n).content
      = some ⟨2, n * n, GlobalSquareMesh_elements n, (n + 1) * (n + 1), 2,
          GlobalSquareMesh_vertices n⟩ := by
    simp [GLVis_PrintGlobalSquareMesh, hopen]
  have hnq : (0 : ℚ) < (n : ℚ) := by exact_mod_cast (by omega : (0 : Int) < n)
  have hnn : (n : ℚ) / n = 1 := div_self hnq.ne'
  refine ⟨_, hc, ?_, rfl, ?_, rfl, ?_, ?_, ?_, ?_, ?_, ?_, ?_⟩
  · simp only [GlobalSquareMesh_elements_eq, LocalSquareMesh_elements_eq, grid2_length]
    push_cast
    rw [Int.toNat_of_nonneg (by omega)]
  · simp only [GlobalSquareMesh_vertices_eq, grid2_length]
    push_cast
    rw [Int.toNat_of_nonneg (by omega)]
  · intro i j hi0 hi hj0 hj
    exact GlobalSquareMesh_vertex n i j _ hi0 hi hj0 hj rfl
  · intro v hv
    simp only [GlobalSquareMesh_vertices_eq, List.mem_flatMap, List.mem_map,
      mem_loopLt_zero] at hv
    obtain ⟨j, ⟨hj0, hj⟩, i, ⟨hi0, hi⟩, rfl⟩ := hv
    have hiq : (0 : ℚ) ≤ (i : ℚ) := by exact_mod_cast hi0
    have hjq : (0 : ℚ) ≤ (j : ℚ) := by exact_mod_cast hj0
    have hiq' : (i : ℚ) ≤ (n : ℚ) := by exact_mod_cast (by omega : i ≤ n)
    have hjq' : (j : ℚ) ≤ (n : ℚ) := by exact_mod_cast (by omega : j ≤ n)
    refine ⟨_, _, rfl, ?_, ?_, ?_, ?_⟩
    · rw [mul_one_div]; exact div_nonneg hiq hnq.le
    · rw [mul_one_div]; exact (div_le_one hnq).2 hiq'
    · rw [mul_one_div]; exact div_nonneg hjq hnq.le
    · rw [mul_one_div]; exact (div_le_one hnq).2 hjq'
  · have h := GlobalSquareMesh_vertex n 0 0 0 (by omega) (by omega) (by omega) (by omega)
      (by ring)
    simpa using h
  · have h := GlobalSquareMesh_vertex n n 0 n (by omega) (by omega) (by omega) (by omega)
      (by ring)
    simpa [hnn] using h
  · have h := GlobalSquareMesh_vertex n 0 n (n * (n + 1)) (by omega) (by omega) (by omega)
      (by omega) (by ring)
    simpa [hnn] using h
  · have h := GlobalSquareMesh_vertex n n n ((n + 1) * (n + 1) - 1) (by omega) (by omega)
      (by omega) (by omega) (by ring)
    simpa [hnn] using h
  · intro r hr
    simp only [GlobalSquareMesh_elements_eq, LocalSquareMesh_elements_eq, List.mem_flatMap,
      List.mem_map, mem_loopLt_zero] at hr
    obtain ⟨j, ⟨hj0, hj⟩, i, ⟨hi0, hi⟩, rfl⟩ := hr
    refine ⟨hi0, hi, hj0, hj, ?_⟩
    simp only [List.map_cons, List.map_nil]
    rw [GlobalSquareMesh_vertex n i j _ hi0 (by omega) hj0 (by omega) rfl,
      GlobalSquareMesh_vertex n (i + 1) j _ (by omega) (by omega) hj0 (by omega) rfl,
      GlobalSquareMesh_vertex n (i + 1) (j + 1) _ (by omega) (by omega) (by omega)
        (by omega) rfl,
      GlobalSquareMesh_vertex n i (j + 1) _ hi0 (by omega) (by omega) (by omega) rfl]
    push_cast
    rfl

/-- C18 on the 2×1 mesh with `h = 1/2`, `(x0,y0) = (1,2)` on rank 3: two
elements for six vertices. -/
theorem C18_local_square_mesh_witness :
    openOnly "mesh.000003" (rankFileName "mesh" 3) = true
    ∧ (0 : Int) ≤ 2 ∧ (0 : Int) ≤ 1
    ∧ ∃ m, (GLVis_PrintLocalSquareMesh (openOnly "mesh.000003") "mesh" 2 1 (1 / 2) 1 2
          3).content = some m
        ∧ (m.elements.length : Int) = 2 ∧ m.nelem = 2
        ∧ (m.vertices.length : Int) = 6 ∧ m.nvert = 6 := by
  obtain ⟨m, hm, h1, h2, h3, h4, _⟩ :=
    C18_local_square_mesh (openOnly "mesh.000003") "mesh" 2 1 (1 / 2) 1 2 3
      (by decide) (by decide) (by decide)
  exact ⟨by decide, by decide, by decide, m, hm, by rw [h1]; decide, by rw [h2]; decide,
    by rw [h3]; decide, by rw [h4]; decide⟩

/-- C19 on the single unit cube on rank 0: one element for eight vertices. -/
theorem C19_local_cubic_mesh_witness :
    openOnly "mesh.000000" (rankFileName "mesh" 0) = true
    ∧ (0 : Int) ≤ 1
    ∧ ∃ m, (GLVis_PrintLocalCubicMesh (openOnly "mesh.000000") "mesh" 1 1 1 1 0 0 0
          0).content = some m
        ∧ (m.elements.length : Int) = 1 ∧ m.nelem = 1
        ∧ (m.vertices.length : Int) = 8 ∧ m.nvert = 8 := by
  obtain ⟨m, hm, h1, h2, h3, h4, _⟩ :=
    C19_local_cubic_mesh (openOnly "mesh.000000") "mesh" 1 1 1 1 0 0 0 0
      (by decide) (by decide) (by decide) (by decide)
  exact ⟨by decide, by decide, m, hm, by rw [h1]; decide, by rw [h2]; decide,
    by rw [h3]; decide, by rw [h4]; decide⟩

/-- C20 for `n = 2`: four elements, and the vertex with id `1 + 1*3 = 4` is the
centre `(1/2, 1/2)` of the unit square. -/
theorem C20_global_square_mesh_witness :
    openOnly "mesh" "mesh" = true
    ∧ (1 : Int) ≤ 2
    ∧ ∃ m, (GLVis_PrintGlobalSquareMesh (openOnly "mesh") "mesh" 2).content = some m
        ∧ m.nelem = 4
        ∧ (m.vertices.map Prod.snd)[4]? = some [1 / 2, 1 / 2]
        ∧ (m.vertices.map Prod.snd)[8]? = some [1, 1] := by
  obtain ⟨m, hm, _, h2, _, _, h5, _, _, _, _, h9, _⟩ :=
    C20_global_square_mesh (openOnly "mesh") "mesh" 2 (by decide) (by decide)
  refine ⟨by decide, by decide, m, hm, by rw [h2]; decide, ?_, ?_⟩
  · have h := h5 1 1 (by decide) (by decide) (by decide) (by decide)
    have hidx : ((1 : Int) + 1 * (2 + 1)).toNat = 4 := by decide
    rw [hidx] at h
    rw [h]
    norm_num
  · have hidx : (((2 : Int) + 1) * (2 + 1) - 1).toNat = 8 := by decide
    rw [hidx] at h9
    exact h9

/-- On a grid of dimension 2 whose boxes span a single index on axis 2, and on
every grid of dimension 3, the stored volume of a box is its cell count over
the axes `d < dim`. -/
theorem totalCells_eq_totalCellsD (grid : hypre_SStructGrid)
    (hdim : grid.ndim = 2 ∨ grid.ndim = 3) (hflat : grid.ndim = 2 → BoxesFlat grid) :
    totalCells grid = totalCellsD grid := by
  unfold totalCells totalCellsD boxesVolume
  congr 1
  apply List.map_congr_left
  intro part hpart
  congr 1
  apply List.map_congr_left
  intro box hbox
  rcases hdim with h2 | h3
  · have hf := hflat h2 part hpart box hbox
    rw [h2]
    simp [boxVolumeD, hypre_BoxVolume, hypre_BoxSizeD, List.range_succ, hf]
  · rw [h3]
    simp [boxVolumeD, hypre_BoxVolume, List.range_succ, mul_assoc]

/-- C21: for every grid with `dim` 2 or 3 whose boxes are non-empty on every
axis (and, when `dim = 2`, span a single index on axis 2), the mesh file of
`GLVis_PrintSStructGrid` holds as many element lines as its element count
header says and as many vertex lines as its vertex count header says, the
vertex count header is `cellNV` times the number of element lines, and the
element count header is the number of cells of the boxes over the axes
`d < dim`. -/
theorem C21_line_counts_match_headers (fopen : String → Bool) (grid : hypre_SStructGrid)
    (pfx : String) (myid : Int) (trans origin : Option (Int → ℚ))
    (h : fopen (rankFileName pfx myid) = true)
    (hdim : grid.ndim = 2 ∨ grid.ndim = 3)
    (hne : BoxesNonEmpty grid)
    (hflat : grid.ndim = 2 → BoxesFlat grid) :
    ∃ m, (GLVis_PrintSStructGrid fopen grid pfx myid trans origin).content = some m
      ∧ (m.elements.length : Int) = m.nelem
      ∧ (m.vertices.length : Int) = m.nvert
      ∧ m.nvert = cellNV grid.ndim * (m.elements.length : Int)
      ∧ m.nelem = totalCellsD grid := by
  refine ⟨_, GLVis_PrintSStructGrid_content fopen grid pfx myid trans origin h, ?_, ?_, ?_, ?_⟩
  · simp only [SStructGrid_counts_eq, SStructGrid_elements_length]
    exact gridCells_length grid hne
  · simp only [SStructGrid_counts_eq, SStructGrid_vertices_length]
    rw [gridCells_length grid hne]
  · simp only [SStructGrid_counts_eq, SStructGrid_elements_length]
    rw [gridCells_length grid hne, mul_comm]
  · simp only [SStructGrid_counts_eq]
    exact totalCells_eq_totalCellsD grid hdim hflat

theorem C21_line_counts_match_headers_witness :
    openOnly "mesh.000000" (rankFileName "mesh" 0) = true
    ∧ (grid2x2.ndim = 2 ∨ grid2x2.ndim = 3)
    ∧ BoxesNonEmpty grid2x2
    ∧ (grid2x2.ndim = 2 → BoxesFlat grid2x2)
    ∧ ∃ m, (GLVis_PrintSStructGrid (openOnly "mesh.000000") grid2x2 "mesh" 0 none none).content
          = some m
        ∧ (m.elements.length : Int) = m.nelem
        ∧ (m.vertices.length : Int) = m.nvert
        ∧ m.nvert = cellNV grid2x2.ndim * (m.elements.length : Int)
        ∧ m.nelem = totalCellsD grid2x2 :=
  have hne : BoxesNonEmpty grid2x2 := by
    unfold BoxesNonEmpty; decide
  have hflat : grid2x2.ndim = 2 → BoxesFlat grid2x2 := by
    intro _; unfold BoxesFlat; decide
  ⟨by decide, Or.inl rfl, hne, hflat,
    C21_line_counts_match_headers (openOnly "mesh.000000") grid2x2 "mesh" 0 none none
      (by decide) (Or.inl rfl) hne hflat⟩

/-- Without transform mode the lines of a cell do not depend on the pointers
`T` and `O`. -/
theorem printCellVertices_plain (dim : Int) (T O T' O' : Option (Int → ℚ))
    (x0 y0 z0 h : ℚ) (c : CellRef) :
    printCellVertices dim false T O x0 y0 z0 h c
      = printCellVertices dim false T' O' x0 y0 z0 h c := by
  unfold printCellVertices
  simp

/-- Without transform mode the vertex pass of `GLVis_PrintStructGrid` prints
the plain lines of the cells of the box list, box after box. -/
theorem StructGrid_vertices_plain (grid : hypre_StructGrid)
    (trans origin : Option (Int → ℚ)) (hg : given_trans trans origin = false) :
    StructGrid_vertices grid trans origin
      = (boxesCells 0 grid.boxes).flatMap
          (printCellVertices grid.ndim false trans origin 0 0 0 1) := by
  rw [StructGrid_vertices_eq, hg]
  unfold boxesCells
  rw [flatMap_flatMap]
  simp [transOfPart, originOfPart]

/-- When one of the two pointers is `NULL` the flag `given_trans` is off. -/
theorem given_trans_of_null (trans origin : Option (Int → ℚ))
    (h : trans = none ∨ origin = none) : given_trans trans origin = false := by
  rcases h with h | h <;> subst h <;> simp [given_trans]

/-- Without transform mode the vertex pass of `GLVis_PrintSStructGrid` is the
one of the call with both pointers `NULL`. -/
theorem SStructGrid_vertices_null (grid : hypre_SStructGrid)
    (trans origin : Option (Int → ℚ)) (hg : given_trans trans origin = false) :
    SStructGrid_vertices grid trans origin = SStructGrid_vertices grid none none := by
  rw [SStructGrid_vertices_plain grid trans origin hg,
    SStructGrid_vertices_plain grid none none rfl]
  exact congrArg (List.flatMap _) (funext fun c => printCellVertices_plain _ _ _ _ _ _ _ _ _ _)

/-- Without transform mode the vertex pass of `GLVis_PrintStructGrid` is the
one of the call with both pointers `NULL`. -/
theorem StructGrid_vertices_null (grid : hypre_StructGrid)
    (trans origin : Option (Int → ℚ)) (hg : given_trans trans origin = false) :
    StructGrid_vertices grid trans origin = StructGrid_vertices grid none none := by
  rw [StructGrid_vertices_plain grid trans origin hg,
    StructGrid_vertices_plain grid none none rfl]
  exact congrArg (List.flatMap _) (funext fun c => printCellVertices_plain _ _ _ _ _ _ _ _ _ _)

/-- In dimension 2 the transform branch with the identity matrix and the zero
translation of part `p` prints the plain lines of the cell. -/
theorem printCellVertices_identity2 (T O : Int → ℚ) (p : Nat) (c : CellRef)
    (hid : ∀ row, row < 2 → partOffset 2 O p row = 0
      ∧ ∀ col, col < 2 → partMatrix 2 T p row col = if row = col then 1 else 0) :
    printCellVertices 2 true (ptrAdd (some T) ((p : Int) * (2 * 2)))
        (ptrAdd (some O) ((p : Int) * 2)) 0 0 0 1 c
      = printCellVertices 2 false none none 0 0 0 1 c := by
  have key : ∀ row col : Nat, row < 2 → col < 2 →
      T ((p : Int) * 4 + ((row * 2 + col : Nat) : Int)) = if row = col then 1 else 0 := by
    intro row col hr hc
    rw [← (hid row hr).2 col hc]
    unfold partMatrix
    congr 1
    push_cast
    ring
  have okey : ∀ row : Nat, row < 2 → O ((p : Int) * 2 + (row : Int)) = 0 := by
    intro row hr
    rw [← (hid row hr).1]
    unfold partOffset
    congr 1
  have h00 := key 0 0 (by decide) (by decide)
  have h01 := key 0 1 (by decide) (by decide)
  have h10 := key 1 0 (by decide) (by decide)
  have h11 := key 1 1 (by decide) (by decide)
  have o0 := okey 0 (by decide)
  have o1 := okey 1 (by decide)
  simp at h00 h01 h10 h11 o0 o1
  simp [printCellVertices, ptrAdd, deref, h00, h01, h10, h11, o0, o1]

/-- In dimension 3 the transform branch with the identity matrix and the zero
translation of part `p` prints the plain lines of the cell. -/
theorem printCellVertices_identity3 (T O : Int → ℚ) (p : Nat) (c : CellRef)
    (hid : ∀ row, row < 3 → partOffset 3 O p row = 0
      ∧ ∀ col, col < 3 → partMatrix 3 T p row col = if row = col then 1 else 0) :
    printCellVertices 3 true (ptrAdd (some T) ((p : Int) * (3 * 3)))
        (ptrAdd (some O) ((p : Int) * 3)) 0 0 0 1 c
      = printCellVertices 3 false none none 0 0 0 1 c := by
  have key : ∀ row col : Nat, row < 3 → col < 3 →
      T ((p : Int) * 9 + ((row * 3 + col : Nat) : Int)) = if row = col then 1 else 0 := by
    intro row col hr hc
    rw [← (hid row hr).2 col hc]
    unfold partMatrix
    congr 1
    push_cast
    ring
  have okey : ∀ row : Nat, row < 3 → O ((p : Int) * 3 + (row : Int)) = 0 := by
    intro row hr
    rw [← (hid row hr).1]
    unfold partOffset
    congr 1
  have h00 := key 0 0 (by decide) (by decide)
  have h01 := key 0 1 (by decide) (by decide)
  have h02 := key 0 2 (by decide) (by decide)
  have h10 := key 1 0 (by decide) (by decide)
  have h11 := key 1 1 (by decide) (by decide)
  have h12 := key 1 2 (by decide) (by decide)
  have h20 := key 2 0 (by decide) (by decide)
  have h21 := key 2 1 (by decide) (by decide)
  have h22 := key 2 2 (by decide) (by decide)
  have o0 := okey 0 (by decide)
  have o1 := okey 1 (by decide)
  have o2 := okey 2 (by decide)
  simp at h00 h01 h02 h10 h11 h12 h20 h21 h22 o0 o1 o2
  simp [printCellVertices, ptrAdd, deref, h00, h01, h02, h10, h11, h12, h20, h21, h22,
    o0, o1, o2]

theorem mem_enum_lt {α : Type} (l : List α) (x : Nat × α) (hx : x ∈ l.enum) :
    x.1 < l.length := by
  obtain ⟨i, a⟩ := x
  exact (List.mk_mem_enum_iff_getElem?.1 hx |> fun h => (List.getElem?_eq_some_iff.1 h).1)

/-- The vertex pass of `GLVis_PrintSStructGrid` with the identity matrix and
the zero translation for every part is the vertex pass without transform. -/
theorem SStructGrid_vertices_identity (grid : hypre_SStructGrid) (T O : Int → ℚ)
    (hdim : grid.ndim = 2 ∨ grid.ndim = 3)
    (hid : IdentityPerPart grid.ndim.toNat grid.pgrids.length T O) :
    SStructGrid_vertices grid (some T) (some O) = SStructGrid_vertices grid none none := by
  rw [SStructGrid_vertices_eq, SStructGrid_vertices_eq]
  apply flatMap_congr_mem
  intro pp hpp
  have hp := mem_enum_lt _ _ hpp
  congr 1
  funext c
  rcases hdim with hd | hd
  · rw [hd] at hid ⊢
    exact printCellVertices_identity2 T O pp.1 c (hid pp.1 hp)
  · rw [hd] at hid ⊢
    exact printCellVertices_identity3 T O pp.1 c (hid pp.1 hp)

/-- C22: for every grid with `dim` 2 or 3, the call of `GLVis_PrintSStructGrid`
with `trans = origin = NULL` has the same outcome, vertex line by vertex line,
as the call in which every part is given the `dim × dim` identity matrix and
the zero translation; and each of these vertex lines holds the raw corner
index `(i+di, j+dj[, k+dk])` itself (unit spacing, axis-aligned, origin at
the index origin). -/
theorem C22_identity_without_transform (fopen : String → Bool) (grid : hypre_SStructGrid)
    (pfx : String) (myid : Int) (T O : Int → ℚ)
    (hdim : grid.ndim = 2 ∨ grid.ndim = 3)
    (hid : IdentityPerPart grid.ndim.toNat grid.pgrids.length T O) :
    GLVis_PrintSStructGrid fopen grid pfx myid none none
      = GLVis_PrintSStructGrid fopen grid pfx myid (some T) (some O)
    ∧ SStructGrid_vertices grid none none = SStructGrid_vertices grid (some T) (some O)
    ∧ ∀ v ∈ SStructGrid_vertices grid none none,
        v.2 = (List.range grid.ndim.toNat).map fun d => ((v.1.raw d : Int) : ℚ) := by
  have hv := SStructGrid_vertices_identity grid T O hdim hid
  refine ⟨?_, hv.symm, ?_⟩
  · unfold GLVis_PrintSStructGrid
    rw [hv]
  · intro v hv
    rw [SStructGrid_vertices_plain grid none none rfl, List.mem_flatMap] at hv
    obtain ⟨c, _, hv⟩ := hv
    rcases hdim with hd | hd
    · simp only [hd, printCellVertices, List.mem_cons, List.mem_singleton,
        List.not_mem_nil, or_false, Bool.not_false, if_true] at hv
      rcases hv with rfl | rfl | rfl | rfl <;>
        simp [CornerRef.raw, CornerRef.ri, CornerRef.rj, List.range_succ, hd]
    · simp only [hd, printCellVertices, List.mem_cons, List.mem_singleton,
        List.not_mem_nil, or_false, Bool.not_false, if_true] at hv
      norm_num at hv
      rcases hv with rfl | rfl | rfl | rfl | rfl | rfl | rfl | rfl <;>
        simp [CornerRef.raw, CornerRef.ri, CornerRef.rj, CornerRef.rk, List.range_succ, hd]

theorem C22_identity_without_transform_witness :
    (gridTwoParts.ndim = 2 ∨ gridTwoParts.ndim = 3)
    ∧ IdentityPerPart gridTwoParts.ndim.toNat gridTwoParts.pgrids.length
        identityTwoParts2D.1 identityTwoParts2D.2
    ∧ GLVis_PrintSStructGrid openAll gridTwoParts "mesh" 0 none none
        = GLVis_PrintSStructGrid openAll gridTwoParts "mesh" 0
            (some identityTwoParts2D.1) (some identityTwoParts2D.2) :=
  have hid : IdentityPerPart gridTwoParts.ndim.toNat gridTwoParts.pgrids.length
      identityTwoParts2D.1 identityTwoParts2D.2 := by
    intro p hp row hr
    have hp2 : p < 2 := hp
    have hr2 : row < 2 := hr
    refine ⟨?_, fun col hc => ?_⟩
    · interval_cases p <;> interval_cases row <;> decide!
    · have hc2 : col < 2 := hc
      interval_cases p <;> interval_cases row <;> interval_cases col <;> decide!
  ⟨Or.inl rfl, hid,
    (C22_identity_without_transform openAll gridTwoParts "mesh" 0
      identityTwoParts2D.1 identityTwoParts2D.2 (Or.inl rfl) hid).1⟩

theorem gridCells_single (dim : Int) (part : hypre_SStructPGrid) :
    gridCells ⟨dim, [part]⟩ = boxesCells 0 part.sgrids0.boxes := by
  simp [gridCells, List.enum]

theorem totalCells_single (dim : Int) (part : hypre_SStructPGrid) :
    totalCells ⟨dim, [part]⟩ = boxesVolume part.sgrids0.boxes := by
  simp [totalCells]

/-- The mesh of `GLVis_PrintStructGrid` without transform mode is the mesh of
`GLVis_PrintSStructGrid` for a single part with the same box list. -/
theorem GLVis_PrintStructGrid_single (fopen : String → Bool) (grid : hypre_StructGrid)
    (part : hypre_SStructPGrid) (hboxes : part.sgrids0.boxes = grid.boxes)
    (pfx : String) (myid : Int) (trans origin : Option (Int → ℚ))
    (hg : given_trans trans origin = false) :
    GLVis_PrintStructGrid fopen grid pfx myid trans origin
      = GLVis_PrintSStructGrid fopen ⟨grid.ndim, [part]⟩ pfx myid trans origin := by
  unfold GLVis_PrintStructGrid GLVis_PrintSStructGrid
  simp only [StructGrid_vertices_plain grid trans origin hg,
    SStructGrid_vertices_plain _ trans origin hg, StructGrid_elements_eq,
    SStructGrid_elements_eq, SStructGrid_counts_eq, StructGrid_counts, countBoxes_eq,
    gridCells_single, totalCells_single, hboxes]
  simp

/-- The body of the box loop of `GLVis_PrintStructVector` is the body of the box
loop of `GLVis_PrintSStructVector` for variable 0 (cell-centered) of part 0 of
`singlePartVector`. -/
theorem structValuesOfBox_eq (sol : hypre_StructVector) (dim : Int) (b : Nat)
    (box : hypre_Box) (st : VectorState) :
    structValuesOfBox sol dim b box st
      = sstructValuesOfBox (singlePartVector sol) 0 dim HYPRE_SStructVariable.CELL 0 0 b
          box st := by
  simp [structValuesOfBox, sstructValuesOfBox, singlePartVector]

/-- The loop of `GLVis_PrintStructVector` makes the requests and prints the lines
of `GLVis_PrintSStructVector` for variable 0 of `singlePartVector`. -/
theorem StructVector_pass_eq (sol : hypre_StructVector) :
    StructVector_pass sol
      = SStructVector_pass (singlePartVector sol) 0 HYPRE_SStructVariable.CELL 0 := by
  unfold StructVector_pass SStructVector_pass
  simp only [structValuesOfBox_eq]
  simp [singlePartVector, singlePartGrid, List.enum]

/-- The value lines of a box for a cell-centered variable depend on the field
only through the buffer retrieved for the box. -/
theorem cellValuesOfBox_congr (sol sol' : hypre_SStructVector) (var var' dim : Int)
    (p b : Nat) (box : hypre_Box)
    (hbuf : ∀ il iu, sol.getBoxValues p il iu var = sol'.getBoxValues p il iu var') :
    cellValuesOfBox sol var dim p b box = cellValuesOfBox sol' var' dim p b box := by
  simp [cellValuesOfBox, sstructBufferOfBox, sstructRequestOfBox, hbuf]

/-- On a single-part grid the value lines of a cell-centered variable are those
of the boxes of part 0. -/
theorem cellValueLines_single (sol : hypre_SStructVector) (var : Int)
    (part : hypre_SStructPGrid) (hpg : sol.grid.pgrids = [part]) :
    cellValueLines sol var
      = part.sgrids0.boxes.enum.flatMap fun bb =>
          cellValuesOfBox sol var sol.grid.ndim 0 bb.1 bb.2 := by
  unfold cellValueLines
  rw [hpg]
  simp [List.enum]

theorem mem_offsetCells3_iff (ni nj nk : Int) (p b : Nat) (c : CellRef) :
    c ∈ offsetCells3 ni nj nk p b
      ↔ c.p = p ∧ c.b = b ∧ (0 ≤ c.i ∧ c.i < ni) ∧ (0 ≤ c.j ∧ c.j < nj)
        ∧ (0 ≤ c.k ∧ c.k < nk) := by
  simp only [offsetCells3, List.mem_flatMap, List.mem_map, mem_loopLt_zero]
  constructor
  · rintro ⟨k, hk, j, hj, i, hi, rfl⟩
    exact ⟨rfl, rfl, hi, hj, hk⟩
  · rintro ⟨rfl, rfl, hi, hj, hk⟩
    exact ⟨c.k, hk, c.j, hj, c.i, hi, rfl⟩

theorem mem_offsetCells2_iff (ni nj : Int) (p b : Nat) (c : CellRef) :
    c ∈ offsetCells2 ni nj p b
      ↔ c.p = p ∧ c.b = b ∧ (0 ≤ c.i ∧ c.i < ni) ∧ (0 ≤ c.j ∧ c.j < nj) ∧ c.k = 0 := by
  simp only [offsetCells2, List.mem_flatMap, List.mem_map, mem_loopLt_zero]
  constructor
  · rintro ⟨j, hj, i, hi, rfl⟩
    exact ⟨rfl, rfl, hi, hj, rfl⟩
  · rintro ⟨rfl, rfl, hi, hj, hk⟩
    refine ⟨c.j, hj, c.i, hi, ?_⟩
    cases c
    simp only at hk
    rw [hk]

/-- The index of a cell-centered read lies inside the buffer of its box. -/
theorem cellValuesOfBox_bound (sol : hypre_SStructVector) (var dim : Int) (p b : Nat)
    (box : hypre_Box) (v : ValueLine) (hv : v ∈ cellValuesOfBox sol var dim p b box) :
    v.corner.cell.p = p ∧ v.corner.cell.b = b
    ∧ 0 ≤ v.index ∧ v.index < bufferLength dim 0 box := by
  simp only [cellValuesOfBox, List.mem_map] at hv
  obtain ⟨c, hc, rfl⟩ := hv
  obtain ⟨hp, hb, hi, hj, hk⟩ := (mem_offsetCells3_iff _ _ _ _ _ _).1 hc
  have h2 := id3_bound (hypre_BoxSizeD box 0) (hypre_BoxSizeD box 1) 1 c.i c.j 0
    hi.1 hi.2 hj.1 hj.2 (le_refl 0) (by decide)
  simp only [zero_mul, add_zero, mul_one] at h2
  refine ⟨hp, hb, h2.1, ?_⟩
  unfold bufferLength
  simp only [add_zero]
  split
  · exact h2.2
  · have hpos : 0 < hypre_BoxSizeD box 0 * hypre_BoxSizeD box 1 := by
      apply mul_pos <;> omega
    have hk1 : 1 ≤ hypre_BoxSizeD box 2 := by omega
    calc c.i + c.j * hypre_BoxSizeD box 0
        < hypre_BoxSizeD box 0 * hypre_BoxSizeD box 1 := h2.2
      _ = hypre_BoxSizeD box 0 * hypre_BoxSizeD box 1 * 1 := (mul_one _).symm
      _ ≤ hypre_BoxSizeD box 0 * hypre_BoxSizeD box 1 * hypre_BoxSizeD box 2 :=
          mul_le_mul_of_nonneg_left hk1 hpos.le

theorem mem_cellCorners (dim : Int) (c : CellRef) (r : CornerRef)
    (hr : r ∈ cellCorners dim c) :
    r.cell = c ∧ (0 ≤ r.di ∧ r.di ≤ 1) ∧ (0 ≤ r.dj ∧ r.dj ≤ 1) ∧ (0 ≤ r.dk ∧ r.dk ≤ 1) := by
  unfold cellCorners at hr
  split at hr
  · simp only [List.mem_cons, List.mem_singleton, List.not_mem_nil, or_false] at hr
    rcases hr with rfl | rfl | rfl | rfl <;> simp
  · simp only [List.mem_cons, List.mem_singleton, List.not_mem_nil, or_false] at hr
    rcases hr with rfl | rfl | rfl | rfl | rfl | rfl | rfl | rfl <;> simp

/-- The index of a node-centered read lies inside the buffer of its box. -/
theorem nodeValuesOfBox_bound (sol : hypre_SStructVector) (var dim : Int) (p b : Nat)
    (box : hypre_Box) (v : ValueLine) (hv : v ∈ nodeValuesOfBox sol var dim p b box) :
    v.corner.cell.p = p ∧ v.corner.cell.b = b
    ∧ 0 ≤ v.index ∧ v.index < bufferLength dim 1 box := by
  simp only [nodeValuesOfBox, nodeCellLines, List.mem_flatMap, List.mem_map] at hv
  obtain ⟨c, hc, r, hr, rfl⟩ := hv
  obtain ⟨hcell, hdi, hdj, hdk⟩ := mem_cellCorners dim c r hr
  by_cases hd : dim = 2
  · subst hd
    simp only [if_true] at hc
    obtain ⟨hp, hb, hi, hj, _⟩ := (mem_offsetCells2_iff _ _ _ _ _).1 hc
    have h := id3_bound (hypre_BoxSizeD box 0 + 1) (hypre_BoxSizeD box 1 + 1) 1
      (c.i + r.di) (c.j + r.dj) 0 (by omega) (by omega) (by omega) (by omega) (le_refl 0)
      (by decide)
    simp only [zero_mul, add_zero, mul_one] at h
    simp only [nodeIndex, bufferLength, if_true, CornerRef.ri, CornerRef.rj, hcell]
    exact ⟨hp, hb, h⟩
  · simp only [hd, if_false] at hc
    obtain ⟨hp, hb, hi, hj, hk⟩ := (mem_offsetCells3_iff _ _ _ _ _ _).1 hc
    have h := id3_bound (hypre_BoxSizeD box 0 + 1) (hypre_BoxSizeD box 1 + 1)
      (hypre_BoxSizeD box 2 + 1) (c.i + r.di) (c.j + r.dj) (c.k + r.dk)
      (by omega) (by omega) (by omega) (by omega) (by omega) (by omega)
    simp only [nodeIndex, bufferLength, hd, if_false, CornerRef.ri, CornerRef.rj,
      CornerRef.rk, hcell]
    exact ⟨hp, hb, h⟩

/-- The allocation made for a box has the named length, the request lists the
axes `d < dim`, and for extents at least 0 the allocated length is the number
of indices in the requested range. -/
theorem sstructRequestOfBox_size (dim var_off var : Int) (p b : Nat) (box : hypre_Box)
    (hdim : dim = 2 ∨ dim = 3) (hoff : 0 ≤ var_off)
    (hext : ∀ d, d < 3 → 0 ≤ hypre_BoxSizeD box d) :
    (sstructRequestOfBox dim var_off var p b box).size = bufferLength dim var_off box
    ∧ (sstructRequestOfBox dim var_off var p b box).ilower.length = dim.toNat
    ∧ (sstructRequestOfBox dim var_off var p b box).iupper.length = dim.toNat
    ∧ (sstructRequestOfBox dim var_off var p b box).size
        = (sstructRequestOfBox dim var_off var p b box).rangeSize := by
  have e : ∀ d, d < 3 →
      (((loopLe (hypre_BoxIMinD box d - var_off) (hypre_BoxIMaxD box d)).length : Nat) : Int)
        = hypre_BoxSizeD box d + var_off := by
    intro d hd
    have h := hext d hd
    unfold hypre_BoxSizeD at h ⊢
    rw [loopLe_length, Int.toNat_of_nonneg (by omega)]
    ring
  rcases hdim with hd | hd <;> subst hd
  · refine ⟨rfl, rfl, rfl, ?_⟩
    simp [sstructRequestOfBox, BoxRequest.rangeSize, e 0 (by decide), e 1 (by decide)]
  · refine ⟨rfl, rfl, rfl, ?_⟩
    simp [sstructRequestOfBox, BoxRequest.rangeSize, e 0 (by decide), e 1 (by decide),
      e 2 (by decide), mul_assoc]

theorem mem_SStructVector_requests (sol : hypre_SStructVector) (var : Int)
    (vartype : HYPRE_SStructVariable) (var_off : Int) (r : BoxRequest) :
    r ∈ (SStructVector_pass sol var vartype var_off).requests
      ↔ ∃ pp ∈ sol.grid.pgrids.enum, ∃ bb ∈ pp.2.sgrids0.boxes.enum,
          r = sstructRequestOfBox sol.grid.ndim var_off var pp.1 bb.1 bb.2 := by
  rw [SStructVector_pass_requests]
  simp only [List.mem_flatMap, List.mem_singleton]

/-- The allocations of a pass of `GLVis_PrintSStructVector` match its requests. -/
theorem SStructVector_pass_allocations (sol : hypre_SStructVector) (var : Int)
    (vartype : HYPRE_SStructVariable) (var_off : Int)
    (hdim : sol.grid.ndim = 2 ∨ sol.grid.ndim = 3) (hoff : 0 ≤ var_off)
    (hext : ∀ part ∈ sol.grid.pgrids, ExtentsNonneg part.sgrids0.boxes) :
    AllocationsMatchRequests sol.grid var_off (SStructVector_pass sol var vartype var_off) := by
  intro r hr
  obtain ⟨pp, hpp, bb, hbb, rfl⟩ := (mem_SStructVector_requests _ _ _ _ _).1 hr
  have hbox := boxAt_of_mem_enum sol.grid pp bb hpp hbb
  have hx := hext pp.2 (List.snd_mem_of_mem_enum hpp) bb.2 (List.snd_mem_of_mem_enum hbb)
  obtain ⟨h1, h2, h3, h4⟩ := sstructRequestOfBox_size sol.grid.ndim var_off var pp.1 bb.1
    bb.2 hdim hoff hx
  exact ⟨bb.2, hbox, h1, h2, h3, h4⟩

/-- The reads of the cell-centered pass of `GLVis_PrintSStructVector` hit the
buffers allocated for their boxes. -/
theorem SStructVector_pass_reads_cell (sol : hypre_SStructVector) (var : Int) :
    ReadsInsideBuffers sol.grid 0 (SStructVector_pass sol var HYPRE_SStructVariable.CELL 0) := by
  intro v hv
  rw [SStructVector_pass_out_cell] at hv
  simp only [cellValueLines, List.mem_flatMap] at hv
  obtain ⟨pp, hpp, bb, hbb, hv⟩ := hv
  obtain ⟨hp, hb, h0, h1⟩ := cellValuesOfBox_bound _ _ _ _ _ _ _ hv
  refine ⟨bb.2, sstructRequestOfBox sol.grid.ndim 0 var pp.1 bb.1 bb.2, ?_, ?_, hp.symm,
    hb.symm, rfl, h0, h1⟩
  · rw [hp, hb]
    exact boxAt_of_mem_enum sol.grid pp bb hpp hbb
  · exact (mem_SStructVector_requests _ _ _ _ _).2 ⟨pp, hpp, bb, hbb, rfl⟩

/-- The reads of the node-centered pass of `GLVis_PrintSStructVector` hit the
buffers allocated for their boxes. -/
theorem SStructVector_pass_reads_node (sol : hypre_SStructVector) (var : Int) :
    ReadsInsideBuffers sol.grid 1 (SStructVector_pass sol var HYPRE_SStructVariable.NODE 1) := by
  intro v hv
  rw [SStructVector_pass_out_node] at hv
  simp only [nodeValueLines, List.mem_flatMap] at hv
  obtain ⟨pp, hpp, bb, hbb, hv⟩ := hv
  obtain ⟨hp, hb, h0, h1⟩ := nodeValuesOfBox_bound _ _ _ _ _ _ _ hv
  refine ⟨bb.2, sstructRequestOfBox sol.grid.ndim 1 var pp.1 bb.1 bb.2, ?_, ?_, hp.symm,
    hb.symm, rfl, h0, h1⟩
  · rw [hp, hb]
    exact boxAt_of_mem_enum sol.grid pp bb hpp hbb
  · exact (mem_SStructVector_requests _ _ _ _ _).2 ⟨pp, hpp, bb, hbb, rfl⟩

/-- C23: for grids with `dim` 2 or 3 whose boxes have extents `ni, nj, nk ≥ 0`,
every buffer index read by `GLVis_PrintSStructVector` (cell-centered and
node-centered pass) and by `GLVis_PrintStructVector` lies inside the buffer
allocated for the box of the read: it is at least 0 and below `ni*nj`
(`dim = 2`) or `ni*nj*nk` (`dim = 3`) for a cell-centered variable, below
`(ni+1)*(nj+1)` or `(ni+1)*(nj+1)*(nk+1)` for a node-centered one; and every
allocated length is the number of indices in the requested range
`[ilower_d, iupper_d]` over the axes `d < dim`. The value lines of the files
are the lines of these passes. -/
theorem C23_reads_inside_buffers (sol : hypre_SStructVector) (var : Int)
    (structSol : hypre_StructVector)
    (hdim : sol.grid.ndim = 2 ∨ sol.grid.ndim = 3)
    (hext : ∀ part ∈ sol.grid.pgrids, ExtentsNonneg part.sgrids0.boxes)
    (hsdim : structSol.grid.ndim = 2 ∨ structSol.grid.ndim = 3)
    (hsext : ExtentsNonneg structSol.grid.boxes) :
    (ReadsInsideBuffers sol.grid 0 (SStructVector_pass sol var HYPRE_SStructVariable.CELL 0)
      ∧ AllocationsMatchRequests sol.grid 0
          (SStructVector_pass sol var HYPRE_SStructVariable.CELL 0))
    ∧ (ReadsInsideBuffers sol.grid 1 (SStructVector_pass sol var HYPRE_SStructVariable.NODE 1)
      ∧ AllocationsMatchRequests sol.grid 1
          (SStructVector_pass sol var HYPRE_SStructVariable.NODE 1))
    ∧ (ReadsInsideBuffers (singlePartGrid structSol.grid) 0 (StructVector_pass structSol)
      ∧ AllocationsMatchRequests (singlePartGrid structSol.grid) 0
          (StructVector_pass structSol))
    ∧ (∀ (fopen : String → Bool) (pfx : String) (myid : Int) (f : FieldFile),
        (GLVis_PrintSStructVector fopen sol var pfx myid).content = some f →
          f.values = (SStructVector_pass sol var HYPRE_SStructVariable.CELL 0).out
          ∨ f.values = (SStructVector_pass sol var HYPRE_SStructVariable.NODE 1).out)
    ∧ (∀ (fopen : String → Bool) (pfx : String) (myid : Int) (f : FieldFile),
        (GLVis_PrintStructVector fopen structSol pfx myid).content = some f →
          f.values = (StructVector_pass structSol).out) := by
  refine ⟨⟨SStructVector_pass_reads_cell sol var,
      SStructVector_pass_allocations sol var _ 0 hdim (le_refl 0) hext⟩,
    ⟨SStructVector_pass_reads_node sol var,
      SStructVector_pass_allocations sol var _ 1 hdim (by decide) hext⟩, ⟨?_, ?_⟩, ?_, ?_⟩
  · rw [StructVector_pass_eq]
    exact SStructVector_pass_reads_cell (singlePartVector structSol) 0
  · rw [StructVector_pass_eq]
    refine SStructVector_pass_allocations (singlePartVector structSol) 0 _ 0 hsdim
      (le_refl 0) ?_
    intro part hpart
    simp only [singlePartVector, singlePartGrid, List.mem_singleton] at hpart
    subst hpart
    exact hsext
  · intro fopen pfx myid f hf
    cases hfo : fopen (rankFileName pfx myid) with
    | false => simp [GLVis_PrintSStructVector, hfo] at hf
    | true =>
      rcases hvt : vartypeOf sol.grid var with _ | vt
      · simp [GLVis_PrintSStructVector, hfo, hvt] at hf
      · cases vt with
        | CELL =>
          rw [GLVis_PrintSStructVector_cell fopen sol var pfx myid hfo hvt] at hf
          simp only [Option.some.injEq] at hf
          subst hf
          exact Or.inl rfl
        | NODE =>
          rw [GLVis_PrintSStructVector_node fopen sol var pfx myid hfo hvt] at hf
          simp only [Option.some.injEq] at hf
          subst hf
          exact Or.inr rfl
        | FACE => simp [GLVis_PrintSStructVector, hfo, hvt] at hf
  · intro fopen pfx myid f hf
    cases hfo : fopen (rankFileName pfx myid) with
    | false => simp [GLVis_PrintStructVector, hfo] at hf
    | true =>
      simp only [GLVis_PrintStructVector, hfo, Bool.not_true, Bool.false_eq_true, if_false,
        Option.some.injEq] at hf
      subst hf
      rfl

theorem C23_reads_inside_buffers_witness :
    (sstructVectorNode.grid.ndim = 2 ∨ sstructVectorNode.grid.ndim = 3)
    ∧ (∀ part ∈ sstructVectorNode.grid.pgrids, ExtentsNonneg part.sgrids0.boxes)
    ∧ (structVector1x1x2.grid.ndim = 2 ∨ structVector1x1x2.grid.ndim = 3)
    ∧ ExtentsNonneg structVector1x1x2.grid.boxes
    ∧ ReadsInsideBuffers sstructVectorNode.grid 1
        (SStructVector_pass sstructVectorNode 0 HYPRE_SStructVariable.NODE 1)
    ∧ AllocationsMatchRequests sstructVectorNode.grid 1
        (SStructVector_pass sstructVectorNode 0 HYPRE_SStructVariable.NODE 1)
    ∧ ReadsInsideBuffers (singlePartGrid structVector1x1x2.grid) 0
        (StructVector_pass structVector1x1x2)
    ∧ (SStructVector_pass sstructVectorNode 0 HYPRE_SStructVariable.NODE 1).out.map
        (fun v => v.index) = [0, 1, 3, 2]
    ∧ (SStructVector_pass sstructVectorNode 0 HYPRE_SStructVariable.NODE 1).requests.map
        (fun r => r.size) = [4]
    ∧ (StructVector_pass structVector1x1x2).out.map (fun v => v.index) = [0, 0]
    ∧ (StructVector_pass structVector1x1x2).requests.map (fun r => r.size) = [2] :=
  have h1 : ∀ part ∈ sstructVectorNode.grid.pgrids, ExtentsNonneg part.sgrids0.boxes := by
    unfold ExtentsNonneg; decide
  have h2 : ExtentsNonneg structVector1x1x2.grid.boxes := by
    unfold ExtentsNonneg; decide
  have h := C23_reads_inside_buffers sstructVectorNode 0 structVector1x1x2 (Or.inl rfl) h1
    (Or.inr rfl) h2
  ⟨Or.inl rfl, h1, Or.inr rfl, h2, h.2.1.1, h.2.1.2, h.2.2.1.1, by decide, by decide,
    by decide, by decide⟩

/-- C24: without a transform `GLVis_PrintStructGrid` on a grid with box list `B`
has the same outcome (same file, headers, element lines and vertex lines) as
`GLVis_PrintSStructGrid` on a single-part grid of the same dimension whose part
has box list `B`; and `GLVis_PrintStructVector` has the same outcome (same
file, collection name and value lines) as `GLVis_PrintSStructVector` for a
cell-centered variable on such a single-part grid whenever the buffers
retrieved for part 0 are those of the Struct field. -/
theorem C24_struct_is_single_part (fopen : String → Bool) (pfx : String) (myid : Int) :
    (∀ (grid : hypre_StructGrid) (part : hypre_SStructPGrid),
        part.sgrids0.boxes = grid.boxes →
        GLVis_PrintStructGrid fopen grid pfx myid none none
          = GLVis_PrintSStructGrid fopen ⟨grid.ndim, [part]⟩ pfx myid none none)
    ∧ (∀ (sol : hypre_StructVector) (ssol : hypre_SStructVector) (var : Int)
        (part : hypre_SStructPGrid),
        ssol.grid = ⟨sol.grid.ndim, [part]⟩ →
        part.sgrids0.boxes = sol.grid.boxes →
        vartypeOf ssol.grid var = some HYPRE_SStructVariable.CELL →
        (∀ il iu, ssol.getBoxValues 0 il iu var = sol.getBoxValues il iu) →
        GLVis_PrintStructVector fopen sol pfx myid
          = GLVis_PrintSStructVector fopen ssol var pfx myid) := by
  refine ⟨fun grid part hboxes =>
    GLVis_PrintStructGrid_single fopen grid part hboxes pfx myid none none rfl, ?_⟩
  intro sol ssol var part hgrid hboxes hcell hbuf
  have hpg : ssol.grid.pgrids = [part] := by rw [hgrid]
  have hnd : ssol.grid.ndim = sol.grid.ndim := by rw [hgrid]
  have hout : (StructVector_pass sol).out
      = (SStructVector_pass ssol var HYPRE_SStructVariable.CELL 0).out := by
    rw [StructVector_pass_eq, SStructVector_pass_out_cell, SStructVector_pass_out_cell,
      cellValueLines_single _ 0 ⟨sol.grid, [HYPRE_SStructVariable.CELL]⟩ rfl,
      cellValueLines_single ssol var part hpg, hboxes, hnd]
    apply flatMap_congr_mem
    intro bb _
    exact cellValuesOfBox_congr _ _ _ _ _ _ _ _ (fun il iu => (hbuf il iu).symm)
  unfold GLVis_PrintStructVector GLVis_PrintSStructVector
  simp only [hcell, hout]

theorem C24_struct_is_single_part_witness :
    (⟨structGridTwoBoxes, [HYPRE_SStructVariable.NODE]⟩ : hypre_SStructPGrid).sgrids0.boxes
        = structGridTwoBoxes.boxes
    ∧ GLVis_PrintStructGrid openAll structGridTwoBoxes "mesh" 0 none none
        = GLVis_PrintSStructGrid openAll
            ⟨structGridTwoBoxes.ndim, [⟨structGridTwoBoxes, [HYPRE_SStructVariable.NODE]⟩]⟩
            "mesh" 0 none none
    ∧ sstructVector1x1x2.grid
        = ⟨structVector1x1x2.grid.ndim,
            [⟨structVector1x1x2.grid, [HYPRE_SStructVariable.CELL]⟩]⟩
    ∧ vartypeOf sstructVector1x1x2.grid 0 = some HYPRE_SStructVariable.CELL
    ∧ (∀ il iu, sstructVector1x1x2.getBoxValues 0 il iu 0
        = structVector1x1x2.getBoxValues il iu)
    ∧ GLVis_PrintStructVector openAll structVector1x1x2 "sol" 0
        = GLVis_PrintSStructVector openAll sstructVector1x1x2 0 "sol" 0 :=
  ⟨rfl,
    (C24_struct_is_single_part openAll "mesh" 0).1 structGridTwoBoxes
      ⟨structGridTwoBoxes, [HYPRE_SStructVariable.NODE]⟩ rfl,
    rfl, rfl, fun _ _ => rfl,
    (C24_struct_is_single_part openAll "sol" 0).2 structVector1x1x2 sstructVector1x1x2 0
      ⟨structVector1x1x2.grid, [HYPRE_SStructVariable.CELL]⟩ rfl rfl rfl (fun _ _ => rfl)⟩

/-- C25: `GLVis_PrintSStructGrid` and `GLVis_PrintStructGrid` are in transform
mode exactly when both `trans` and `origin` are supplied; when one of them is
`NULL` the other one is ignored: the whole outcome (messages, file opened,
headers, element lines, vertex lines) is the outcome of the call with both
pointers `NULL`. -/
theorem C25_transform_needs_both (fopen : String → Bool) (pfx : String) (myid : Int)
    (trans origin : Option (Int → ℚ)) :
    (given_trans trans origin = true ↔ trans ≠ none ∧ origin ≠ none)
    ∧ (trans = none ∨ origin = none →
        (∀ grid : hypre_SStructGrid,
          GLVis_PrintSStructGrid fopen grid pfx myid trans origin
            = GLVis_PrintSStructGrid fopen grid pfx myid none none)
        ∧ (∀ grid : hypre_StructGrid,
          GLVis_PrintStructGrid fopen grid pfx myid trans origin
            = GLVis_PrintStructGrid fopen grid pfx myid none none)) := by
  refine ⟨?_, fun h => ⟨fun grid => ?_, fun grid => ?_⟩⟩
  · cases trans <;> cases origin <;> simp [given_trans]
  · unfold GLVis_PrintSStructGrid
    rw [SStructGrid_vertices_null grid trans origin (given_trans_of_null trans origin h)]
  · unfold GLVis_PrintStructGrid
    rw [StructGrid_vertices_null grid trans origin (given_trans_of_null trans origin h)]

theorem C25_transform_needs_both_witness :
    (arrayOf [2, 0, 0, 2] = none ∨ (none : Option (Int → ℚ)) = none)
    ∧ GLVis_PrintSStructGrid openAll gridTwoParts "mesh" 0 (arrayOf [2, 0, 0, 2]) none
        = GLVis_PrintSStructGrid openAll gridTwoParts "mesh" 0 none none
    ∧ GLVis_PrintStructGrid openAll structGridTwoBoxes "mesh" 0 (arrayOf [2, 0, 0, 2]) none
        = GLVis_PrintStructGrid openAll structGridTwoBoxes "mesh" 0 none none :=
  ⟨Or.inr rfl,
    ((C25_transform_needs_both openAll "mesh" 0 (arrayOf [2, 0, 0, 2]) none).2
      (Or.inr rfl)).1 gridTwoParts,
    ((C25_transform_needs_both openAll "mesh" 0 (arrayOf [2, 0, 0, 2]) none).2
      (Or.inr rfl)).2 structGridTwoBoxes⟩

end GLVis
